import Mathlib

/-! TME-Teacher: session and authenticated-request manager.

A shallow embedding of `src/hooks/useAuth.js` and `src/utils/api.js`.

JavaScript strings are sequences of UTF-16 code units, JavaScript exceptions are
the `error` side of `Except`, and the browser's `localStorage` is an explicit
key/value state.  The platform functions the source calls (`String.prototype.split`,
`atob`, `JSON.parse`, `localStorage`) are modelled after their standards
(ECMA-262, the HTML forgiving-base64 decoder, ECMA-404).
-/

namespace TME

/-! ## JavaScript strings and values -/

/-- A JavaScript string, as its sequence of UTF-16 code units. -/
abbrev JSString := List Nat

/-- UTF-16 code units of one Unicode scalar value. -/
def codeUnits (c : Char) : List Nat :=
  if c.toNat < 65536 then [c.toNat]
  else [55296 + (c.toNat - 65536) / 1024, 56320 + (c.toNat - 65536) % 1024]

/-- The JavaScript string written as the literal `s`. -/
def lit (s : String) : JSString := (s.data.map codeUnits).flatten

/-- JavaScript values that can reach the session code: `undefined` and the values
`JSON.parse` produces.  A number is carried as its source lexeme (of the IEEE double it
denotes only whether it is zero is modelled, in `numberIsZero`); an object is its list
of own properties, in the order of the source text. -/
inductive JSVal where
  | undefined : JSVal
  | null : JSVal
  | bool (b : Bool) : JSVal
  | num (lexeme : JSString) : JSVal
  | str (s : JSString) : JSVal
  | arr (xs : List JSVal) : JSVal
  | obj (props : List (JSString × JSVal)) : JSVal

/-- Exceptions the modelled code can raise. -/
inductive JSError where
  | typeError : JSError
  | invalidCharacterError : JSError
  | syntaxError : JSError
  deriving DecidableEq, Repr

/-! ## `String.prototype.split` with a one-character separator -/

/-- `s.split(sep)` for a separator of one code unit: the maximal runs between
occurrences of `sep`, in order; always at least one segment. -/
def splitOn (sep : Nat) : JSString → List JSString
  | [] => [[]]
  | c :: cs =>
    if c = sep then [] :: splitOn sep cs
    else
      match splitOn sep cs with
      | [] => [[c]]
      | seg :: rest => (c :: seg) :: rest

/-! ## `atob`: the forgiving-base64 decoder of the HTML standard -/

/-- ASCII whitespace: TAB, LF, FF, CR, SPACE. -/
def isAsciiWhitespace (c : Nat) : Bool :=
  c = 9 || c = 10 || c = 12 || c = 13 || c = 32

/-- Value of a character of the standard base64 alphabet `A-Z a-z 0-9 + /`. -/
def b64Index (c : Nat) : Option Nat :=
  if 65 ≤ c ∧ c ≤ 90 then some (c - 65)
  else if 97 ≤ c ∧ c ≤ 122 then some (c - 71)
  else if 48 ≤ c ∧ c ≤ 57 then some (c + 4)
  else if c = 43 then some 62
  else if c = 47 then some 63
  else none

/-- When the length is a multiple of four, one or two trailing `=` are removed. -/
def stripPadding (d : JSString) : JSString :=
  if d.length % 4 = 0 then
    if d.drop (d.length - 2) = [61, 61] then d.take (d.length - 2)
    else if d.drop (d.length - 1) = [61] then d.take (d.length - 1)
    else d
  else d

/-- Alphabet values of all characters, or `none` if one is outside the alphabet. -/
def sextets : JSString → Option (List Nat)
  | [] => some []
  | c :: cs =>
    match b64Index c, sextets cs with
    | some v, some vs => some (v :: vs)
    | _, _ => none

/-- Bytes carried by a sequence of 6-bit values: three bytes for each full group of
four, and the leftover 12 or 18 bits give one or two bytes (extra bits dropped). -/
def decodeSextets : List Nat → List Nat
  | a :: b :: c :: d :: rest =>
    (a * 4 + b / 16) :: ((b % 16) * 16 + c / 4) :: ((c % 4) * 64 + d) :: decodeSextets rest
  | [a, b, c] => [a * 4 + b / 16, (b % 16) * 16 + c / 4]
  | [a, b] => [a * 4 + b / 16]
  | _ => []

/-- `atob(data)`: the binary string encoded by `data`, or an `InvalidCharacterError`. -/
def atob (data : JSString) : Except JSError JSString :=
  let d := stripPadding (data.filter fun c => !isAsciiWhitespace c)
  if d.length % 4 = 1 then .error .invalidCharacterError
  else
    match sextets d with
    | none => .error .invalidCharacterError
    | some vs => .ok (decodeSextets vs)

/-! ## `JSON.parse` -/

/-- JSON whitespace: SPACE, TAB, LF, CR. -/
def isJsonWs (c : Nat) : Bool :=
  c = 32 || c = 9 || c = 10 || c = 13

/-- Input with leading JSON whitespace removed. -/
def skipWs (cs : JSString) : JSString := cs.dropWhile isJsonWs

/-- Decimal digit test. -/
def isDigit (c : Nat) : Bool := decide (48 ≤ c) && decide (c ≤ 57)

/-- Value of a hexadecimal digit. -/
def hexVal (c : Nat) : Option Nat :=
  if 48 ≤ c ∧ c ≤ 57 then some (c - 48)
  else if 97 ≤ c ∧ c ≤ 102 then some (c - 87)
  else if 65 ≤ c ∧ c ≤ 70 then some (c - 55)
  else none

/-- Character denoted by a one-letter escape `\" \\ \/ \b \f \n \r \t`. -/
def escapeChar (e : Nat) : Option Nat :=
  if e = 34 then some 34
  else if e = 92 then some 92
  else if e = 47 then some 47
  else if e = 98 then some 8
  else if e = 102 then some 12
  else if e = 110 then some 10
  else if e = 114 then some 13
  else if e = 116 then some 9
  else none

/-- The input after the literal `p`, if the input starts with `p`. -/
def dropLiteral : JSString → JSString → Option JSString
  | [], cs => some cs
  | _ :: _, [] => none
  | p :: ps, c :: cs => if p = c then dropLiteral ps cs else none

/-- A string's characters up to its closing quote (the opening quote already read),
and the input that follows. -/
def parseStringBody : JSString → Option (JSString × JSString)
  | [] => none
  | c :: rest =>
    if c = 34 then some ([], rest)
    else if c = 92 then
      match rest with
      | [] => none
      | e :: r1 =>
        if e = 117 then
          match r1 with
          | h1 :: h2 :: h3 :: h4 :: r2 =>
            match hexVal h1, hexVal h2, hexVal h3, hexVal h4 with
            | some a, some b, some x, some d =>
              match parseStringBody r2 with
              | some (s, r) => some ((a * 4096 + b * 256 + x * 16 + d) :: s, r)
              | none => none
            | _, _, _, _ => none
          | _ => none
        else
          match escapeChar e with
          | some u =>
            match parseStringBody r1 with
            | some (s, r) => some (u :: s, r)
            | none => none
          | none => none
    else if c < 32 then none
    else
      match parseStringBody rest with
      | some (s, r) => some (c :: s, r)
      | none => none

/-- An optional leading sign among `signs`, and the input after it. -/
def optSign (signs : List Nat) (cs : JSString) : JSString × JSString :=
  match cs with
  | [] => ([], [])
  | s :: r => if s ∈ signs then ([s], r) else ([], cs)

/-- Optional exponent part `[eE][+-]?[0-9]+` of a number. -/
def parseExp (cs : JSString) : Option (JSString × JSString) :=
  match cs with
  | [] => some ([], [])
  | e :: r =>
    if e = 101 ∨ e = 69 then
      let sg := optSign [43, 45] r
      let ds := sg.2.span isDigit
      if ds.1 = [] then none else some (e :: sg.1 ++ ds.1, ds.2)
    else some ([], cs)

/-- Optional fraction part `.[0-9]+` of a number. -/
def parseFrac (cs : JSString) : Option (JSString × JSString) :=
  match cs with
  | [] => some ([], [])
  | p :: r =>
    if p = 46 then
      let ds := r.span isDigit
      if ds.1 = [] then none else some (p :: ds.1, ds.2)
    else some ([], cs)

/-- Integer part `0 | [1-9][0-9]*` of a number. -/
def parseInt (cs : JSString) : Option (JSString × JSString) :=
  match cs with
  | [] => none
  | d :: r =>
    if d = 48 then some ([48], r)
    else if 49 ≤ d ∧ d ≤ 57 then
      let ds := r.span isDigit
      some (d :: ds.1, ds.2)
    else none

/-- A JSON number `-? int frac? exp?`: its lexeme and the input that follows. -/
def parseNumber (cs : JSString) : Option (JSString × JSString) :=
  let sg := optSign [45] cs
  match parseInt sg.2 with
  | none => none
  | some (i, r1) =>
    match parseFrac r1 with
    | none => none
    | some (f, r2) =>
      match parseExp r2 with
      | none => none
      | some (x, r3) => some (sg.1 ++ i ++ f ++ x, r3)

/-- Define property `k` of an object: an existing property keeps its place and takes
the new value, a new one is added at the end. -/
def setProp (k : JSString) (v : JSVal) : List (JSString × JSVal) → List (JSString × JSVal)
  | [] => [(k, v)]
  | (k0, v0) :: ps => if k0 = k then (k, v) :: ps else (k0, v0) :: setProp k v ps

mutual
/-- One JSON value at the head of the input (after whitespace), and what follows. -/
def parseValue : Nat → JSString → Option (JSVal × JSString)
  | 0, _ => none
  | fuel + 1, cs =>
    match skipWs cs with
    | [] => none
    | c :: rest =>
      if c = 123 then
        match skipWs rest with
        | [] => none
        | c1 :: r1 => if c1 = 125 then some (.obj [], r1) else parseMembers fuel [] (c1 :: r1)
      else if c = 91 then
        match skipWs rest with
        | [] => none
        | c1 :: r1 => if c1 = 93 then some (.arr [], r1) else parseElems fuel [] (c1 :: r1)
      else if c = 34 then
        match parseStringBody rest with
        | some (s, r) => some (.str s, r)
        | none => none
      else if c = 116 then
        match dropLiteral [114, 117, 101] rest with
        | some r => some (.bool true, r)
        | none => none
      else if c = 102 then
        match dropLiteral [97, 108, 115, 101] rest with
        | some r => some (.bool false, r)
        | none => none
      else if c = 110 then
        match dropLiteral [117, 108, 108] rest with
        | some r => some (.null, r)
        | none => none
      else
        match parseNumber (c :: rest) with
        | some (n, r) => some (.num n, r)
        | none => none
/-- The elements of an array after `[`, up to and including `]`. -/
def parseElems : Nat → List JSVal → JSString → Option (JSVal × JSString)
  | 0, _, _ => none
  | fuel + 1, acc, cs =>
    match parseValue fuel cs with
    | none => none
    | some (v, rest) =>
      match skipWs rest with
      | [] => none
      | c :: r =>
        if c = 44 then parseElems fuel (acc ++ [v]) r
        else if c = 93 then some (.arr (acc ++ [v]), r)
        else none
/-- The members of an object after `{`, up to and including `}`. -/
def parseMembers : Nat → List (JSString × JSVal) → JSString → Option (JSVal × JSString)
  | 0, _, _ => none
  | fuel + 1, acc, cs =>
    match skipWs cs with
    | [] => none
    | q :: r0 =>
      if q = 34 then
        match parseStringBody r0 with
        | none => none
        | some (k, r1) =>
          match skipWs r1 with
          | [] => none
          | colon :: r2 =>
            if colon = 58 then
              match parseValue fuel r2 with
              | none => none
              | some (v, r3) =>
                match skipWs r3 with
                | [] => none
                | c :: r4 =>
                  if c = 44 then parseMembers fuel (setProp k v acc) r4
                  else if c = 125 then some (.obj (setProp k v acc), r4)
                  else none
            else none
      else none
end

/-- `JSON.parse(text)`: the value `text` denotes, or a `SyntaxError`.  The properties of
an object are listed in the order of the text (JavaScript enumerates integer-like keys
first; reads by name, the only ones made here, do not depend on the order). -/
def JSONparse (text : JSString) : Except JSError JSVal :=
  match parseValue (2 * text.length + 2) text with
  | some (v, rest) => if skipWs rest = [] then .ok v else .error .syntaxError
  | none => .error .syntaxError

/-! ## Token codec (`decodeJWT` in `login` and in `register`, the same text twice) -/

/-- `String(v)` for the values passed where a string is expected: `undefined`. -/
def undefinedText : JSString := lit "undefined"

/-- The `try` block of `decodeJWT`: `JSON.parse(atob(token.split('.')[1]))`. -/
def decodeJWTBody (token : JSVal) : Except JSError JSVal :=
  match token with
  | .str t =>
    let payload := (splitOn 46 t)[1]?
    match atob (payload.getD undefinedText) with
    | .error e => .error e
    | .ok decoded => JSONparse decoded
  | _ => .error .typeError

/-- `decodeJWT(token)`: the `try` block's value, and `null` when it throws. -/
def decodeJWT (token : JSVal) : Except JSError JSVal :=
  match decodeJWTBody token with
  | .ok decodedPayload => .ok decodedPayload
  | .error _ => .ok .null

/-! ## Coercions and property access -/

mutual
/-- `String(v)`, the coercion `localStorage.setItem` and template literals apply.
A number gives its lexeme (the canonical formatting of doubles is not modelled). -/
def toJSString : JSVal → JSString
  | .undefined => lit "undefined"
  | .null => lit "null"
  | .bool b => if b then lit "true" else lit "false"
  | .num l => l
  | .str s => s
  | .arr xs => joinElems xs
  | .obj _ => lit "[object Object]"
/-- `xs.join(",")`. -/
def joinElems : List JSVal → JSString
  | [] => []
  | [x] => elemText x
  | x :: y :: r => elemText x ++ [44] ++ joinElems (y :: r)
/-- Text of one array element in `join`: empty for `null` and `undefined`. -/
def elemText : JSVal → JSString
  | .undefined => []
  | .null => []
  | .bool b => if b then lit "true" else lit "false"
  | .num l => l
  | .str s => s
  | .arr xs => joinElems xs
  | .obj _ => lit "[object Object]"
end

/-- Value of a run of decimal digits. -/
def digitsValue (ds : JSString) : Nat := ds.foldl (fun n c => 10 * n + (c - 48)) 0

/-- Whether the number written as the lexeme `l` (JSON number syntax: sign, integer
part, fraction, exponent) is `0` or `-0` as a double: its digits are all zero, or its
magnitude is at most `2^-1075`, half the smallest positive double, so that it rounds to
zero.  With `digits` the integer and fraction digits read as one number, the magnitude
is `digits * 10^up / 10^down`; it exceeds `2^-1075` whenever `down ≤ 323`, and the
comparison is only computed beyond that. -/
def numberIsZero (l : JSString) : Bool :=
  let unsigned := match l with
    | 45 :: r => r
    | _ => l
  let mantissa := unsigned.takeWhile fun c => c != 101 && c != 69
  let exponent := (unsigned.dropWhile fun c => c != 101 && c != 69).drop 1
  let fraction := (mantissa.dropWhile fun c => c != 46).drop 1
  let digits := digitsValue ((mantissa.takeWhile fun c => c != 46) ++ fraction)
  let up := match exponent with
    | 45 :: _ => 0
    | 43 :: r => digitsValue r
    | _ => digitsValue exponent
  let down := match exponent with
    | 45 :: r => digitsValue r + fraction.length
    | _ => fraction.length
  digits == 0 || (decide (323 < down) && decide (digits * 10 ^ up * 2 ^ 1075 ≤ 10 ^ down))

/-- Truthiness (`!!v`).  A number is falsy when it is zero as a double. -/
def truthy : JSVal → Bool
  | .undefined => false
  | .null => false
  | .bool b => b
  | .num l => !numberIsZero l
  | .str s => !s.isEmpty
  | .arr _ => true
  | .obj _ => true

/-- The JavaScript expression `a || b`. -/
def jsOr (a b : JSVal) : JSVal := if truthy a then a else b

/-- Optional property read `v?.k`, for a name `k` that no standard prototype defines:
the own property of an object, `undefined` for everything else. -/
def getProp (v : JSVal) (k : JSString) : JSVal :=
  match v with
  | .obj props =>
    match props.find? fun p => p.1 = k with
    | some p => p.2
    | none => .undefined
  | _ => .undefined

/-- Destructuring read `const { k } = v`: a `TypeError` when `v` is `null` or `undefined`. -/
def destructure (v : JSVal) (k : JSString) : Except JSError JSVal :=
  match v with
  | .undefined => .error .typeError
  | .null => .error .typeError
  | _ => .ok (getProp v k)

/-- `s.includes(sub)`. -/
def includes : JSString → JSString → Bool
  | [], sub => sub.isEmpty
  | c :: cs, sub => (dropLiteral sub (c :: cs)).isSome || includes cs sub

/-! ## Credential store (`localStorage`) and configuration (`process.env`) -/

/-- The persisted key space: the value stored under each key, if any. -/
abbrev Storage := JSString → Option JSString

/-- `localStorage.setItem(k, v)`. -/
def Storage.setItem (st : Storage) (k v : JSString) : Storage :=
  fun j => if j = k then some v else st j

/-- `localStorage.removeItem(k)`. -/
def Storage.removeItem (st : Storage) (k : JSString) : Storage :=
  fun j => if j = k then none else st j

/-- The key-name configuration: each variable is a string or is not defined. -/
structure Env where
  /-- The variable `process.env.REACT_APP_AUTH_TOKEN_KEY`. -/
  authTokenKey : Option JSString
  /-- The variable `process.env.REACT_APP_REFRESH_TOKEN_KEY`. -/
  refreshTokenKey : Option JSString

/-- No key name configured. -/
def Env.zero : Env := ⟨none, none⟩

/-- Key denoted by `process.env.X` passed as it is to `localStorage` (`api.js`):
an undefined variable is coerced to the string `"undefined"`. -/
def rawKey (x : Option JSString) : JSString := x.getD undefinedText

/-- Key denoted by `process.env.X || fallback` (`useAuth.js`). -/
def keyOr (x : Option JSString) (fallback : JSString) : JSString :=
  match x with
  | some k => if k.isEmpty then fallback else k
  | none => fallback

/-! ## HTTP client with interceptor pipeline (`api.js`) -/

/-- An axios request configuration, reduced to what the interceptors touch. -/
structure Request where
  /-- Field `config.url`. -/
  url : Option JSString
  /-- Field `config.method`. -/
  method : JSString
  /-- Field `config.data`. -/
  data : JSVal
  /-- Header `config.headers.Authorization`. -/
  authorization : Option JSString
  /-- Flag `config._retry`. -/
  retry : Bool

/-- An HTTP response. -/
structure Response where
  /-- The status code. -/
  status : Nat
  /-- The parsed body. -/
  data : JSVal

/-- What the network gives back for one dispatched request. -/
inductive Outcome where
  | response (r : Response) : Outcome
  | noResponse (message : JSString) : Outcome

/-- An axios error: the request it belongs to, the response if one arrived, its message. -/
structure AxiosError where
  /-- Field `error.config`. -/
  config : Request
  /-- Field `error.response`. -/
  response : Option Response
  /-- Field `error.message`. -/
  message : JSString

/-- The outside world of the client: the answers to the dispatches through the `api`
instance and to the calls of the refresh endpoint, each numbered from zero. -/
structure Net where
  /-- Answer to the `k`-th request dispatched by the `api` instance. -/
  serve : Nat → Request → Outcome
  /-- Answer to the `k`-th `axios.post('/auth/refresh', { refreshToken })`. -/
  refresh : Nat → JSString → Outcome

/-- Observable state: the credential store and the logs of effects. -/
structure World where
  /-- The credential store. -/
  storage : Storage
  /-- Arguments of the `toast.error` calls, oldest first. -/
  toasts : List JSVal
  /-- Requests handed to the network by the `api` instance, oldest first. -/
  dispatched : List Request
  /-- Refresh tokens posted to the refresh endpoint, oldest first. -/
  refreshCalls : List JSString

/-- Message of the error axios raises for a status outside `2xx`. -/
def statusMessage (status : Nat) : JSString :=
  lit "Request failed with status code " ++ (Nat.toDigits 10 status).map Char.toNat

/-- Default `validateStatus` of axios: `2xx` fulfils, everything else rejects. -/
def settle (config : Request) (o : Outcome) : Except AxiosError Response :=
  match o with
  | .response r =>
    if 200 ≤ r.status ∧ r.status < 300 then .ok r
    else .error ⟨config, some r, statusMessage r.status⟩
  | .noResponse message => .error ⟨config, none, message⟩

/-- The header value of a bearer credential. -/
def bearer (token : JSString) : JSString := lit "Bearer " ++ token

/-- Request interceptor (`api.js` lines 14-21). -/
def requestInterceptor (env : Env) (st : Storage) (config : Request) : Request :=
  match st (rawKey env.authTokenKey) with
  | some token => if token.isEmpty then config else { config with authorization := some (bearer token) }
  | none => config

/-- Status `error.response?.status`. -/
def AxiosError.status (error : AxiosError) : Option Nat := error.response.map fun r => r.status

/-- The test `config?.url?.includes('/auth/login')` of line 66, as a boolean. -/
def isLoginRequest (config : Request) : Bool :=
  match config.url with
  | some url => includes url (lit "/auth/login")
  | none => false

/-- Tail of the response interceptor's error handler (`api.js` lines 65-73):
toast unless the URL contains `/auth/login`, then reject with `error`. -/
def rejectWithToast (error : AxiosError) (w : World) : Except AxiosError Response × World :=
  let isLoginError := isLoginRequest error.config
  if isLoginError then (.error error, w)
  else
    let dataMessage :=
      match error.response with
      | some r => getProp r.data (lit "message")
      | none => .undefined
    let message := jsOr (jsOr dataMessage (.str error.message)) (.str (lit "An error occurred"))
    (.error error, { w with toasts := w.toasts ++ [message] })

/-- The `try` block of the 401 branch once a refresh token was read (`api.js` lines
44-47): the refresh call and the read of `accessToken` from its response. -/
def refreshAccessToken (net : Net) (k : Nat) (refreshToken : JSString) : Except Unit JSVal :=
  let refreshRequest : Request :=
    ⟨some (lit "/auth/refresh"), lit "post", .obj [(lit "refreshToken", .str refreshToken)], none, false⟩
  match settle refreshRequest (net.refresh k refreshToken) with
  | .error _ => .error ()
  | .ok response =>
    match destructure response.data (lit "accessToken") with
    | .error _ => .error ()
    | .ok accessToken => .ok accessToken

/-- The `api` instance applied to a request: request interceptor, dispatch, response
interceptor.  The recursion is the `return api(originalRequest)` of line 55; `none`
means the fuel ran out. -/
def api (env : Env) (net : Net) : Nat → Request → World → Option (Except AxiosError Response × World)
  | 0, _, _ => none
  | fuel + 1, config, w =>
    let config := requestInterceptor env w.storage config
    let answer := net.serve w.dispatched.length config
    let w := { w with dispatched := w.dispatched ++ [config] }
    match settle config answer with
    | .ok response => some (.ok response, w)
    | .error error =>
      if error.status = some 401 ∧ error.config.retry = false then
        let originalRequest := { error.config with retry := true }
        let error := { error with config := originalRequest }
        match w.storage (rawKey env.refreshTokenKey) with
        | none => some (rejectWithToast error w)
        | some refreshToken =>
          if refreshToken.isEmpty then some (rejectWithToast error w)
          else
            let tried := refreshAccessToken net w.refreshCalls.length refreshToken
            let w := { w with refreshCalls := w.refreshCalls ++ [refreshToken] }
            match tried with
            | .ok accessToken =>
              let stored := Storage.setItem w.storage (rawKey env.authTokenKey) (toJSString accessToken)
              let w := { w with storage := stored }
              let originalRequest :=
                { originalRequest with authorization := some (bearer (toJSString accessToken)) }
              api env net fuel originalRequest w
            | .error _ =>
              let purged := Storage.removeItem
                (Storage.removeItem w.storage (rawKey env.authTokenKey)) (rawKey env.refreshTokenKey)
              let w := { w with storage := purged }
              some (rejectWithToast error w)
      else some (rejectWithToast error w)

/-- Fuel that always suffices: one dispatch and at most one retry. -/
def apiFuel : Nat := 2

/-- A call of the `api` instance, as `apiService` and the session code make it. -/
def apiCall (env : Env) (net : Net) (config : Request) (w : World) :
    Except AxiosError Response × World :=
  (api env net apiFuel config w).getD (.error ⟨config, none, []⟩, w)

/-- The request `apiService.post(url, data)` builds. -/
def postRequest (url : JSString) (data : JSVal) : Request :=
  ⟨some url, lit "post", data, none, false⟩

/-! ## Session context (`useAuth.js`) -/

/-- The state of `AuthProvider`. -/
structure Session where
  /-- State variable `user`. -/
  user : JSVal
  /-- State variable `loading`. -/
  loading : Bool
  /-- State variable `error`. -/
  error : JSVal

/-- The state at application start. -/
def Session.initial : Session := ⟨.null, true, .null⟩

/-- The context value `isAuthenticated: !!user`. -/
def Session.isAuthenticated (s : Session) : Bool := truthy s.user

/-- What a `catch` block of the session code can receive. -/
inductive Thrown where
  | axios (e : AxiosError) : Thrown
  | js (e : JSError) : Thrown

/-- The value an operation resolves to: `{ success: true }` or `{ success: false, error }`. -/
inductive AuthResult where
  | success : AuthResult
  | failure (error : JSVal) : AuthResult

/-- The read `error.response?.data?.k` on a caught value. -/
def Thrown.dataField (t : Thrown) (k : JSString) : JSVal :=
  match t with
  | .axios e =>
    match e.response with
    | some r => getProp r.data k
    | none => .undefined
  | .js _ => .undefined

/-- Key under which the session code keeps the access token. -/
def accessTokenKey (env : Env) : JSString := keyOr env.authTokenKey (lit "access_token")

/-- Key under which the session code keeps the refresh token. -/
def refreshTokenKey (env : Env) : JSString := keyOr env.refreshTokenKey (lit "refresh_token")

/-- The request body `{ username: credentials.username, password: credentials.password }`
of lines 66-67; reading a property of `null` or `undefined` is a `TypeError`. -/
def loginPayload (credentials : JSVal) : Except JSError JSVal :=
  match credentials with
  | .undefined => .error .typeError
  | .null => .error .typeError
  | _ =>
    .ok (.obj
      [(lit "username", getProp credentials (lit "username")),
       (lit "password", getProp credentials (lit "password"))])

/-- The `try` block of `login` (lines 61-98): its completion, and the state it leaves. -/
def loginTry (env : Env) (net : Net) (credentials : JSVal) (s : Session) (w : World) :
    Except Thrown AuthResult × Session × World :=
  let s := { s with loading := true, error := .null }
  match loginPayload credentials with
  | .error e => (.error (.js e), s, w)
  | .ok body =>
    match apiCall env net (postRequest (lit "/auth/login") body) w with
    | (.error e, w) => (.error (.axios e), s, w)
    | (.ok response, w) =>
      match destructure response.data (lit "token"), destructure response.data (lit "teacherId") with
      | .ok token, .ok teacherId =>
        match decodeJWT token with
        | .error e => (.error (.js e), s, w)
        | .ok decodedToken =>
          let userInfo := decodedToken
          let st := Storage.setItem w.storage (accessTokenKey env) (toJSString token)
          let st := Storage.setItem st (lit "teacherId") (toJSString teacherId)
          (.ok .success, { s with user := userInfo }, { w with storage := st })
      | _, _ => (.error (.js .typeError), s, w)

/-- The operation `login(credentials)`: `try`, `catch` (lines 99-112), `finally`. -/
def login (env : Env) (net : Net) (credentials : JSVal) (s : Session) (w : World) :
    AuthResult × Session × World :=
  match loginTry env net credentials s w with
  | (.ok result, s, w) => (result, { s with loading := false }, w)
  | (.error error, s, w) =>
    let errorMessage :=
      jsOr (jsOr (jsOr (error.dataField (lit "error")) (error.dataField (lit "message")))
        (error.dataField (lit "detail"))) (.str (lit "Login failed"))
    (.failure errorMessage, { s with error := errorMessage, loading := false }, w)

/-- The `try` block of `register` (lines 120-147). -/
def registerTry (env : Env) (net : Net) (userData : JSVal) (s : Session) (w : World) :
    Except Thrown AuthResult × Session × World :=
  let s := { s with loading := true, error := .null }
  match apiCall env net (postRequest (lit "/auth/register") userData) w with
  | (.error e, w) => (.error (.axios e), s, w)
  | (.ok response, w) =>
    match destructure response.data (lit "token"), destructure response.data (lit "user") with
    | .ok token, .ok newUser =>
      match decodeJWT token with
      | .error e => (.error (.js e), s, w)
      | .ok decodedToken =>
        let userInfo := jsOr newUser decodedToken
        let st := Storage.setItem w.storage (accessTokenKey env) (toJSString token)
        (.ok .success, { s with user := userInfo }, { w with storage := st })
    | _, _ => (.error (.js .typeError), s, w)

/-- The operation `register(userData)`: `try`, `catch` (lines 148-153), `finally`. -/
def register (env : Env) (net : Net) (userData : JSVal) (s : Session) (w : World) :
    AuthResult × Session × World :=
  match registerTry env net userData s w with
  | (.ok result, s, w) => (result, { s with loading := false }, w)
  | (.error error, s, w) =>
    let message := jsOr (error.dataField (lit "message")) (.str (lit "Registration failed"))
    (.failure message, { s with error := message, loading := false }, w)

/-- The request `apiService.put(url, data)` builds. -/
def putRequest (url : JSString) (data : JSVal) : Request :=
  ⟨some url, lit "put", data, none, false⟩

/-- The operation `updateProfile(profileData)` (lines 159-174). -/
def updateProfile (env : Env) (net : Net) (profileData : JSVal) (s : Session) (w : World) :
    AuthResult × Session × World :=
  let s := { s with loading := true }
  match apiCall env net (putRequest (lit "/auth/profile") profileData) w with
  | (.ok response, w) => (.success, { s with user := response.data, loading := false }, w)
  | (.error e, w) =>
    let message :=
      jsOr ((Thrown.axios e).dataField (lit "message")) (.str (lit "Profile update failed"))
    (.failure message, { s with error := message, loading := false }, w)

/-- The operation `logout()` (lines 25-34). -/
def logout (env : Env) (s : Session) (w : World) : Session × World :=
  let st := Storage.removeItem w.storage (accessTokenKey env)
  let st := Storage.removeItem st (refreshTokenKey env)
  ({ s with user := .null, error := .null }, { w with storage := st })

/-- The placeholder identity `{ username: 'authenticated_user' }` of line 44. -/
def placeholderUser : JSVal := .obj [(lit "username", .str (lit "authenticated_user"))]

/-- The operation `checkAuth()` (lines 36-52).  Reading the store does not throw, so the
`catch` block is never entered. -/
def checkAuth (env : Env) (s : Session) (w : World) : Session × World :=
  let s :=
    match w.storage (accessTokenKey env) with
    | some token => if token.isEmpty then s else { s with user := placeholderUser }
    | none => s
  ({ s with loading := false }, w)

/-- The message a `catch` block of the session code is said to report: the first truthy
value among the candidates, and the fallback when there is none. -/
def firstPresent (candidates : List JSVal) (fallback : JSVal) : JSVal :=
  (candidates.find? truthy).getD fallback

/-- One step of the application on its state: an operation of the session context, or
a request sent through the HTTP client by a page. -/
inductive Op where
  | checkAuth : Op
  | login (credentials : JSVal) : Op
  | register (userData : JSVal) : Op
  | logout : Op
  | updateProfile (profileData : JSVal) : Op
  | request (config : Request) : Op

/-- The state after one operation. -/
def step (env : Env) (net : Net) (op : Op) (st : Session × World) : Session × World :=
  match op with
  | .checkAuth => checkAuth env st.1 st.2
  | .login credentials => (login env net credentials st.1 st.2).2
  | .register userData => (register env net userData st.1 st.2).2
  | .logout => logout env st.1 st.2
  | .updateProfile profileData => (updateProfile env net profileData st.1 st.2).2
  | .request config => (st.1, (apiCall env net config st.2).2)

/-- The state after a sequence of operations, first to last. -/
def run (env : Env) (net : Net) (ops : List Op) (st : Session × World) : Session × World :=
  ops.foldl (fun acc op => step env net op acc) st

/-- When no access token is stored, the session is not authenticated. -/
def TokenInvariant (env : Env) (st : Session × World) : Prop :=
  st.2.storage (accessTokenKey env) = none → st.1.isAuthenticated = false

/-! ## Route guard and route table (`App.js`) -/

/-- What a guarded route shows. -/
inductive GuardOutcome where
  | placeholder : GuardOutcome
  | content : GuardOutcome
  | redirect (target : JSString) : GuardOutcome
  deriving DecidableEq

/-- Modelled from the spec: the component `components/common/ProtectedRoute`, which
`App.js` imports and which is not among the sources.  Section 4.5: while the session
is loading a neutral placeholder; then a route that requires authentication shows its
content to an authenticated session and redirects the others to the login entry
point; a public-only route redirects an authenticated session to the landing page and
shows its content to the others. -/
def protectedRoute (loading isAuthenticated requireAuth : Bool) : GuardOutcome :=
  if loading then .placeholder
  else if requireAuth then
    if isAuthenticated then .content else .redirect (lit "/login")
  else
    if isAuthenticated then .redirect (lit "/dashboard") else .content

/-- One `<Route>` of `App.js`: its path, the component it mounts, and the `requireAuth`
flag of the `ProtectedRoute` around it, if there is one. -/
structure RouteEntry where
  /-- Attribute `path`. -/
  path : JSString
  /-- The component inside `element`. -/
  component : JSString
  /-- Attribute `requireAuth` of the guard; `none` for an unguarded route. -/
  requireAuth : Option Bool
  deriving DecidableEq

/-- The route table of `App.js` (lines 44-174), in order. -/
def routeTable : List RouteEntry :=
  [⟨lit "/", lit "LoginForm", none⟩,
   ⟨lit "/login", lit "LoginForm", some false⟩,
   ⟨lit "/forgot-password", lit "ForgetPassword", some false⟩,
   ⟨lit "/register", lit "SignUpForm", some false⟩,
   ⟨lit "/dashboard", lit "Dashboard", some true⟩,
   ⟨lit "/flash-number-game", lit "FlashNumberGame", some true⟩,
   ⟨lit "/activity/:activityId", lit "DynamicActivity", some true⟩,
   ⟨lit "/assign", lit "AssignFlash", some true⟩,
   ⟨lit "/notification-sent", lit "NotificationSent", some true⟩,
   ⟨lit "/reports", lit "Reports", some true⟩,
   ⟨lit "/worksheets", lit "Worksheets", some true⟩,
   ⟨lit "/worksheets/assign", lit "WorksheetAssign", some true⟩,
   ⟨lit "/profile", lit "Profile", some true⟩,
   ⟨lit "/notifications", lit "Notifications", some true⟩,
   ⟨lit "*", lit "NotFound", none⟩]

/-- What the element of a route shows for a session: the guard's outcome, or the
content at once when the route has no guard. -/
def renderRoute (s : Session) (r : RouteEntry) : GuardOutcome :=
  match r.requireAuth with
  | some flag => protectedRoute s.loading s.isAuthenticated flag
  | none => .content

/-! ## Reference encoders (RFC 4648 base64, UTF-8), used to state the round trip -/

/-- Character of a 6-bit value: `A-Z a-z 0-9`, then `+ /`, or `- _` in the URL-safe
alphabet. -/
def b64Char (url : Bool) (v : Nat) : Nat :=
  if v < 26 then v + 65
  else if v < 52 then v + 71
  else if v < 62 then v - 4
  else if v = 62 then (if url then 45 else 43)
  else (if url then 95 else 47)

/-- The 6-bit values that carry a byte sequence, without padding. -/
def encodeSextets : List Nat → List Nat
  | a :: b :: c :: rest =>
    (a / 4) :: ((a % 4) * 16 + b / 16) :: ((b % 16) * 4 + c / 64) :: (c % 64) :: encodeSextets rest
  | [a, b] => [a / 4, (a % 4) * 16 + b / 16, (b % 16) * 4]
  | [a] => [a / 4, (a % 4) * 16]
  | [] => []

/-- The `=` padding that completes the encoding of `n` bytes to a multiple of four. -/
def padding (n : Nat) : JSString :=
  if n % 3 = 1 then [61, 61] else if n % 3 = 2 then [61] else []

/-- Unpadded base64 text of a byte sequence. -/
def base64Text (url : Bool) (bytes : List Nat) : JSString :=
  (encodeSextets bytes).map (b64Char url)

/-- The string `p` is a base64 encoding of `bytes`, padding optional. -/
def IsBase64Of (url : Bool) (p : JSString) (bytes : List Nat) : Prop :=
  p = base64Text url bytes ∨ p = base64Text url bytes ++ padding bytes.length

/-- UTF-8 bytes of a string of code units (a surrogate pair gives four bytes, a lone
surrogate the replacement character). -/
def utf8 : JSString → List Nat
  | [] => []
  | [c] =>
    if c < 128 then [c]
    else if c < 2048 then [192 + c / 64, 128 + c % 64]
    else if 55296 ≤ c ∧ c < 57344 then [239, 191, 189]
    else [224 + c / 4096, 128 + (c / 64) % 64, 128 + c % 64]
  | c :: d :: rest =>
    if c < 128 then c :: utf8 (d :: rest)
    else if c < 2048 then (192 + c / 64) :: (128 + c % 64) :: utf8 (d :: rest)
    else if 55296 ≤ c ∧ c < 56320 ∧ 56320 ≤ d ∧ d < 57344 then
      let u := 65536 + (c - 55296) * 1024 + (d - 56320)
      (240 + u / 262144) :: (128 + (u / 4096) % 64) :: (128 + (u / 64) % 64) :: (128 + u % 64)
        :: utf8 rest
    else if 55296 ≤ c ∧ c < 57344 then 239 :: 191 :: 189 :: utf8 (d :: rest)
    else (224 + c / 4096) :: (128 + (c / 64) % 64) :: (128 + c % 64) :: utf8 (d :: rest)

/-- A token `header.p.sig`. -/
def jwt (header p sig : JSString) : JSString := header ++ 46 :: (p ++ 46 :: sig)

/-- The world once `config` (already through the request interceptor) is dispatched. -/
def World.afterDispatch (w : World) (config : Request) : World :=
  { w with dispatched := w.dispatched ++ [config] }

/-- The error axios raises for the answer `r` (a status outside `2xx`) to the first
dispatch of a request, as the response interceptor passes it on: its `config` is the
dispatched request, with the `_retry` flag the 401 branch has set. -/
def flaggedError (config : Request) (r : Response) : AxiosError :=
  ⟨{ config with retry := true }, some r, statusMessage r.status⟩

/-- Number of toasts a call adds: one for a rejected request outside the login URL. -/
def toastCount (config : Request) (result : Except AxiosError Response) : Nat :=
  match result with
  | .ok _ => 0
  | .error _ => if isLoginRequest config then 0 else 1

/-! ## Validation (`utils/validation.js`) -/

/-- Character class `[a-z]`. -/
def isLower (c : Nat) : Bool := decide (97 ≤ c) && decide (c ≤ 122)

/-- Character class `[A-Z]`. -/
def isUpper (c : Nat) : Bool := decide (65 ≤ c) && decide (c ≤ 90)

/-- Line terminators, the characters `.` does not match: LF, CR, U+2028, U+2029. -/
def isLineTerminator (c : Nat) : Bool := c = 10 || c = 13 || c = 8232 || c = 8233

/-- Character class `\s`: white space and line terminators. -/
def isRegexSpace (c : Nat) : Bool :=
  c = 9 || c = 10 || c = 11 || c = 12 || c = 13 || c = 32 || c = 160 || c = 5760 ||
  (decide (8192 ≤ c) && decide (c ≤ 8202)) || c = 8232 || c = 8233 || c = 8239 ||
  c = 8287 || c = 12288 || c = 65279

/-- Character class ``[!@#$%^&*(),.?":{}|<>]``. -/
def isSpecial (c : Nat) : Bool :=
  [33, 64, 35, 36, 37, 94, 38, 42, 40, 41, 44, 46, 63, 34, 58, 123, 125, 124, 60, 62].contains c

/-- A lookahead `(?=.*X)` at the start of the input: some character of class `X` is
reached by `.*`, that is, stands before the first line terminator. -/
def lookaheadFinds (cls : Nat → Bool) (p : JSString) : Bool :=
  (p.takeWhile fun c => !isLineTerminator c).any cls

/-- The test of `/^(?=.*[a-z])(?=.*[A-Z])(?=.*\d)/`. -/
def passwordRegex (p : JSString) : Bool :=
  lookaheadFinds isLower p && lookaheadFinds isUpper p && lookaheadFinds isDigit p

/-- Character class `[\d\s\-()]`. -/
def isPhoneChar (c : Nat) : Bool := isDigit c || isRegexSpace c || c = 45 || c = 40 || c = 41

/-- The test of `/^\+?[\d\s\-()]+$/`: an optional `+`, then one or more characters of
the class up to the end of the input. -/
def phoneRegex (p : JSString) : Bool :=
  match p with
  | [] => false
  | c :: rest =>
    if c = 43 then !rest.isEmpty && rest.all isPhoneChar
    else (c :: rest).all isPhoneChar

/-- The test of `/^[a-zA-Z\s]+$/`. -/
def nameRegex (p : JSString) : Bool :=
  !p.isEmpty && p.all fun c => isLower c || isUpper c || isRegexSpace c

/-- One check of a zod string schema, with its message. -/
inductive StringCheck where
  | min (n : Nat) (message : JSString) : StringCheck
  | max (n : Nat) (message : JSString) : StringCheck
  | test (accepts : JSString → Bool) (message : JSString) : StringCheck

/-- The message of a check the string fails, if it fails it. -/
def StringCheck.issue (check : StringCheck) (s : JSString) : Option JSString :=
  match check with
  | .min n message => if s.length < n then some message else none
  | .max n message => if s.length > n then some message else none
  | .test accepts message => if accepts s then none else some message

/-- The issues of a zod string schema on a string: every check is run, in the order
the schema declares them. -/
def stringIssues (checks : List StringCheck) (s : JSString) : List JSString :=
  checks.filterMap fun check => check.issue s

/-- The schema `passwordSchema` (lines 8-14). -/
def passwordSchema : List StringCheck :=
  [.min 8 (lit "Password must be at least 8 characters"),
   .test passwordRegex
     (lit "Password must contain at least one uppercase letter, one lowercase letter, and one number")]

/-- The schema `nameSchema` (lines 16-20). -/
def nameSchema : List StringCheck :=
  [.min 2 (lit "Name must be at least 2 characters"),
   .max 50 (lit "Name must be less than 50 characters"),
   .test nameRegex (lit "Name can only contain letters and spaces")]

/-- The schema `phoneSchema` (lines 22-25). -/
def phoneSchema : List StringCheck :=
  [.test phoneRegex (lit "Please enter a valid phone number"),
   .min 10 (lit "Phone number must be at least 10 digits")]

/-- The result `{ isValid, error }` of a validation helper. -/
structure Validation where
  /-- Field `isValid`. -/
  isValid : Bool
  /-- Field `error`: the first issue's message, or `null`. -/
  error : Option JSString
  deriving DecidableEq

/-- The helpers of lines 62-105: `parse` in a `try`, the first issue's message in the
`catch`. -/
def validateWith (schema : List StringCheck) (s : JSString) : Validation :=
  match stringIssues schema s with
  | [] => ⟨true, none⟩
  | message :: _ => ⟨false, some message⟩

/-- The helper `validatePassword`. -/
def validatePassword (password : JSString) : Validation := validateWith passwordSchema password

/-- The helper `validatePhone`. -/
def validatePhone (phone : JSString) : Validation := validateWith phoneSchema phone

/-- The value `{ strength, score, color }` of the strength checker. -/
structure Strength where
  /-- Field `strength`. -/
  strength : JSString
  /-- Field `score`. -/
  score : Nat
  /-- Field `color`. -/
  color : JSString
  deriving DecidableEq

/-- The five checks of `checkPasswordStrength`, in the order of the object literal. -/
def strengthChecks (password : JSString) : List Bool :=
  [decide (password.length ≥ 8), password.any isLower, password.any isUpper,
   password.any isDigit, password.any isSpecial]

/-- The function `checkPasswordStrength` (lines 108-122). -/
def checkPasswordStrength (password : JSString) : Strength :=
  let score := ((strengthChecks password).filter id).length
  if score < 3 then ⟨lit "weak", score, lit "red"⟩
  else if score < 5 then ⟨lit "medium", score, lit "yellow"⟩
  else ⟨lit "strong", score, lit "green"⟩

/-! ## Flash number generator page (`pages/FlashNumberGame.js`) -/

/-- The handler `dec` of a `Stepper` (line 23-24) on integer values, where
`parseFloat(x.toFixed(2))` gives `x` back. -/
def stepperDec (lo step value : Int) : Int := max lo (value - step)

/-- The handler `inc` of a `Stepper` (line 25-26) on integer values. -/
def stepperInc (hi step value : Int) : Int := min hi (value + step)

/-- One row of the activity list. -/
structure FlashItem (α : Type) where
  /-- Field `id`. -/
  id : Nat
  /-- Field `concept`. -/
  concept : α
  /-- Field `questions`. -/
  questions : Int
  /-- Field `time`. -/
  time : α
  /-- Field `length`. -/
  length : α

/-- The state of the page that the list depends on; `α` is the type of the values of
the concept and length selectors and of the speed stepper. -/
structure FlashPage (α : Type) where
  /-- State variable `selectedConcept`. -/
  selectedConcept : α
  /-- State variable `questionLength`. -/
  questionLength : α
  /-- State variable `numQuestions`. -/
  numQuestions : Int
  /-- State variable `speedSeconds`. -/
  speedSeconds : α
  /-- State variable `items`. -/
  items : List (FlashItem α)

/-- The state after mount: `numQuestions = 10`, no items. -/
def FlashPage.initial {α : Type} (concept length speed : α) : FlashPage α :=
  ⟨concept, length, 10, speed, []⟩

/-- The id `prev.length ? prev[prev.length - 1].id + 1 : 1` of a new row. -/
def nextId {α : Type} (prev : List (FlashItem α)) : Nat :=
  match prev.getLast? with
  | some last => last.id + 1
  | none => 1

/-- The handler `addItem` (lines 96-107). -/
def addItem {α : Type} (p : FlashPage α) : FlashPage α :=
  { p with items := p.items ++
      [⟨nextId p.items, p.selectedConcept, p.numQuestions, p.speedSeconds, p.questionLength⟩] }

/-- The handler `removeItem` (lines 109-111). -/
def removeItem {α : Type} (id : Nat) (p : FlashPage α) : FlashPage α :=
  { p with items := p.items.filter fun i => i.id != id }

/-- The value `totalQuestions` (lines 91-94); on an integer `Number(q) || 0` is `q`. -/
def totalQuestions {α : Type} (items : List (FlashItem α)) : Int :=
  items.foldl (fun sum r => sum + r.questions) 0

/-- What the user can do on the page. -/
inductive FlashOp (α : Type) where
  | inc : FlashOp α
  | dec : FlashOp α
  | addItem : FlashOp α
  | removeItem (id : Nat) : FlashOp α
  | selectConcept (value : α) : FlashOp α
  | selectLength (value : α) : FlashOp α
  | setSpeed (value : α) : FlashOp α

/-- The state after one action; the question stepper has `min = 1`, `max = 200`,
`step = 1` (lines 239-245). -/
def flashStep {α : Type} (p : FlashPage α) (op : FlashOp α) : FlashPage α :=
  match op with
  | .inc => { p with numQuestions := stepperInc 200 1 p.numQuestions }
  | .dec => { p with numQuestions := stepperDec 1 1 p.numQuestions }
  | .addItem => addItem p
  | .removeItem id => removeItem id p
  | .selectConcept value => { p with selectedConcept := value }
  | .selectLength value => { p with questionLength := value }
  | .setSpeed value => { p with speedSeconds := value }

/-- The state after a sequence of actions, first to last. -/
def flashRun {α : Type} (p : FlashPage α) (ops : List (FlashOp α)) : FlashPage α :=
  ops.foldl flashStep p

/-- The ids of a list of rows. -/
def itemIds {α : Type} (items : List (FlashItem α)) : List Nat := items.map fun i => i.id

/-- The invariant of the page: the question count is within the stepper's bounds, the
ids of the rows are positive and strictly increasing, and every row carries a question
count within the bounds. -/
def FlashInv {α : Type} (p : FlashPage α) : Prop :=
  1 ≤ p.numQuestions ∧ p.numQuestions ≤ 200 ∧
  (itemIds p.items).Pairwise (fun a b => a < b) ∧
  ∀ i ∈ p.items, 0 < i.id ∧ 1 ≤ i.questions ∧ i.questions ≤ 200

/-- Number of decimal digits in a string. -/
def digitCount (s : JSString) : Nat := (s.filter isDigit).length

/-! ## Sign-up form (`components/auth/SignUpForm.js`) and `registerSchema` -/

/-- The form state `formData` (lines 11-20): eight text fields. -/
structure SignUpData where
  /-- Field `username`. -/
  username : JSString
  /-- Field `email`. -/
  email : JSString
  /-- Field `firstName`. -/
  firstName : JSString
  /-- Field `lastName`. -/
  lastName : JSString
  /-- Field `teacherId`. -/
  teacherId : JSString
  /-- Field `password`. -/
  password : JSString
  /-- Field `confirmPassword`. -/
  confirmPassword : JSString
  /-- Field `role`. -/
  role : JSString

/-- The form state as the object handed to `register`. -/
def SignUpData.toValue (d : SignUpData) : JSVal :=
  .obj [(lit "username", .str d.username), (lit "email", .str d.email),
    (lit "firstName", .str d.firstName), (lit "lastName", .str d.lastName),
    (lit "teacherId", .str d.teacherId), (lit "password", .str d.password),
    (lit "confirmPassword", .str d.confirmPassword), (lit "role", .str d.role)]

/-- The issues of one field: the field's name with each message. -/
def fieldIssues (name : JSString) (schema : List StringCheck) (s : JSString) :
    List (JSString × JSString) :=
  (stringIssues schema s).map fun message => (name, message)

/-- The issues `registerSchema.parse(formData)` raises (lines 35-52): those of the
fields in the order of the schema, then the one of the refinement.  The pattern behind
`z.string().email()` belongs to the zod library and is the parameter `emailOk`. -/
def registerIssues (emailOk : JSString → Bool) (d : SignUpData) : List (JSString × JSString) :=
  fieldIssues (lit "username")
      [.min 3 (lit "Username must be at least 3 characters"),
       .max 50 (lit "Username must be less than 50 characters")] d.username ++
    fieldIssues (lit "email") [.test emailOk (lit "Please enter a valid email address")] d.email ++
    fieldIssues (lit "firstName") nameSchema d.firstName ++
    fieldIssues (lit "lastName") nameSchema d.lastName ++
    fieldIssues (lit "teacherId") [.min 1 (lit "Teacher ID is required")] d.teacherId ++
    fieldIssues (lit "password") passwordSchema d.password ++
    fieldIssues (lit "confirmPassword") [] d.confirmPassword ++
    fieldIssues (lit "role") [.min 1 (lit "Role is required")] d.role ++
    (if d.password = d.confirmPassword then []
      else [(lit "confirmPassword", lit "Passwords don\x27t match")])

/-- Assignment `fieldErrors[name] = message` on an object kept as a property list. -/
def setField (name message : JSString) : List (JSString × JSString) → List (JSString × JSString)
  | [] => [(name, message)]
  | (k, v) :: rest => if k = name then (name, message) :: rest else (k, v) :: setField name message rest

/-- The object `fieldErrors` of lines 55-58: each issue's message under its field, a
later issue of the same field replacing an earlier one. -/
def fieldErrors (issues : List (JSString × JSString)) : List (JSString × JSString) :=
  issues.foldl (fun acc issue => setField issue.1 issue.2 acc) []

/-- What the sign-up page shows or does besides the session and the HTTP client. -/
structure SignUpView where
  /-- State variable `errors`. -/
  errors : List (JSString × JSString)
  /-- Arguments of the `toast.success` calls, oldest first. -/
  successToasts : List JSString
  /-- Arguments of the `navigate` calls, oldest first. -/
  navigations : List JSString

/-- What the `catch` block of `handleSignUp` can receive: a `ZodError` with its issues,
or anything else. -/
inductive SignUpThrown where
  | zodError (issues : List (JSString × JSString)) : SignUpThrown
  | other : SignUpThrown

/-- The `try` block of `handleSignUp` (lines 43-52). -/
def handleSignUpTry (emailOk : JSString → Bool) (env : Env) (net : Net) (d : SignUpData)
    (view : SignUpView) (s : Session) (w : World) :
    Except SignUpThrown Unit × SignUpView × Session × World :=
  match registerIssues emailOk d with
  | issue :: issues => (.error (.zodError (issue :: issues)), view, s, w)
  | [] =>
    match register env net d.toValue s w with
    | (.success, s, w) =>
      (.ok (),
        { view with
          successToasts := view.successToasts ++ [lit "Registration successful! Please login."],
          navigations := view.navigations ++ [lit "/login"] },
        s, w)
    | (.failure error, s, w) => (.ok (), view, s, { w with toasts := w.toasts ++ [error] })

/-- The `catch` block of `handleSignUp` (lines 53-63). -/
def handleSignUpCatch (error : SignUpThrown) (view : SignUpView) (w : World) :
    SignUpView × World :=
  match error with
  | .zodError issues => ({ view with errors := fieldErrors issues }, w)
  | .other => (view, { w with toasts := w.toasts ++ [.str (lit "Registration failed")] })

/-- The handler `handleSignUp` (lines 38-64). -/
def handleSignUp (emailOk : JSString → Bool) (env : Env) (net : Net) (d : SignUpData)
    (view : SignUpView) (s : Session) (w : World) : SignUpView × Session × World :=
  let view := { view with errors := [] }
  match handleSignUpTry emailOk env net d view s w with
  | (.ok _, view, s, w) => (view, s, w)
  | (.error error, view, s, w) =>
    ((handleSignUpCatch error view w).1, s, (handleSignUpCatch error view w).2)

/-! ## Flash assignment page (`pages/AssignFlash.js`) -/

/-- Decimal text of a natural number, as a template literal prints it. -/
def natText (n : Nat) : JSString := (Nat.toDigits 10 n).map Char.toNat

/-- The read `v?.length`: the length of an array or of a string, the own property
`length` of an object, `undefined` for everything else. -/
def lengthOf (v : JSVal) : JSVal :=
  match v with
  | .arr xs => .num (natText xs.length)
  | .str s => .num (natText s.length)
  | _ => getProp v (lit "length")

/-- The comparison `r !== null`. -/
def notNull : JSVal → Bool
  | .null => false
  | _ => true

/-- The expression `localStorage.getItem(key) || sessionStorage.getItem(key)`: `none`
stands for `null`. -/
def storedOr (localStorage sessionStorage : Storage) (key : JSString) : Option JSString :=
  match localStorage key with
  | some v => if v.isEmpty then sessionStorage key else some v
  | none => sessionStorage key

/-- The expression `title || 'Untitled Activity'`. -/
def titleOr (title : JSString) : JSString :=
  if title.isEmpty then lit "Untitled Activity" else title

/-- The state of the `AssignFlash` component that `handleSubmit` reads or writes. -/
structure AssignPage where
  /-- State variable `title`. -/
  title : JSString
  /-- State variable `assignMode`. -/
  assignMode : JSString
  /-- State variable `selectedStudent`. -/
  selectedStudent : JSVal
  /-- State variable `selectedSection`. -/
  selectedSection : JSVal
  /-- State variable `flashData`. -/
  flashData : JSVal
  /-- State variable `isSubmitting`. -/
  isSubmitting : Bool

/-- One call `apiService.post(url, payload, { headers })` of `handleSubmit`; the header
`Content-Type` is the same in every call and is left out. -/
structure AssignCall where
  /-- The first argument. -/
  url : JSString
  /-- The second argument. -/
  payload : JSVal
  /-- The header `Authorization` of the third argument. -/
  authorization : JSString

/-- What `handleSubmit` reads and what it does outside the component state. -/
structure AssignWorld where
  /-- The store `localStorage`. -/
  localStorage : Storage
  /-- The store `sessionStorage`. -/
  sessionStorage : Storage
  /-- Arguments of the `toast.error` calls of `handleSubmit`, oldest first. -/
  toastErrors : List JSString
  /-- Arguments of the `toast.success` calls, oldest first. -/
  toastSuccesses : List JSString
  /-- The calls of `apiService.post`, oldest first. -/
  posts : List AssignCall
  /-- Arguments of the `navigate` calls, oldest first. -/
  navigations : List JSString

/-- What `handleSubmit` takes from the platform and from the HTTP client. -/
structure AssignPlatform where
  /-- The built-in `parseInt` (numbers are carried as lexemes and are not computed with). -/
  parseInt : JSVal → JSVal
  /-- The built-in `JSON.stringify`, applied to the record of line 149. -/
  stringify : JSVal → JSString
  /-- The value of `Date.now()`. -/
  now : JSVal
  /-- How the `k`-th call of `apiService.post` settles, calls numbered from zero: the
  body `res.data` of the response it fulfils with, or `none` when it rejects. -/
  post : Nat → AssignCall → Option JSVal

/-- The `try` block of lines 78-80: `JSON.parse(atob(token.split('.')[1]))`, then the
read of `payload.token_type`, a `TypeError` when the payload is `null`. -/
def decodeForDebug (token : JSString) : Except JSError JSVal :=
  match atob (((splitOn 46 token)[1]?).getD undefinedText) with
  | .error e => .error e
  | .ok decoded =>
    match JSONparse decoded with
    | .error e => .error e
    | .ok payload => destructure payload (lit "token_type")

/-- The object `payload` of lines 111-120; reading a property of a `null` or `undefined`
item is a `TypeError`. -/
def assignmentPayload (pf : AssignPlatform) (p : AssignPage) (teacherId : JSString)
    (item : JSVal) : Except JSError JSVal :=
  match item with
  | .undefined => .error .typeError
  | .null => .error .typeError
  | _ =>
    .ok (.obj
      ([(lit "complexity", getProp item (lit "concept")),
        (lit "length", jsOr (pf.parseInt (lengthOf item)) (.num (lit "1"))),
        (lit "numQuestions", jsOr (getProp item (lit "questions")) (.num (lit "1"))),
        (lit "speed", jsOr (getProp item (lit "time")) (.num (lit "30"))),
        (lit "title", .str (titleOr p.title)),
        (lit "teacherId", .str teacherId)] ++
        (if truthy p.selectedStudent then [(lit "userId", p.selectedStudent)] else []) ++
        (if truthy p.selectedSection then [(lit "section", p.selectedSection)] else [])))

/-- One run of the callback of `map` (lines 110-134), as the promise it returns settles:
rejected when building the payload throws, and otherwise fulfilled, with `res.data` or
with `null` when the request failed. -/
def assignItem (pf : AssignPlatform) (p : AssignPage) (token teacherId : JSString)
    (item : JSVal) (w : AssignWorld) : Except JSError JSVal × AssignWorld :=
  match assignmentPayload pf p teacherId item with
  | .error e => (.error e, w)
  | .ok payload =>
    let call : AssignCall := ⟨lit "/assignments/", payload, bearer token⟩
    match pf.post w.posts.length call with
    | some data => (.ok data, { w with posts := w.posts ++ [call] })
    | none => (.ok .null, { w with posts := w.posts ++ [call] })

/-- The array `assignmentCalls` of line 110: the callback runs on every item, in order. -/
def assignmentCalls (pf : AssignPlatform) (p : AssignPage) (token teacherId : JSString) :
    List JSVal → AssignWorld → List (Except JSError JSVal) × AssignWorld
  | [], w => ([], w)
  | item :: rest, w =>
    ((assignItem pf p token teacherId item w).1 ::
        (assignmentCalls pf p token teacherId rest (assignItem pf p token teacherId item w).2).1,
      (assignmentCalls pf p token teacherId rest (assignItem pf p token teacherId item w).2).2)

/-- `Promise.all`: the values in the order of the promises, or the first rejection. -/
def promiseAll : List (Except JSError JSVal) → Except JSError (List JSVal)
  | [] => .ok []
  | .error e :: _ => .error e
  | .ok v :: rest =>
    match promiseAll rest with
    | .ok vs => .ok (v :: vs)
    | .error e => .error e

/-- The statements `toast.error(message); setIsSubmitting(false); return;`. -/
def stopWith (message : JSString) (p : AssignPage) (w : AssignWorld) :
    Except JSError Unit × AssignPage × AssignWorld :=
  (.ok (), { p with isSubmitting := false }, { w with toastErrors := w.toastErrors ++ [message] })

/-- The object written under `flashAssignment` (lines 149-157). -/
def assignmentRecord (pf : AssignPlatform) (p : AssignPage) (results : List JSVal) : JSVal :=
  .obj
    [(lit "flashData", p.flashData),
     (lit "title", .str (titleOr p.title)),
     (lit "assignMode", .str p.assignMode),
     (lit "selectedStudent", if p.assignMode = lit "individual" then p.selectedStudent else .null),
     (lit "selectedSection", if p.assignMode = lit "class" then p.selectedSection else .null),
     (lit "assignmentResults", .arr results),
     (lit "createdAt", pf.now)]

/-- Lines 136-160: what follows `Promise.all` once it fulfilled with `results`. -/
def afterResults (pf : AssignPlatform) (p : AssignPage) (w : AssignWorld)
    (results : List JSVal) : Except JSError Unit × AssignPage × AssignWorld :=
  let successCount := (results.filter notNull).length
  if successCount = 0 then stopWith (lit "No assignments were created.") p w
  else
    (.ok (), p,
      { w with
        toastSuccesses := w.toastSuccesses ++ [natText successCount ++ lit " assignment(s) created!"],
        sessionStorage :=
          (Storage.setItem w.sessionStorage (lit "flashAssignment")
            (pf.stringify (assignmentRecord pf p results))),
        navigations := w.navigations ++ [lit "/notification-sent"] })

/-- Lines 110-160: the assignment calls for a token and a teacher id that were read.
Calling `map` on a value that is not an array is a `TypeError`. -/
def assignPlan (pf : AssignPlatform) (p : AssignPage) (w : AssignWorld)
    (token teacherId : JSString) : Except JSError Unit × AssignPage × AssignWorld :=
  match getProp p.flashData (lit "items") with
  | .arr items =>
    match promiseAll (assignmentCalls pf p token teacherId items w).1 with
    | .error e => (.error e, p, (assignmentCalls pf p token teacherId items w).2)
    | .ok results => afterResults pf p (assignmentCalls pf p token teacherId items w).2 results
  | _ => (.error .typeError, p, w)

/-- The `try` block of `handleSubmit` (lines 65-160). -/
def handleSubmitTry (pf : AssignPlatform) (p : AssignPage) (w : AssignWorld) :
    Except JSError Unit × AssignPage × AssignWorld :=
  match storedOr w.localStorage w.sessionStorage (lit "access_token") with
  | none => stopWith (lit "Invalid or missing auth token. Please login again.") p w
  | some token =>
    if token.isEmpty ∨ (splitOn 46 token).length ≠ 3 then
      stopWith (lit "Invalid or missing auth token. Please login again.") p w
    else
      match decodeForDebug token with
      | .error _ => stopWith (lit "Auth token is corrupted. Please login again.") p w
      | .ok _ =>
        if !truthy p.flashData || !truthy (lengthOf (getProp p.flashData (lit "items"))) then
          stopWith (lit "No flash activities to assign.") p w
        else
          match storedOr w.localStorage w.sessionStorage (lit "teacherId") with
          | none => stopWith (lit "Teacher ID not found. Please login again.") p w
          | some teacherId =>
            if teacherId.isEmpty then
              stopWith (lit "Teacher ID not found. Please login again.") p w
            else assignPlan pf p w token teacherId

/-- The handler `handleSubmit` (lines 62-167): `try`, `catch`, `finally`. -/
def handleSubmit (pf : AssignPlatform) (p : AssignPage) (w : AssignWorld) :
    AssignPage × AssignWorld :=
  match handleSubmitTry pf { p with isSubmitting := true } w with
  | (.ok _, p, w) => ({ p with isSubmitting := false }, w)
  | (.error _, p, w) =>
    ({ p with isSubmitting := false },
      { w with toastErrors := w.toastErrors ++ [lit "Failed to assign."] })

/-- The array `results` that `Promise.all` fulfils with for the calls `calls`, the first
of them being call number `k`: the body of each call, `null` for a call that rejected. -/
def resultsOf (pf : AssignPlatform) (k : Nat) : List AssignCall → List JSVal
  | [] => []
  | c :: cs => (pf.post k c).getD .null :: resultsOf pf (k + 1) cs

/-- Number of the calls `calls`, the first of them being call number `k`, that fulfil
with a body other than `null`. -/
def fulfilledCount (pf : AssignPlatform) (k : Nat) : List AssignCall → Nat
  | [] => 0
  | c :: cs =>
    (match pf.post k c with
      | some data => if notNull data then 1 else 0
      | none => 0) + fulfilledCount pf (k + 1) cs

/-! ## Sample inputs -/

/-- A world with an empty credential store and empty logs. -/
def World.fresh : World := ⟨fun _ => none, [], [], []⟩

/-- Both key names configured, with the names the session code falls back to. -/
def Env.configured : Env := ⟨some (lit "access_token"), some (lit "refresh_token")⟩

/-- The request of `apiService.post('/assignments/', null)`. -/
def sampleRequest : Request := postRequest (lit "/assignments/") .null

/-- A store holding the access token `old` and the refresh token `r1`. -/
def sampleStore : Storage :=
  Storage.setItem (Storage.setItem (fun _ => none) (lit "access_token") (lit "old"))
    (lit "refresh_token") (lit "r1")

/-- A store holding the access token `tok` and no refresh token. -/
def accessOnlyStore : Storage := Storage.setItem (fun _ => none) (lit "access_token") (lit "tok")

/-- A server that answers the first dispatch 401 and every later one 200, and whose
refresh endpoint hands out the access token `new`. -/
def refreshingNet : Net :=
  ⟨fun k _ => if k = 0 then .response ⟨401, .null⟩ else .response ⟨200, .str (lit "ok")⟩,
   fun _ _ => .response ⟨200, .obj [(lit "accessToken", .str (lit "new"))]⟩⟩

/-- A server that answers every dispatch 401 and whose refresh endpoint is unreachable. -/
def rejectingNet : Net :=
  ⟨fun _ _ => .response ⟨401, .null⟩, fun _ _ => .noResponse (lit "Network Error")⟩

/-- An authentication endpoint that answers 200 with `{ token, teacherId }`. -/
def loginNet (token teacherId : JSVal) : Net :=
  ⟨fun _ _ => .response ⟨200, .obj [(lit "token", token), (lit "teacherId", teacherId)]⟩,
   fun _ _ => .noResponse (lit "Network Error")⟩

/-- The credentials `{ username: 't', password: 'p' }`. -/
def sampleCredentials : JSVal :=
  .obj [(lit "username", .str (lit "t")), (lit "password", .str (lit "p"))]

/-- A server that answers every dispatch with the given status and body, and whose
refresh endpoint is unreachable. -/
def answeringNet (status : Nat) (body : JSVal) : Net :=
  ⟨fun _ _ => .response ⟨status, body⟩, fun _ _ => .noResponse (lit "Network Error")⟩

/-- A session authenticated as the placeholder identity. -/
def signedInSession : Session := ⟨placeholderUser, false, .null⟩

/-- A server that answers the first dispatch 200 with `{ token, teacherId }` and every
later one 401, and whose refresh endpoint is unreachable. -/
def expiringNet : Net :=
  ⟨fun k _ =>
    if k = 0 then
      .response ⟨200, .obj [(lit "token", .str (lit "h.e30.s")), (lit "teacherId", .str (lit "7"))]⟩
    else .response ⟨401, .null⟩,
   fun _ _ => .noResponse (lit "Network Error")⟩

/-- A store that holds only the refresh token `r1`. -/
def refreshOnlyStore : Storage := Storage.setItem (fun _ => none) (lit "refresh_token") (lit "r1")

/-- A form filled in correctly except that the confirmation differs from the password. -/
def mismatchedSignUp : SignUpData :=
  ⟨lit "teacher1", lit "t@school.org", lit "Ada", lit "Byron", lit "7", lit "Abcdefg1",
    lit "Abcdefg2", lit "teacher"⟩

/-- A plan as the generator page writes it, with the given items. -/
def planOf (items : List JSVal) : JSVal :=
  .obj [(lit "items", .arr items), (lit "createdAt", .num (lit "0"))]

/-- A plan item as the generator page builds it. -/
def sampleItem (id : JSString) : JSVal :=
  .obj [(lit "id", .num id), (lit "concept", .str (lit "Addition")),
    (lit "questions", .num (lit "10")), (lit "time", .str (lit "1")),
    (lit "length", .str (lit "2"))]

/-- A page in its initial state but for the plan it loaded. -/
def pageOf (flashData : JSVal) : AssignPage :=
  ⟨[], lit "individual", .str [], .str [], flashData, false⟩

/-- A world whose `localStorage` is the given store, with nothing else in it. -/
def AssignWorld.ofStore (localStorage : Storage) : AssignWorld :=
  ⟨localStorage, fun _ => none, [], [], [], []⟩

/-- A store holding the given access token under `access_token` and the teacher id `7`. -/
def tokenStore (token : JSString) : Storage :=
  Storage.setItem (Storage.setItem (fun _ => none) (lit "access_token") token)
    (lit "teacherId") (lit "7")

/-- A platform for the sample plans: `parseInt` answers `2`, the length of every sample
item, `JSON.stringify` answers a fixed text, the clock reads `0`, and the requests settle
as `post` says. -/
def platformOf (post : Nat → AssignCall → Option JSVal) : AssignPlatform :=
  ⟨fun _ => .num (lit "2"), fun _ => lit "record", .num (lit "0"), post⟩

/-! ## Lemmas: splitting -/

theorem splitOn_ne_nil (sep : Nat) (t : JSString) : splitOn sep t ≠ [] := by
  induction t with
  | nil => simp [splitOn]
  | cons c cs ih =>
    unfold splitOn
    split
    · simp
    · split <;> simp

theorem splitOn_of_not_mem (sep : Nat) (t : JSString) (h : sep ∉ t) : splitOn sep t = [t] := by
  induction t with
  | nil => simp [splitOn]
  | cons c cs ih =>
    have hc : c ≠ sep := fun e => h (by simp [e])
    have hcs : sep ∉ cs := fun e => h (by simp [e])
    simp [splitOn, hc, ih hcs]

theorem splitOn_append_sep (sep : Nat) (h r : JSString) (hh : sep ∉ h) :
    splitOn sep (h ++ sep :: r) = h :: splitOn sep r := by
  induction h with
  | nil => simp [splitOn]
  | cons c cs ih =>
    have hc : c ≠ sep := fun e => hh (by simp [e])
    have hcs : sep ∉ cs := fun e => hh (by simp [e])
    simp [splitOn, hc, ih hcs]

theorem splitOn_length_cons_ne (sep c : Nat) (cs : JSString) (hc : c ≠ sep) :
    (splitOn sep (c :: cs)).length = (splitOn sep cs).length := by
  have hne := splitOn_ne_nil sep cs
  cases hs : splitOn sep cs with
  | nil => exact absurd hs hne
  | cons seg rest => simp [splitOn, hc, hs]

theorem splitOn_length_of_mem (sep : Nat) (t : JSString) (h : sep ∈ t) :
    2 ≤ (splitOn sep t).length := by
  induction t with
  | nil => simp at h
  | cons c cs ih =>
    by_cases hc : c = sep
    · have hpos : 0 < (splitOn sep cs).length := List.length_pos.mpr (splitOn_ne_nil sep cs)
      simp only [splitOn, hc, if_true, List.length_cons]
      omega
    · rw [splitOn_length_cons_ne sep c cs hc]
      apply ih
      rcases List.mem_cons.mp h with e | e
      · exact absurd e.symm hc
      · exact e

theorem splitOn_length_one_iff (sep : Nat) (t : JSString) :
    (splitOn sep t).length < 2 ↔ sep ∉ t := by
  constructor
  · intro h hmem
    have := splitOn_length_of_mem sep t hmem
    omega
  · intro h
    simp [splitOn_of_not_mem sep t h]

theorem atob_undefinedText : atob undefinedText = .error .invalidCharacterError := rfl

/-- A token without a second segment decodes to `null`. -/
theorem decodeJWT_of_one_segment (t : JSString) (h : (splitOn 46 t).length < 2) :
    decodeJWT (.str t) = .ok .null := by
  have hget : (splitOn 46 t)[1]? = none := by
    rw [List.getElem?_eq_none_iff]; omega
  simp [decodeJWT, decodeJWTBody, hget, atob_undefinedText]

/-! ## Lemmas: base64 -/

theorem b64Index_b64Char : ∀ v, v < 64 → b64Index (b64Char false v) = some v := by decide

theorem b64Char_plain : ∀ v, v < 64 →
    isAsciiWhitespace (b64Char false v) = false ∧ b64Char false v ≠ 61 ∧ b64Char false v ≠ 46 := by
  decide

theorem encodeSextets_lt (bytes : List Nat) (hb : ∀ b ∈ bytes, b < 256) :
    ∀ v ∈ encodeSextets bytes, v < 64 := by
  induction bytes using encodeSextets.induct with
  | case1 a b c rest ih =>
    have ha := hb a (by simp)
    have hb2 := hb b (by simp)
    have hc := hb c (by simp)
    have hrest := ih (fun x hx => hb x (by simp [hx]))
    intro v hv
    simp only [encodeSextets, List.mem_cons] at hv
    rcases hv with h | h | h | h | h
    · omega
    · omega
    · omega
    · omega
    · exact hrest v h
  | case2 a b =>
    have ha := hb a (by simp)
    have hb2 := hb b (by simp)
    intro v hv
    simp only [encodeSextets, List.mem_cons, List.mem_singleton] at hv
    rcases hv with h | h | h
    · omega
    · omega
    · simp at h; omega
  | case3 a =>
    have ha := hb a (by simp)
    intro v hv
    simp only [encodeSextets, List.mem_cons, List.mem_singleton] at hv
    rcases hv with h | h
    · omega
    · simp at h; omega
  | case4 => simp [encodeSextets]

theorem decodeSextets_encodeSextets (bytes : List Nat) (hb : ∀ b ∈ bytes, b < 256) :
    decodeSextets (encodeSextets bytes) = bytes := by
  induction bytes using encodeSextets.induct with
  | case1 a b c rest ih =>
    have ha := hb a (by simp)
    have hb2 := hb b (by simp)
    have hc := hb c (by simp)
    have hrest := ih (fun x hx => hb x (by simp [hx]))
    simp only [encodeSextets, decodeSextets, hrest]
    congr 1
    · omega
    · congr 1
      · omega
      · congr 1
        omega
  | case2 a b =>
    have ha := hb a (by simp)
    have hb2 := hb b (by simp)
    simp only [encodeSextets, decodeSextets]
    congr 1
    · omega
    · congr 1
      omega
  | case3 a =>
    have ha := hb a (by simp)
    simp only [encodeSextets, decodeSextets]
    congr 1
    omega
  | case4 => simp [encodeSextets, decodeSextets]

theorem encodeSextets_length (bytes : List Nat) :
    (encodeSextets bytes).length =
      4 * (bytes.length / 3) + (if bytes.length % 3 = 0 then 0 else bytes.length % 3 + 1) := by
  induction bytes using encodeSextets.induct with
  | case1 a b c rest ih =>
    simp only [encodeSextets, List.length_cons, ih]
    split <;> split <;> omega
  | case2 a b => simp [encodeSextets]
  | case3 a => simp [encodeSextets]
  | case4 => simp [encodeSextets]

theorem sextets_map_b64Char (vs : List Nat) (h : ∀ v ∈ vs, v < 64) :
    sextets (vs.map (b64Char false)) = some vs := by
  induction vs with
  | nil => rfl
  | cons v vs ih =>
    have hv := h v (by simp)
    have hvs := ih (fun x hx => h x (by simp [hx]))
    simp [sextets, b64Index_b64Char v hv, hvs]

theorem stripPadding_of_no_pad (e : JSString) (h : 61 ∉ e) : stripPadding e = e := by
  unfold stripPadding
  split
  · have h2 : e.drop (e.length - 2) ≠ [61, 61] := by
      intro hd
      have : 61 ∈ e.drop (e.length - 2) := by rw [hd]; simp
      exact h (List.mem_of_mem_drop this)
    have h1 : e.drop (e.length - 1) ≠ [61] := by
      intro hd
      have : 61 ∈ e.drop (e.length - 1) := by rw [hd]; simp
      exact h (List.mem_of_mem_drop this)
    simp [h2, h1]
  · rfl

theorem stripPadding_append_two (e : JSString) (hlen : (e.length + 2) % 4 = 0) :
    stripPadding (e ++ [61, 61]) = e := by
  have hd : (e ++ [61, 61]).drop ((e ++ [61, 61]).length - 2) = [61, 61] := by
    have : (e ++ [61, 61]).length - 2 = e.length := by simp
    rw [this, List.drop_left]
  have ht : (e ++ [61, 61]).take ((e ++ [61, 61]).length - 2) = e := by
    have : (e ++ [61, 61]).length - 2 = e.length := by simp
    rw [this, List.take_left]
  have hl : (e ++ [61, 61]).length % 4 = 0 := by simpa using hlen
  unfold stripPadding
  rw [if_pos hl, if_pos hd, ht]

theorem stripPadding_append_one (e : JSString) (h : 61 ∉ e) (hlen : (e.length + 1) % 4 = 0) :
    stripPadding (e ++ [61]) = e := by
  have hl : (e ++ [61]).length % 4 = 0 := by simpa using hlen
  have h1 : (e ++ [61]).drop ((e ++ [61]).length - 1) = [61] := by
    have : (e ++ [61]).length - 1 = e.length := by simp
    rw [this, List.drop_left]
  have ht : (e ++ [61]).take ((e ++ [61]).length - 1) = e := by
    have : (e ++ [61]).length - 1 = e.length := by simp
    rw [this, List.take_left]
  have h2 : (e ++ [61]).drop ((e ++ [61]).length - 2) ≠ [61, 61] := by
    rcases List.eq_nil_or_concat e with rfl | ⟨L, b, rfl⟩
    · simp at hlen
    · have hb : b ≠ 61 := fun hb => h (by simp [hb])
      have hlen2 : (L.concat b ++ [61]).length - 2 = L.length := by simp
      have happ : L.concat b ++ [61] = L ++ [b, 61] := by simp
      rw [hlen2, happ, List.drop_left]
      simp [hb]
  unfold stripPadding
  rw [if_pos hl, if_neg h2, if_pos h1, ht]

theorem base64Text_plain (bytes : List Nat) (hb : ∀ b ∈ bytes, b < 256) :
    ∀ c ∈ base64Text false bytes, isAsciiWhitespace c = false ∧ c ≠ 61 ∧ c ≠ 46 := by
  intro c hc
  obtain ⟨v, hv, rfl⟩ := List.mem_map.mp hc
  exact b64Char_plain v (encodeSextets_lt bytes hb v hv)

theorem filter_base64Text (bytes : List Nat) (hb : ∀ b ∈ bytes, b < 256) (pad : JSString)
    (hpad : ∀ c ∈ pad, c = 61) :
    (base64Text false bytes ++ pad).filter (fun c => !isAsciiWhitespace c) =
      base64Text false bytes ++ pad := by
  rw [List.filter_eq_self]
  intro c hc
  rcases List.mem_append.mp hc with h | h
  · simp [(base64Text_plain bytes hb c h).1]
  · rw [hpad c h]; rfl

theorem atob_core (bytes : List Nat) (hb : ∀ b ∈ bytes, b < 256) (d : JSString)
    (hd : stripPadding (d.filter fun c => !isAsciiWhitespace c) = base64Text false bytes) :
    atob d = .ok bytes := by
  have hlen : (base64Text false bytes).length % 4 ≠ 1 := by
    simp only [base64Text, List.length_map, encodeSextets_length]
    split <;> omega
  simp only [atob, hd, hlen, if_false]
  rw [show base64Text false bytes = (encodeSextets bytes).map (b64Char false) from rfl,
    sextets_map_b64Char _ (encodeSextets_lt bytes hb)]
  simp [decodeSextets_encodeSextets bytes hb]

/-- The decoder `atob` inverts the standard base64 encoding, padded or not. -/
theorem atob_of_isBase64 (bytes : List Nat) (hb : ∀ b ∈ bytes, b < 256) (p : JSString)
    (hp : IsBase64Of false p bytes) : atob p = .ok bytes := by
  have hno : 61 ∉ base64Text false bytes := fun h => (base64Text_plain bytes hb 61 h).2.1 rfl
  have hlen := encodeSextets_length bytes
  apply atob_core bytes hb
  rcases hp with rfl | rfl
  · have := filter_base64Text bytes hb [] (by simp)
    simp only [List.append_nil] at this
    rw [this, stripPadding_of_no_pad _ hno]
  · unfold padding
    split
    · rw [filter_base64Text bytes hb [61, 61] (by simp)]
      apply stripPadding_append_two
      simp only [base64Text, List.length_map, hlen]
      split <;> omega
    · split
      · rw [filter_base64Text bytes hb [61] (by simp)]
        apply stripPadding_append_one _ hno
        simp only [base64Text, List.length_map, hlen]
        split <;> omega
      · have := filter_base64Text bytes hb [] (by simp)
        simp only [List.append_nil] at this ⊢
        rw [this, stripPadding_of_no_pad _ hno]

theorem utf8_of_ascii (text : JSString) (h : ∀ c ∈ text, c < 128) : utf8 text = text := by
  induction text using utf8.induct with
  | case1 => rfl
  | case2 c hc => simp [utf8, hc]
  | case3 c hc1 hc2 => exact absurd (h c (by simp)) hc1
  | case4 c hc1 hc2 hc3 => exact absurd (h c (by simp)) hc1
  | case5 c hc1 hc2 hc3 => exact absurd (h c (by simp)) hc1
  | case6 c d rest hc ih =>
    simp [utf8, hc, ih (fun x hx => h x (by simp [hx]))]
  | case7 c d rest hc1 hc2 ih => exact absurd (h c (by simp)) hc1
  | case8 c d rest hc1 hc2 hc3 ih => exact absurd (h c (by simp)) hc1
  | case9 c d rest hc1 hc2 hc3 hc4 ih => exact absurd (h c (by simp)) hc1
  | case10 c d rest hc1 hc2 hc3 hc4 ih => exact absurd (h c (by simp)) hc1

theorem second_segment_of_jwt (header p sig : JSString) (hh : 46 ∉ header) (hp : 46 ∉ p) :
    (splitOn 46 (jwt header p sig))[1]? = some p := by
  unfold jwt
  rw [splitOn_append_sep 46 header _ hh, splitOn_append_sep 46 p _ hp]
  simp

/-! ## Lemmas: the fuel of `JSON.parse` -/

theorem parse_mono (f : Nat) :
    (∀ cs r, parseValue f cs = some r → parseValue (f + 1) cs = some r) ∧
    (∀ acc cs r, parseElems f acc cs = some r → parseElems (f + 1) acc cs = some r) ∧
    (∀ acc cs r, parseMembers f acc cs = some r → parseMembers (f + 1) acc cs = some r) := by
  induction f with
  | zero => simp [parseValue, parseElems, parseMembers]
  | succ f ih =>
    obtain ⟨ihv, ihe, ihm⟩ := ih
    refine ⟨?_, ?_, ?_⟩
    · intro cs r h
      rw [parseValue] at h ⊢
      cases hws : skipWs cs with
      | nil => simp [hws] at h
      | cons c rest =>
        simp only [hws] at h ⊢
        split_ifs at h ⊢ with h1 h2 h3
        · cases hws1 : skipWs rest with
          | nil => simp [hws1] at h
          | cons c1 r1 =>
            simp only [hws1] at h ⊢
            split_ifs at h ⊢
            · exact h
            · exact ihm _ _ _ h
        · cases hws1 : skipWs rest with
          | nil => simp [hws1] at h
          | cons c1 r1 =>
            simp only [hws1] at h ⊢
            split_ifs at h ⊢
            · exact h
            · exact ihe _ _ _ h
        all_goals exact h
    · intro acc cs r h
      rw [parseElems] at h ⊢
      cases hv : parseValue f cs with
      | none => simp [hv] at h
      | some p =>
        obtain ⟨v, rest⟩ := p
        rw [ihv _ _ hv]
        simp only [hv] at h ⊢
        cases hws : skipWs rest with
        | nil => simp [hws] at h
        | cons c r1 =>
          simp only [hws] at h ⊢
          split_ifs at h ⊢
          · exact ihe _ _ _ h
          · exact h
    · intro acc cs r h
      rw [parseMembers] at h ⊢
      cases hws : skipWs cs with
      | nil => simp [hws] at h
      | cons q r0 =>
        simp only [hws] at h ⊢
        split_ifs at h ⊢ with hq
        cases hk : parseStringBody r0 with
        | none => simp [hk] at h
        | some p =>
          obtain ⟨k, r1⟩ := p
          simp only [hk] at h ⊢
          cases hws1 : skipWs r1 with
          | nil => simp [hws1] at h
          | cons colon r2 =>
            simp only [hws1] at h ⊢
            split_ifs at h ⊢ with hc
            cases hv : parseValue f r2 with
            | none => simp [hv] at h
            | some p =>
              obtain ⟨v, r3⟩ := p
              rw [ihv _ _ hv]
              simp only [hv] at h ⊢
              cases hws2 : skipWs r3 with
              | nil => simp [hws2] at h
              | cons c r4 =>
                simp only [hws2] at h ⊢
                split_ifs at h ⊢
                · exact ihm _ _ _ h
                · exact h

theorem parse_mono_le (f g : Nat) (hfg : f ≤ g) :
    (∀ cs r, parseValue f cs = some r → parseValue g cs = some r) ∧
    (∀ acc cs r, parseElems f acc cs = some r → parseElems g acc cs = some r) ∧
    (∀ acc cs r, parseMembers f acc cs = some r → parseMembers g acc cs = some r) := by
  induction hfg with
  | refl => exact ⟨fun _ _ h => h, fun _ _ _ h => h, fun _ _ _ h => h⟩
  | step _ ih =>
    obtain ⟨a, b, c⟩ := ih
    obtain ⟨a1, b1, c1⟩ := parse_mono _
    exact ⟨fun cs r h => a1 cs r (a cs r h), fun acc cs r h => b1 acc cs r (b acc cs r h),
      fun acc cs r h => c1 acc cs r (c acc cs r h)⟩

theorem skipWs_length (cs : JSString) : (skipWs cs).length ≤ cs.length :=
  (List.dropWhile_sublist isJsonWs).length_le

theorem span_snd_length (p : Nat → Bool) (l : List Nat) : (l.span p).2.length ≤ l.length := by
  rw [List.span_eq_take_drop]
  exact (List.dropWhile_sublist p).length_le

theorem parseStringBody_length_aux (n : Nat) : ∀ (cs s r : JSString), cs.length ≤ n →
    parseStringBody cs = some (s, r) → r.length < cs.length := by
  induction n with
  | zero =>
    intro cs s r hn h
    have : cs = [] := List.eq_nil_of_length_eq_zero (by omega)
    subst this
    simp [parseStringBody] at h
  | succ n ih =>
    intro cs s r hn h
    cases cs with
    | nil => simp [parseStringBody] at h
    | cons c rest =>
      rw [parseStringBody.eq_def] at h
      dsimp only at h
      simp only [List.length_cons] at hn ⊢
      split_ifs at h with h1 h2 h3
      · simp only [Option.some.injEq, Prod.mk.injEq] at h
        obtain ⟨_, rfl⟩ := h
        omega
      · split at h
        · simp at h
        · rename_i e r1
          simp only [List.length_cons] at hn ⊢
          split_ifs at h with he
          · split at h
            · rename_i h1 h2 h3 h4 r2
              simp only [List.length_cons] at hn ⊢
              split at h
              · split at h
                · rename_i s0 r0 hs
                  simp only [Option.some.injEq, Prod.mk.injEq] at h
                  obtain ⟨_, rfl⟩ := h
                  have := ih r2 s0 r0 (by omega) hs
                  omega
                · simp at h
              · simp at h
            · simp at h
          · split at h
            · split at h
              · rename_i s0 r0 hs
                simp only [Option.some.injEq, Prod.mk.injEq] at h
                obtain ⟨_, rfl⟩ := h
                have := ih r1 s0 r0 (by omega) hs
                omega
              · simp at h
            · simp at h
      · split at h
        · rename_i s0 r0 hs
          simp only [Option.some.injEq, Prod.mk.injEq] at h
          obtain ⟨_, rfl⟩ := h
          have := ih rest s0 r0 (by omega) hs
          omega
        · simp at h

theorem parseStringBody_length (cs s r : JSString) (h : parseStringBody cs = some (s, r)) :
    r.length < cs.length :=
  parseStringBody_length_aux cs.length cs s r (Nat.le_refl _) h

theorem dropLiteral_length (p cs r : JSString) (h : dropLiteral p cs = some r) :
    r.length ≤ cs.length := by
  induction p generalizing cs with
  | nil => simp [dropLiteral] at h; subst h; exact Nat.le_refl _
  | cons a ps ih =>
    cases cs with
    | nil => simp [dropLiteral] at h
    | cons c cs =>
      rw [dropLiteral] at h
      split_ifs at h
      have := ih cs h
      simp only [List.length_cons]
      omega

theorem optSign_length (signs : List Nat) (cs : JSString) :
    (optSign signs cs).2.length ≤ cs.length := by
  unfold optSign
  split
  · simp
  · split_ifs <;> simp

theorem parseExp_length (cs x r : JSString) (h : parseExp cs = some (x, r)) :
    r.length ≤ cs.length := by
  unfold parseExp at h
  split at h
  · simp at h; obtain ⟨_, rfl⟩ := h; simp
  · rename_i e r0
    split at h
    · dsimp only at h
      split at h
      · simp at h
      · simp only [Option.some.injEq, Prod.mk.injEq] at h
        obtain ⟨_, rfl⟩ := h
        have h1 := span_snd_length isDigit (optSign [43, 45] r0).2
        have h2 := optSign_length [43, 45] r0
        simp only [List.length_cons]
        omega
    · simp only [Option.some.injEq, Prod.mk.injEq] at h
      obtain ⟨_, rfl⟩ := h
      exact Nat.le_refl _

theorem parseFrac_length (cs x r : JSString) (h : parseFrac cs = some (x, r)) :
    r.length ≤ cs.length := by
  unfold parseFrac at h
  split at h
  · simp at h; obtain ⟨_, rfl⟩ := h; simp
  · rename_i e r0
    split at h
    · dsimp only at h
      split at h
      · simp at h
      · simp only [Option.some.injEq, Prod.mk.injEq] at h
        obtain ⟨_, rfl⟩ := h
        have h1 := span_snd_length isDigit r0
        simp only [List.length_cons]
        omega
    · simp only [Option.some.injEq, Prod.mk.injEq] at h
      obtain ⟨_, rfl⟩ := h
      exact Nat.le_refl _

theorem parseInt_length (cs x r : JSString) (h : parseInt cs = some (x, r)) :
    r.length < cs.length := by
  unfold parseInt at h
  split at h
  · simp at h
  · rename_i d r0
    split_ifs at h with h0 hd
    · simp only [Option.some.injEq, Prod.mk.injEq] at h
      obtain ⟨_, rfl⟩ := h
      simp
    · simp only [Option.some.injEq, Prod.mk.injEq] at h
      obtain ⟨_, rfl⟩ := h
      have h1 := span_snd_length isDigit r0
      simp only [List.length_cons]
      omega

theorem parseNumber_length (cs x r : JSString) (h : parseNumber cs = some (x, r)) :
    r.length < cs.length := by
  unfold parseNumber at h
  simp only [] at h
  split at h
  · simp at h
  · rename_i i r1 hi
    split at h
    · simp at h
    · rename_i f r2 hf
      split at h
      · simp at h
      · rename_i e r3 he
        simp only [Option.some.injEq, Prod.mk.injEq] at h
        obtain ⟨_, rfl⟩ := h
        have h1 := parseInt_length _ _ _ hi
        have h2 := parseFrac_length _ _ _ hf
        have h3 := parseExp_length _ _ _ he
        have h4 := optSign_length [45] cs
        omega

theorem skipWs_cons_length (cs : JSString) (c : Nat) (rest : JSString) (h : skipWs cs = c :: rest) :
    rest.length < cs.length := by
  have := skipWs_length cs
  rw [h] at this
  simp only [List.length_cons] at this
  omega

theorem parse_length (f : Nat) :
    (∀ cs v rest, parseValue f cs = some (v, rest) → rest.length < cs.length) ∧
    (∀ acc cs v rest, parseElems f acc cs = some (v, rest) → rest.length < cs.length) ∧
    (∀ acc cs v rest, parseMembers f acc cs = some (v, rest) → rest.length < cs.length) := by
  induction f with
  | zero => simp [parseValue, parseElems, parseMembers]
  | succ f ih =>
    obtain ⟨ihv, ihe, ihm⟩ := ih
    refine ⟨?_, ?_, ?_⟩
    · intro cs v out h
      rw [parseValue] at h
      cases hws : skipWs cs with
      | nil => simp [hws] at h
      | cons c rest =>
        have h0 := skipWs_cons_length cs c rest hws
        simp only [hws] at h
        split_ifs at h with h1 h2 h3 h4 h5 h6
        · cases hws1 : skipWs rest with
          | nil => simp [hws1] at h
          | cons c1 r1 =>
            have h01 := skipWs_cons_length rest c1 r1 hws1
            simp only [hws1] at h
            split_ifs at h
            · simp only [Option.some.injEq, Prod.mk.injEq] at h
              obtain ⟨_, rfl⟩ := h
              omega
            · have := ihm _ _ _ _ h
              simp only [List.length_cons] at this
              omega
        · cases hws1 : skipWs rest with
          | nil => simp [hws1] at h
          | cons c1 r1 =>
            have h01 := skipWs_cons_length rest c1 r1 hws1
            simp only [hws1] at h
            split_ifs at h
            · simp only [Option.some.injEq, Prod.mk.injEq] at h
              obtain ⟨_, rfl⟩ := h
              omega
            · have := ihe _ _ _ _ h
              simp only [List.length_cons] at this
              omega
        · split at h
          · rename_i s0 r0 hs
            simp only [Option.some.injEq, Prod.mk.injEq] at h
            obtain ⟨_, rfl⟩ := h
            have := parseStringBody_length _ _ _ hs
            omega
          · simp at h
        · split at h
          · rename_i r0 hs
            simp only [Option.some.injEq, Prod.mk.injEq] at h
            obtain ⟨_, rfl⟩ := h
            have := dropLiteral_length _ _ _ hs
            omega
          · simp at h
        · split at h
          · rename_i r0 hs
            simp only [Option.some.injEq, Prod.mk.injEq] at h
            obtain ⟨_, rfl⟩ := h
            have := dropLiteral_length _ _ _ hs
            omega
          · simp at h
        · split at h
          · rename_i r0 hs
            simp only [Option.some.injEq, Prod.mk.injEq] at h
            obtain ⟨_, rfl⟩ := h
            have := dropLiteral_length _ _ _ hs
            omega
          · simp at h
        · split at h
          · rename_i n0 r0 hs
            simp only [Option.some.injEq, Prod.mk.injEq] at h
            obtain ⟨_, rfl⟩ := h
            have := parseNumber_length _ _ _ hs
            simp only [List.length_cons] at this
            omega
          · simp at h
    · intro acc cs v out h
      rw [parseElems] at h
      cases hv : parseValue f cs with
      | none => simp [hv] at h
      | some p =>
        obtain ⟨v1, rest⟩ := p
        have h0 := ihv _ _ _ hv
        simp only [hv] at h
        cases hws : skipWs rest with
        | nil => simp [hws] at h
        | cons c r1 =>
          have h1 := skipWs_cons_length rest c r1 hws
          simp only [hws] at h
          split_ifs at h
          · have := ihe _ _ _ _ h
            omega
          · simp only [Option.some.injEq, Prod.mk.injEq] at h
            obtain ⟨_, rfl⟩ := h
            omega
    · intro acc cs v out h
      rw [parseMembers] at h
      cases hws : skipWs cs with
      | nil => simp [hws] at h
      | cons q r0 =>
        have h0 := skipWs_cons_length cs q r0 hws
        simp only [hws] at h
        split_ifs at h with hq
        cases hk : parseStringBody r0 with
        | none => simp [hk] at h
        | some p =>
          obtain ⟨k, r1⟩ := p
          have h1 := parseStringBody_length _ _ _ hk
          simp only [hk] at h
          cases hws1 : skipWs r1 with
          | nil => simp [hws1] at h
          | cons colon r2 =>
            have h2 := skipWs_cons_length r1 colon r2 hws1
            simp only [hws1] at h
            split_ifs at h with hc
            cases hv : parseValue f r2 with
            | none => simp [hv] at h
            | some p =>
              obtain ⟨v1, r3⟩ := p
              have h3 := ihv _ _ _ hv
              simp only [hv] at h
              cases hws2 : skipWs r3 with
              | nil => simp [hws2] at h
              | cons c r4 =>
                have h4 := skipWs_cons_length r3 c r4 hws2
                simp only [hws2] at h
                split_ifs at h
                · have := ihm _ _ _ _ h
                  omega
                · simp only [Option.some.injEq, Prod.mk.injEq] at h
                  obtain ⟨_, rfl⟩ := h
                  omega

theorem parse_adequate (f : Nat) :
    (∀ cs v out, parseValue f cs = some (v, out) →
      parseValue (2 * (cs.length - out.length)) cs = some (v, out)) ∧
    (∀ acc cs v out, parseElems f acc cs = some (v, out) →
      parseElems (2 * (cs.length - out.length)) acc cs = some (v, out)) ∧
    (∀ acc cs v out, parseMembers f acc cs = some (v, out) →
      parseMembers (2 * (cs.length - out.length)) acc cs = some (v, out)) := by
  induction f with
  | zero => simp [parseValue, parseElems, parseMembers]
  | succ f ih =>
    obtain ⟨ihv, ihe, ihm⟩ := ih
    have liftV : ∀ cs v out G, parseValue f cs = some (v, out) →
        2 * (cs.length - out.length) ≤ G → parseValue G cs = some (v, out) :=
      fun cs v out G h hle => (parse_mono_le _ _ hle).1 _ _ (ihv _ _ _ h)
    have liftE : ∀ acc cs v out G, parseElems f acc cs = some (v, out) →
        2 * (cs.length - out.length) ≤ G → parseElems G acc cs = some (v, out) :=
      fun acc cs v out G h hle => (parse_mono_le _ _ hle).2.1 _ _ _ (ihe _ _ _ _ h)
    have liftM : ∀ acc cs v out G, parseMembers f acc cs = some (v, out) →
        2 * (cs.length - out.length) ≤ G → parseMembers G acc cs = some (v, out) :=
      fun acc cs v out G h hle => (parse_mono_le _ _ hle).2.2 _ _ _ (ihm _ _ _ _ h)
    refine ⟨?_, ?_, ?_⟩
    · intro cs v out h
      have hlen := (parse_length (f + 1)).1 _ _ _ h
      obtain ⟨G, hG⟩ : ∃ G, 2 * (cs.length - out.length) = G + 1 :=
        ⟨2 * (cs.length - out.length) - 1, by omega⟩
      rw [hG]
      rw [parseValue] at h ⊢
      cases hws : skipWs cs with
      | nil => simp [hws] at h
      | cons c rest =>
        have h0 := skipWs_cons_length cs c rest hws
        simp only [hws] at h ⊢
        split_ifs at h ⊢ with h1 h2
        · cases hws1 : skipWs rest with
          | nil => simp [hws1] at h
          | cons c1 r1 =>
            have h01 := skipWs_cons_length rest c1 r1 hws1
            simp only [hws1] at h ⊢
            split_ifs at h ⊢
            · exact h
            · have h2 := (parse_length f).2.2 _ _ _ _ h
              simp only [List.length_cons] at h2
              exact liftM _ _ _ _ G h (by simp only [List.length_cons]; omega)
        · cases hws1 : skipWs rest with
          | nil => simp [hws1] at h
          | cons c1 r1 =>
            have h01 := skipWs_cons_length rest c1 r1 hws1
            simp only [hws1] at h ⊢
            split_ifs at h ⊢
            · exact h
            · have h2 := (parse_length f).2.1 _ _ _ _ h
              simp only [List.length_cons] at h2
              exact liftE _ _ _ _ G h (by simp only [List.length_cons]; omega)
        all_goals exact h
    · intro acc cs v out h
      have hlen := (parse_length (f + 1)).2.1 _ _ _ _ h
      obtain ⟨G, hG⟩ : ∃ G, 2 * (cs.length - out.length) = G + 1 :=
        ⟨2 * (cs.length - out.length) - 1, by omega⟩
      rw [hG]
      rw [parseElems] at h ⊢
      cases hv : parseValue f cs with
      | none => simp [hv] at h
      | some p =>
        obtain ⟨v1, rest⟩ := p
        have h0 := (parse_length f).1 _ _ _ hv
        simp only [hv] at h
        cases hws : skipWs rest with
        | nil => simp [hws] at h
        | cons c r1 =>
          have h1 := skipWs_cons_length rest c r1 hws
          simp only [hws] at h
          split_ifs at h with hc hd
          · have h2 := (parse_length f).2.1 _ _ _ _ h
            rw [liftV cs v1 rest G hv (by omega)]
            simp only [hws, hc, if_true]
            exact liftE _ _ _ _ G h (by omega)
          · simp only [Option.some.injEq, Prod.mk.injEq] at h
            obtain ⟨rfl, rfl⟩ := h
            rw [liftV cs v1 rest G hv (by omega)]
            simp [hws, hd]
    · intro acc cs v out h
      have hlen := (parse_length (f + 1)).2.2 _ _ _ _ h
      obtain ⟨G, hG⟩ : ∃ G, 2 * (cs.length - out.length) = G + 1 :=
        ⟨2 * (cs.length - out.length) - 1, by omega⟩
      rw [hG]
      rw [parseMembers] at h ⊢
      cases hws : skipWs cs with
      | nil => simp [hws] at h
      | cons q r0 =>
        have h0 := skipWs_cons_length cs q r0 hws
        simp only [hws] at h ⊢
        split_ifs at h ⊢ with hq
        cases hk : parseStringBody r0 with
        | none => simp [hk] at h
        | some p =>
          obtain ⟨k, r1⟩ := p
          have h1 := parseStringBody_length _ _ _ hk
          simp only [hk] at h ⊢
          cases hws1 : skipWs r1 with
          | nil => simp [hws1] at h
          | cons colon r2 =>
            have h2 := skipWs_cons_length r1 colon r2 hws1
            simp only [hws1] at h ⊢
            split_ifs at h ⊢ with hc
            cases hv : parseValue f r2 with
            | none => simp [hv] at h
            | some p =>
              obtain ⟨v1, r3⟩ := p
              have h3 := (parse_length f).1 _ _ _ hv
              simp only [hv] at h
              cases hws2 : skipWs r3 with
              | nil => simp [hws2] at h
              | cons c r4 =>
                have h4 := skipWs_cons_length r3 c r4 hws2
                simp only [hws2] at h
                split_ifs at h with hc1 hc2
                · have h5 := (parse_length f).2.2 _ _ _ _ h
                  rw [liftV r2 v1 r3 G hv (by omega)]
                  simp only [hws2, hc1, if_true]
                  exact liftM _ _ _ _ G h (by omega)
                · simp only [Option.some.injEq, Prod.mk.injEq] at h
                  obtain ⟨rfl, rfl⟩ := h
                  rw [liftV r2 v1 r3 G hv (by omega)]
                  simp [hws2, hc2]

/-- The fuel `JSON.parse` is run with is enough: a value that some amount of fuel parses
from `text` is parsed with the same remainder by `2 * text.length + 2`. -/
theorem parseValue_fuel (text : JSString) (fuel : Nat) (v : JSVal) (rest : JSString)
    (h : parseValue fuel text = some (v, rest)) :
    parseValue (2 * text.length + 2) text = some (v, rest) :=
  (parse_mono_le _ _ (by omega)).1 _ _ ((parse_adequate fuel).1 _ _ _ h)

/-- The result of `JSON.parse` does not depend on the fuel: `text` parses to `o` as soon
as some amount of fuel reads `o` from it with only whitespace left over. -/
theorem JSONparse_ok_iff (text : JSString) (o : JSVal) :
    JSONparse text = .ok o ↔
      ∃ fuel rest, parseValue fuel text = some (o, rest) ∧ skipWs rest = [] := by
  constructor
  · intro h
    unfold JSONparse at h
    split at h
    · rename_i v rest hv
      split_ifs at h with hr
      cases h
      exact ⟨_, rest, hv, hr⟩
    · cases h
  · rintro ⟨fuel, rest, hv, hr⟩
    unfold JSONparse
    rw [parseValue_fuel text fuel o rest hv]
    simp [hr]

/-! ## Token codec: claims -/

/-- C1, as stated, fails: `decodeJWT` never counts segments.  A token of two segments
and a token of four segments, whose second segment `e30` is the base64 text of an
empty JSON object, both decode to that object and not to `null`. -/
theorem decodeJWT_ignores_segment_count :
    ((splitOn 46 (lit "h.e30")).length = 2 ∧
      decodeJWT (.str (lit "h.e30")) = .ok (.obj []) ∧
      decodeJWT (.str (lit "h.e30")) ≠ .ok .null) ∧
    ((splitOn 46 (lit "h.e30.s.x")).length = 4 ∧
      decodeJWT (.str (lit "h.e30.s.x")) = .ok (.obj []) ∧
      decodeJWT (.str (lit "h.e30.s.x")) ≠ .ok .null) := by
  refine ⟨⟨by decide, rfl, ?_⟩, ⟨by decide, rfl, ?_⟩⟩
  · rw [show decodeJWT (.str (lit "h.e30")) = .ok (.obj []) from rfl]
    intro h; cases h
  · rw [show decodeJWT (.str (lit "h.e30.s.x")) = .ok (.obj []) from rfl]
    intro h; cases h

theorem decodeJWT_congr (t u : JSString) (h : (splitOn 46 t)[1]? = (splitOn 46 u)[1]?) :
    decodeJWT (.str t) = decodeJWT (.str u) := by
  simp only [decodeJWT, decodeJWTBody, h]

/-- C1, amended: every token string with fewer than two dot-separated segments (no dot
at all) makes `decodeJWT` return `null`.  The number of segments is not otherwise
checked: the result depends on the second segment alone, so a token of two segments
`header.p` and a token of four or more segments `header.p.sig.rest` decode exactly like
the three-segment token `header.p.sig`. -/
theorem decodeJWT_null_of_no_second_segment :
    (∀ t : JSString, (splitOn 46 t).length < 2 → decodeJWT (.str t) = .ok .null) ∧
    (∀ t u : JSString, (splitOn 46 t)[1]? = (splitOn 46 u)[1]? →
      decodeJWT (.str t) = decodeJWT (.str u)) ∧
    (∀ header p sig rest : JSString, 46 ∉ header → 46 ∉ p → 46 ∉ sig →
      (splitOn 46 (jwt header p sig)).length = 3 ∧
      (splitOn 46 (header ++ 46 :: p)).length = 2 ∧
      decodeJWT (.str (header ++ 46 :: p)) = decodeJWT (.str (jwt header p sig)) ∧
      4 ≤ (splitOn 46 (jwt header p sig ++ 46 :: rest)).length ∧
      decodeJWT (.str (jwt header p sig ++ 46 :: rest)) = decodeJWT (.str (jwt header p sig))) := by
  refine ⟨decodeJWT_of_one_segment, decodeJWT_congr, ?_⟩
  intro header p sig rest hh hp hs
  have h3 : splitOn 46 (jwt header p sig) = [header, p, sig] := by
    unfold jwt
    rw [splitOn_append_sep 46 header _ hh, splitOn_append_sep 46 p _ hp, splitOn_of_not_mem 46 sig hs]
  have h2 : splitOn 46 (header ++ 46 :: p) = [header, p] := by
    rw [splitOn_append_sep 46 header _ hh, splitOn_of_not_mem 46 p hp]
  have h4 : splitOn 46 (jwt header p sig ++ 46 :: rest) = header :: p :: sig :: splitOn 46 rest := by
    have e : jwt header p sig ++ 46 :: rest = header ++ 46 :: (p ++ 46 :: (sig ++ 46 :: rest)) := by
      simp [jwt]
    rw [e, splitOn_append_sep 46 header _ hh, splitOn_append_sep 46 p _ hp,
      splitOn_append_sep 46 sig _ hs]
  have hpos : 0 < (splitOn 46 rest).length := List.length_pos.mpr (splitOn_ne_nil 46 rest)
  refine ⟨by rw [h3]; rfl, by rw [h2]; rfl, decodeJWT_congr _ _ (by rw [h2, h3]; rfl), ?_,
    decodeJWT_congr _ _ (by rw [h4, h3]; rfl)⟩
  rw [h4]
  simp only [List.length_cons]
  omega

/-- C1, amended, at the token `abc` and at the tokens `h.e30` and `h.e30.s.x.y`. -/
theorem decodeJWT_null_of_no_second_segment_witness :
    ((splitOn 46 (lit "abc")).length < 2 ∧ decodeJWT (.str (lit "abc")) = .ok .null) ∧
    decodeJWT (.str (lit "h.e30")) = decodeJWT (.str (lit "h.e30.s")) ∧
    decodeJWT (.str (lit "h.e30.s.x.y")) = decodeJWT (.str (lit "h.e30.s")) :=
  ⟨⟨by decide, decodeJWT_null_of_no_second_segment.1 (lit "abc") (by decide)⟩,
    (decodeJWT_null_of_no_second_segment.2.2 (lit "h") (lit "e30") (lit "s") (lit "x.y")
      (by decide) (by decide) (by decide)).2.2.1,
    (decodeJWT_null_of_no_second_segment.2.2 (lit "h") (lit "e30") (lit "s") (lit "x.y")
      (by decide) (by decide) (by decide)).2.2.2.2⟩

/-- C2 fails on the code, twice.  The object `{"sub":"~~"}` has the base64url text
`eyJzdWIiOiJ-fiJ9`, whose `-` the decoder `atob` rejects, so the token decodes to
`null`.  The object `{"a":"é"}` has the base64url text `eyJhIjoiw6kifQ`, which `atob`
turns into one character per UTF-8 byte, so the token decodes to a different object. -/
theorem decodeJWT_base64url_roundtrip_fails :
    (JSONparse (lit "\x7b\"sub\":\"~~\"\x7d") = .ok (.obj [(lit "sub", .str (lit "~~"))]) ∧
      IsBase64Of true (lit "eyJzdWIiOiJ-fiJ9") (utf8 (lit "\x7b\"sub\":\"~~\"\x7d")) ∧
      decodeJWT (.str (jwt (lit "h") (lit "eyJzdWIiOiJ-fiJ9") (lit "s"))) = .ok .null) ∧
    (JSONparse (lit "\x7b\"a\":\"é\"\x7d") = .ok (.obj [(lit "a", .str [233])]) ∧
      IsBase64Of true (lit "eyJhIjoiw6kifQ") (utf8 (lit "\x7b\"a\":\"é\"\x7d")) ∧
      decodeJWT (.str (jwt (lit "h") (lit "eyJhIjoiw6kifQ") (lit "s")))
        = .ok (.obj [(lit "a", .str [195, 169])])) :=
  ⟨⟨rfl, Or.inl rfl, rfl⟩, ⟨rfl, Or.inl rfl, rfl⟩⟩

/-- What `decodeJWT` does decode: for every JSON value `o` written as an ASCII JSON
text, every encoding `p` of that text in the standard base64 alphabet (`+` and `/`,
padding optional), every header without a dot and every signature,
`decodeJWT(header.p.sig)` returns `o`. -/
theorem decodeJWT_roundtrip (o : JSVal) (text p header sig : JSString)
    (hascii : ∀ c ∈ text, c < 128) (ho : JSONparse text = .ok o)
    (hp : IsBase64Of false p (utf8 text)) (hh : 46 ∉ header) :
    decodeJWT (.str (jwt header p sig)) = .ok o := by
  rw [utf8_of_ascii text hascii] at hp
  have hb : ∀ b ∈ text, b < 256 := fun b hb => Nat.lt_trans (hascii b hb) (by decide)
  have hatob : atob p = .ok text := atob_of_isBase64 text hb p hp
  have hdot : 46 ∉ p := by
    intro hmem
    have hplain := base64Text_plain text hb
    rcases hp with rfl | rfl
    · exact (hplain 46 hmem).2.2 rfl
    · rcases List.mem_append.mp hmem with h | h
      · exact (hplain 46 h).2.2 rfl
      · unfold padding at h
        split at h
        · simp at h
        · split at h <;> simp at h
  simp [decodeJWT, decodeJWTBody, second_segment_of_jwt header p sig hh hdot, hatob, ho]

/-- The round trip at the object `{"a":1}` and its padded base64 text `eyJhIjoxfQ==`. -/
theorem decodeJWT_roundtrip_witness :
    decodeJWT (.str (jwt (lit "h") (lit "eyJhIjoxfQ==") (lit "s.t")))
      = .ok (.obj [(lit "a", .num (lit "1"))]) :=
  decodeJWT_roundtrip (.obj [(lit "a", .num (lit "1"))]) (lit "\x7b\"a\":1\x7d")
    (lit "eyJhIjoxfQ==") (lit "h") (lit "s.t") (by decide) rfl (Or.inr rfl) (by decide)

/-- C3: `decodeJWT` returns a value for every input, and that value is `null` when the
token is not a string (for instance `undefined`), when it has no dot, when its second
segment is not decodable base64, and when the decoded text is not valid JSON. -/
theorem decodeJWT_total (token : JSVal) :
    (∃ v, decodeJWT token = .ok v) ∧
    ((∀ t, token ≠ .str t) → decodeJWT token = .ok .null) ∧
    (∀ t, token = .str t → 46 ∉ t → decodeJWT token = .ok .null) ∧
    (∀ t p e, token = .str t → (splitOn 46 t)[1]? = some p → atob p = .error e →
      decodeJWT token = .ok .null) ∧
    (∀ t p text e, token = .str t → (splitOn 46 t)[1]? = some p → atob p = .ok text →
      JSONparse text = .error e → decodeJWT token = .ok .null) := by
  refine ⟨?_, ?_, ?_, ?_, ?_⟩
  · unfold decodeJWT
    cases decodeJWTBody token with
    | ok v => exact ⟨v, rfl⟩
    | error e => exact ⟨.null, rfl⟩
  · intro h
    cases token with
    | str t => exact absurd rfl (h t)
    | _ => rfl
  · rintro t rfl ht
    exact decodeJWT_of_one_segment t ((splitOn_length_one_iff 46 t).mpr ht)
  · rintro t p e rfl hp he
    simp [decodeJWT, decodeJWTBody, hp, he]
  · rintro t p text e rfl hp htext he
    simp [decodeJWT, decodeJWTBody, hp, htext, he]

/-- C3 at `undefined`, at a token without dot, at a second segment with a character
outside the alphabet, and at a second segment that decodes to the text `{`. -/
theorem decodeJWT_total_witness :
    decodeJWT .undefined = .ok .null ∧
    decodeJWT (.str (lit "abc")) = .ok .null ∧
    decodeJWT (.str (lit "h.a-b.s")) = .ok .null ∧
    decodeJWT (.str (lit "h.ew.s")) = .ok .null :=
  ⟨(decodeJWT_total .undefined).2.1 (fun t h => by cases h),
   (decodeJWT_total (.str (lit "abc"))).2.2.1 (lit "abc") rfl (by decide),
   (decodeJWT_total (.str (lit "h.a-b.s"))).2.2.2.1 (lit "h.a-b.s") (lit "a-b")
     .invalidCharacterError rfl rfl rfl,
   (decodeJWT_total (.str (lit "h.ew.s"))).2.2.2.2 (lit "h.ew.s") (lit "ew") [123]
     .syntaxError rfl rfl rfl rfl⟩

/-! ## Lemmas: HTTP client -/

theorem requestInterceptor_retry (env : Env) (st : Storage) (config : Request) :
    (requestInterceptor env st config).retry = config.retry := by
  unfold requestInterceptor
  split
  · split <;> rfl
  · rfl

theorem requestInterceptor_url (env : Env) (st : Storage) (config : Request) :
    (requestInterceptor env st config).url = config.url := by
  unfold requestInterceptor
  split
  · split <;> rfl
  · rfl

theorem settle_error_config (config : Request) (o : Outcome) (e : AxiosError)
    (h : settle config o = .error e) : e.config = config := by
  unfold settle at h
  split at h
  · split at h
    · cases h
    · cases h; rfl
  · cases h; rfl

theorem rejectWithToast_fst (error : AxiosError) (w : World) :
    (rejectWithToast error w).1 = .error error := by
  by_cases h : isLoginRequest error.config = true <;> simp [rejectWithToast, h]

theorem rejectWithToast_storage (error : AxiosError) (w : World) :
    (rejectWithToast error w).2.storage = w.storage := by
  by_cases h : isLoginRequest error.config = true <;> simp [rejectWithToast, h]

theorem rejectWithToast_dispatched (error : AxiosError) (w : World) :
    (rejectWithToast error w).2.dispatched = w.dispatched := by
  by_cases h : isLoginRequest error.config = true <;> simp [rejectWithToast, h]

theorem rejectWithToast_refreshCalls (error : AxiosError) (w : World) :
    (rejectWithToast error w).2.refreshCalls = w.refreshCalls := by
  by_cases h : isLoginRequest error.config = true <;> simp [rejectWithToast, h]

theorem rejectWithToast_toasts (error : AxiosError) (w : World) :
    (rejectWithToast error w).2.toasts.length =
      w.toasts.length + (if isLoginRequest error.config then 0 else 1) := by
  by_cases h : isLoginRequest error.config = true <;> simp [rejectWithToast, h]

/-- A request whose `_retry` flag is set is dispatched once and its failure rejected. -/
theorem api_of_retry (env : Env) (net : Net) (fuel : Nat) (config : Request) (w : World)
    (h : config.retry = true) :
    api env net (fuel + 1) config w =
      some (match settle (requestInterceptor env w.storage config)
          (net.serve w.dispatched.length (requestInterceptor env w.storage config)) with
        | .ok response => (.ok response, w.afterDispatch (requestInterceptor env w.storage config))
        | .error error =>
          rejectWithToast error (w.afterDispatch (requestInterceptor env w.storage config))) := by
  unfold api
  simp only []
  cases hs : settle (requestInterceptor env w.storage config)
      (net.serve w.dispatched.length (requestInterceptor env w.storage config)) with
  | ok response => rfl
  | error error =>
    have hc := settle_error_config _ _ _ hs
    have hr : error.config.retry = true := by rw [hc, requestInterceptor_retry, h]
    simp [hr, World.afterDispatch]

/-- First dispatch answered 401, `_retry` not yet set: the 401 branch, spelled out. -/
theorem api_of_unauthorized (env : Env) (net : Net) (fuel : Nat) (config : Request) (w : World)
    (r : Response) (hretry : config.retry = false)
    (hserve : net.serve w.dispatched.length (requestInterceptor env w.storage config) = .response r)
    (h401 : r.status = 401) :
    api env net (fuel + 1) config w =
      match w.storage (rawKey env.refreshTokenKey) with
      | none =>
        some (rejectWithToast (flaggedError (requestInterceptor env w.storage config) r)
          (w.afterDispatch (requestInterceptor env w.storage config)))
      | some refreshToken =>
        if refreshToken.isEmpty then
          some (rejectWithToast (flaggedError (requestInterceptor env w.storage config) r)
            (w.afterDispatch (requestInterceptor env w.storage config)))
        else
          match refreshAccessToken net w.refreshCalls.length refreshToken with
          | .ok accessToken =>
            api env net fuel
              { requestInterceptor env w.storage config with
                retry := true, authorization := some (bearer (toJSString accessToken)) }
              { storage := Storage.setItem w.storage (rawKey env.authTokenKey) (toJSString accessToken),
                toasts := w.toasts,
                dispatched := w.dispatched ++ [requestInterceptor env w.storage config],
                refreshCalls := w.refreshCalls ++ [refreshToken] }
          | .error _ =>
            some (rejectWithToast (flaggedError (requestInterceptor env w.storage config) r)
              { storage := Storage.removeItem (Storage.removeItem w.storage (rawKey env.authTokenKey))
                  (rawKey env.refreshTokenKey),
                toasts := w.toasts,
                dispatched := w.dispatched ++ [requestInterceptor env w.storage config],
                refreshCalls := w.refreshCalls ++ [refreshToken] }) := by
  have hr : (requestInterceptor env w.storage config).retry = false := by
    rw [requestInterceptor_retry, hretry]
  conv_lhs => unfold api
  simp only [hserve, settle, h401, AxiosError.status, Option.map, hr, flaggedError,
    World.afterDispatch]
  simp only [show ¬ (200 ≤ 401 ∧ 401 < 300) by decide, if_false]
  have hc : some r.status = some 401 ∧ (requestInterceptor env w.storage config).retry = false :=
    ⟨by rw [h401], hr⟩
  rw [if_pos hc]

theorem api_of_ok (env : Env) (net : Net) (fuel : Nat) (config : Request) (w : World)
    (response : Response)
    (hs : settle (requestInterceptor env w.storage config)
      (net.serve w.dispatched.length (requestInterceptor env w.storage config)) = .ok response) :
    api env net (fuel + 1) config w =
      some (.ok response, w.afterDispatch (requestInterceptor env w.storage config)) := by
  conv_lhs => unfold api
  simp only [hs]
  rfl

theorem api_of_other (env : Env) (net : Net) (fuel : Nat) (config : Request) (w : World)
    (error : AxiosError)
    (hs : settle (requestInterceptor env w.storage config)
      (net.serve w.dispatched.length (requestInterceptor env w.storage config)) = .error error)
    (hc : ¬ (error.status = some 401 ∧ error.config.retry = false)) :
    api env net (fuel + 1) config w =
      some (rejectWithToast error (w.afterDispatch (requestInterceptor env w.storage config))) := by
  conv_lhs => unfold api
  simp only [hs]
  rw [if_neg hc]
  rfl

theorem isLoginRequest_congr (c d : Request) (h : c.url = d.url) :
    isLoginRequest c = isLoginRequest d := by
  unfold isLoginRequest
  rw [h]

/-- What a call with the `_retry` flag set does, for every positive fuel. -/
theorem api_retry_spec (env : Env) (net : Net) (config : Request) (w : World)
    (h : config.retry = true) :
    ∃ out : Except AxiosError Response × World,
      (∀ fuel, api env net (fuel + 1) config w = some out) ∧
      out.1 = settle (requestInterceptor env w.storage config)
        (net.serve w.dispatched.length (requestInterceptor env w.storage config)) ∧
      out.2.storage = w.storage ∧
      out.2.dispatched = w.dispatched ++ [requestInterceptor env w.storage config] ∧
      out.2.refreshCalls = w.refreshCalls ∧
      out.2.toasts.length = w.toasts.length + toastCount config out.1 := by
  cases hs : settle (requestInterceptor env w.storage config)
      (net.serve w.dispatched.length (requestInterceptor env w.storage config)) with
  | ok response =>
    refine ⟨(.ok response, w.afterDispatch (requestInterceptor env w.storage config)),
      fun fuel => ?_, rfl, rfl, rfl, rfl, rfl⟩
    rw [api_of_retry env net fuel config w h, hs]
  | error error =>
    have hcfg := settle_error_config _ _ _ hs
    have hurl : isLoginRequest error.config = isLoginRequest config := by
      apply isLoginRequest_congr
      rw [hcfg, requestInterceptor_url]
    refine ⟨rejectWithToast error (w.afterDispatch (requestInterceptor env w.storage config)),
      fun fuel => ?_, rejectWithToast_fst _ _, ?_, ?_, ?_, ?_⟩
    · rw [api_of_retry env net fuel config w h, hs]
    · rw [rejectWithToast_storage]; rfl
    · rw [rejectWithToast_dispatched]; rfl
    · rw [rejectWithToast_refreshCalls]; rfl
    · rw [rejectWithToast_toasts, rejectWithToast_fst, hurl]; rfl

theorem toastCount_congr (c d : Request) (h : c.url = d.url) (result : Except AxiosError Response) :
    toastCount c result = toastCount d result := by
  unfold toastCount
  rw [isLoginRequest_congr c d h]

/-- Effects of rejecting `error`, which belongs to a request with the URL of `config`. -/
theorem rejectWithToast_spec (config : Request) (error : AxiosError) (w : World)
    (hurl : error.config.url = config.url) :
    (rejectWithToast error w).1 = .error error ∧
    (rejectWithToast error w).2.storage = w.storage ∧
    (rejectWithToast error w).2.dispatched = w.dispatched ∧
    (rejectWithToast error w).2.refreshCalls = w.refreshCalls ∧
    (rejectWithToast error w).2.toasts.length =
      w.toasts.length + toastCount config (rejectWithToast error w).1 := by
  refine ⟨rejectWithToast_fst _ _, rejectWithToast_storage _ _, rejectWithToast_dispatched _ _,
    rejectWithToast_refreshCalls _ _, ?_⟩
  rw [rejectWithToast_toasts, rejectWithToast_fst, isLoginRequest_congr _ _ hurl]
  rfl

/-- Every call of the `api` instance ends within two units of fuel, after at most one
refresh call and at most two dispatches, with one toast exactly when it rejects a
request whose URL does not contain `/auth/login`. -/
theorem api_spec (env : Env) (net : Net) (config : Request) (w : World) :
    ∃ out : Except AxiosError Response × World,
      (∀ fuel, api env net (fuel + 2) config w = some out) ∧
      out.2.refreshCalls.length ≤ w.refreshCalls.length + 1 ∧
      w.dispatched.length + 1 ≤ out.2.dispatched.length ∧
      out.2.dispatched.length ≤ w.dispatched.length + 2 ∧
      out.2.toasts.length = w.toasts.length + toastCount config out.1 := by
  by_cases hretry : config.retry = true
  · obtain ⟨out, hout, _, _, hd, hr, ht⟩ := api_retry_spec env net config w hretry
    exact ⟨out, fun fuel => hout (fuel + 1), by rw [hr]; omega, by rw [hd]; simp,
      by rw [hd]; simp, ht⟩
  · have hfalse : config.retry = false := by simpa using hretry
    have hurl1 : (requestInterceptor env w.storage config).url = config.url :=
      requestInterceptor_url env w.storage config
    cases hans : net.serve w.dispatched.length (requestInterceptor env w.storage config) with
    | noResponse message =>
      have hs : settle (requestInterceptor env w.storage config)
          (net.serve w.dispatched.length (requestInterceptor env w.storage config))
          = .error ⟨requestInterceptor env w.storage config, none, message⟩ := by
        rw [hans]; rfl
      have hc : ¬ ((⟨requestInterceptor env w.storage config, none, message⟩ : AxiosError).status
          = some 401 ∧ (⟨requestInterceptor env w.storage config, none, message⟩ :
            AxiosError).config.retry = false) := by
        simp [AxiosError.status]
      obtain ⟨h1, _, h3, h4, h5⟩ := rejectWithToast_spec config
        ⟨requestInterceptor env w.storage config, none, message⟩
        (w.afterDispatch (requestInterceptor env w.storage config)) hurl1
      refine ⟨_, fun fuel => api_of_other env net (fuel + 1) config w _ hs hc, ?_, ?_, ?_, ?_⟩
      · rw [h4]; simp [World.afterDispatch]
      · rw [h3]; simp [World.afterDispatch]
      · rw [h3]; simp [World.afterDispatch]
      · rw [h5]; rfl
    | response r =>
      by_cases h2 : 200 ≤ r.status ∧ r.status < 300
      · have hs : settle (requestInterceptor env w.storage config)
            (net.serve w.dispatched.length (requestInterceptor env w.storage config)) = .ok r := by
          rw [hans]; simp [settle, h2]
        refine ⟨_, fun fuel => api_of_ok env net (fuel + 1) config w r hs, ?_, ?_, ?_, ?_⟩
        · simp [World.afterDispatch]
        · simp [World.afterDispatch]
        · simp [World.afterDispatch]
        · simp [World.afterDispatch, toastCount]
      · by_cases h401 : r.status = 401
        · have hu := fun fuel => api_of_unauthorized env net (fuel + 1) config w r hfalse hans h401
          have hflag : (flaggedError (requestInterceptor env w.storage config) r).config.url
              = config.url := hurl1
          cases hst : w.storage (rawKey env.refreshTokenKey) with
          | none =>
            simp only [hst] at hu
            obtain ⟨_, _, h3, h4, h5⟩ := rejectWithToast_spec config
              (flaggedError (requestInterceptor env w.storage config) r)
              (w.afterDispatch (requestInterceptor env w.storage config)) hflag
            refine ⟨_, hu, ?_, ?_, ?_, ?_⟩
            · rw [h4]; simp [World.afterDispatch]
            · rw [h3]; simp [World.afterDispatch]
            · rw [h3]; simp [World.afterDispatch]
            · rw [h5]; rfl
          | some refreshToken =>
            simp only [hst] at hu
            by_cases hempty : refreshToken.isEmpty = true
            · simp only [hempty, if_true] at hu
              obtain ⟨_, _, h3, h4, h5⟩ := rejectWithToast_spec config
                (flaggedError (requestInterceptor env w.storage config) r)
                (w.afterDispatch (requestInterceptor env w.storage config)) hflag
              refine ⟨_, hu, ?_, ?_, ?_, ?_⟩
              · rw [h4]; simp [World.afterDispatch]
              · rw [h3]; simp [World.afterDispatch]
              · rw [h3]; simp [World.afterDispatch]
              · rw [h5]; rfl
            · simp only [hempty] at hu
              cases htried : refreshAccessToken net w.refreshCalls.length refreshToken with
              | ok accessToken =>
                simp only [htried] at hu
                obtain ⟨out, hout, _, _, hd, hr, ht⟩ := api_retry_spec env net
                  { requestInterceptor env w.storage config with
                    retry := true, authorization := some (bearer (toJSString accessToken)) }
                  { storage := Storage.setItem w.storage (rawKey env.authTokenKey)
                      (toJSString accessToken),
                    toasts := w.toasts,
                    dispatched := w.dispatched ++ [requestInterceptor env w.storage config],
                    refreshCalls := w.refreshCalls ++ [refreshToken] } rfl
                refine ⟨out, fun fuel => ?_, ?_, ?_, ?_, ?_⟩
                · rw [hu fuel]; exact hout fuel
                · rw [hr]; simp
                · rw [hd]; simp
                · rw [hd]; simp
                · rw [ht]
                  congr 1
                  exact toastCount_congr _ _ hurl1 _
              | error e =>
                simp only [htried] at hu
                obtain ⟨_, _, h3, h4, h5⟩ := rejectWithToast_spec config
                  (flaggedError (requestInterceptor env w.storage config) r)
                  { storage := Storage.removeItem
                      (Storage.removeItem w.storage (rawKey env.authTokenKey))
                      (rawKey env.refreshTokenKey),
                    toasts := w.toasts,
                    dispatched := w.dispatched ++ [requestInterceptor env w.storage config],
                    refreshCalls := w.refreshCalls ++ [refreshToken] } hflag
                refine ⟨_, hu, ?_, ?_, ?_, ?_⟩
                · rw [h4]; simp
                · rw [h3]; simp
                · rw [h3]; simp
                · rw [h5]
        · have hs : settle (requestInterceptor env w.storage config)
              (net.serve w.dispatched.length (requestInterceptor env w.storage config))
              = .error ⟨requestInterceptor env w.storage config, some r, statusMessage r.status⟩ := by
            rw [hans]; simp [settle, h2]
          have hc : ¬ ((⟨requestInterceptor env w.storage config, some r,
              statusMessage r.status⟩ : AxiosError).status = some 401 ∧
              (⟨requestInterceptor env w.storage config, some r, statusMessage r.status⟩ :
                AxiosError).config.retry = false) := by
            simp [AxiosError.status, h401]
          obtain ⟨h1, _, h3, h4, h5⟩ := rejectWithToast_spec config
            ⟨requestInterceptor env w.storage config, some r, statusMessage r.status⟩
            (w.afterDispatch (requestInterceptor env w.storage config)) hurl1
          refine ⟨_, fun fuel => api_of_other env net (fuel + 1) config w _ hs hc, ?_, ?_, ?_, ?_⟩
          · rw [h4]; simp [World.afterDispatch]
          · rw [h3]; simp [World.afterDispatch]
          · rw [h3]; simp [World.afterDispatch]
          · rw [h5]; rfl

theorem apiCall_eq (env : Env) (net : Net) (config : Request) (w : World)
    (out : Except AxiosError Response × World) (h : api env net 2 config w = some out) :
    apiCall env net config w = out := by
  simp [apiCall, apiFuel, h]

theorem requestInterceptor_after_refresh (env : Env) (st : Storage) (config : Request)
    (a : JSString) :
    requestInterceptor env (Storage.setItem st (rawKey env.authTokenKey) a)
      { config with retry := true, authorization := some (bearer a) } =
      { config with retry := true, authorization := some (bearer a) } := by
  simp only [requestInterceptor, Storage.setItem, if_true]
  split <;> rfl

theorem refreshAccessToken_ok (net : Net) (k : Nat) (rt : JSString) (rr : Response) (a : JSString)
    (href : net.refresh k rt = .response rr) (h2xx : 200 ≤ rr.status ∧ rr.status < 300)
    (ha : getProp rr.data (lit "accessToken") = .str a) :
    refreshAccessToken net k rt = .ok (.str a) := by
  have hd : destructure rr.data (lit "accessToken") = .ok (.str a) := by
    cases hdata : rr.data <;> simp [hdata, getProp] at ha
    simp [destructure, getProp, ha]
  simp [refreshAccessToken, settle, href, h2xx, hd]

/-- A request answered 401 while no refresh token is stored: rejected with the error of
that response, nothing else done. -/
theorem api_unauthorized_no_token (env : Env) (net : Net) (config : Request) (w : World)
    (r : Response)
    (hserve : net.serve w.dispatched.length (requestInterceptor env w.storage config) = .response r)
    (h401 : r.status = 401)
    (hno : w.storage (rawKey env.refreshTokenKey) = none ∨
      w.storage (rawKey env.refreshTokenKey) = some []) :
    (apiCall env net config w).1
      = .error (flaggedError (requestInterceptor env w.storage config) r) ∧
    (apiCall env net config w).2.storage = w.storage ∧
    (apiCall env net config w).2.refreshCalls = w.refreshCalls ∧
    (apiCall env net config w).2.dispatched
      = w.dispatched ++ [requestInterceptor env w.storage config] := by
  by_cases hretry : config.retry = true
  · obtain ⟨out, hout, g1, g2, g3, g4, _⟩ := api_retry_spec env net config w hretry
    have hr : (requestInterceptor env w.storage config).retry = true := by
      rw [requestInterceptor_retry, hretry]
    have hflag : flaggedError (requestInterceptor env w.storage config) r
        = ⟨requestInterceptor env w.storage config, some r, statusMessage r.status⟩ := by
      unfold flaggedError
      congr 1
      cases hc : requestInterceptor env w.storage config
      rw [hc] at hr
      simp only at hr
      subst hr
      rfl
    have hs : settle (requestInterceptor env w.storage config)
        (net.serve w.dispatched.length (requestInterceptor env w.storage config))
        = .error ⟨requestInterceptor env w.storage config, some r, statusMessage r.status⟩ := by
      rw [hserve]; simp [settle, h401]
    rw [apiCall_eq env net config w out (hout 1), hflag, g1, hs]
    exact ⟨rfl, g2, g4, g3⟩
  · have hfalse : config.retry = false := by simpa using hretry
    have hu := api_of_unauthorized env net 1 config w r hfalse hserve h401
    rcases hno with hno | hno
    · simp only [hno] at hu
      rw [apiCall_eq env net config w _ hu, rejectWithToast_fst, rejectWithToast_storage,
        rejectWithToast_refreshCalls, rejectWithToast_dispatched]
      exact ⟨rfl, rfl, rfl, rfl⟩
    · simp only [hno] at hu
      rw [apiCall_eq env net config w _ hu, rejectWithToast_fst, rejectWithToast_storage,
        rejectWithToast_refreshCalls, rejectWithToast_dispatched]
      exact ⟨rfl, rfl, rfl, rfl⟩

/-! ## HTTP client: claims -/

/-- C4: a request that is answered 401 while a non-empty refresh token `rt` is stored,
and whose refresh call succeeds with the access token `a`, stores `a` under the access
token key, is dispatched exactly once more with the header `Authorization` set to the
text `Bearer `, followed by `a`, and the caller observes the outcome of that second
dispatch. -/
theorem refresh_then_retry (env : Env) (net : Net) (config : Request) (w : World)
    (r rr : Response) (rt a : JSString)
    (hretry : config.retry = false)
    (hserve : net.serve w.dispatched.length (requestInterceptor env w.storage config) = .response r)
    (h401 : r.status = 401)
    (hrt : w.storage (rawKey env.refreshTokenKey) = some rt) (hne : rt ≠ [])
    (href : net.refresh w.refreshCalls.length rt = .response rr)
    (h2xx : 200 ≤ rr.status ∧ rr.status < 300)
    (ha : getProp rr.data (lit "accessToken") = .str a) :
    (apiCall env net config w).2.storage = Storage.setItem w.storage (rawKey env.authTokenKey) a ∧
    (apiCall env net config w).2.storage (rawKey env.authTokenKey) = some a ∧
    (apiCall env net config w).2.refreshCalls = w.refreshCalls ++ [rt] ∧
    (apiCall env net config w).2.dispatched =
      w.dispatched ++ [requestInterceptor env w.storage config,
        { requestInterceptor env w.storage config with
          retry := true, authorization := some (lit "Bearer " ++ a) }] ∧
    (apiCall env net config w).1 =
      settle { requestInterceptor env w.storage config with
          retry := true, authorization := some (lit "Bearer " ++ a) }
        (net.serve (w.dispatched.length + 1)
          { requestInterceptor env w.storage config with
            retry := true, authorization := some (lit "Bearer " ++ a) }) := by
  have hbearer : lit "Bearer " ++ a = bearer a := rfl
  rw [hbearer]
  have hu := api_of_unauthorized env net 1 config w r hretry hserve h401
  have hempty : rt.isEmpty = false := by cases rt <;> simp_all
  have htried := refreshAccessToken_ok net w.refreshCalls.length rt rr a href h2xx ha
  simp only [hrt, hempty, htried] at hu
  obtain ⟨out, hout, h1, h2, h3, h4, _⟩ := api_retry_spec env net
    { requestInterceptor env w.storage config with
      retry := true, authorization := some (bearer (toJSString (.str a))) }
    { storage := Storage.setItem w.storage (rawKey env.authTokenKey) (toJSString (.str a)),
      toasts := w.toasts,
      dispatched := w.dispatched ++ [requestInterceptor env w.storage config],
      refreshCalls := w.refreshCalls ++ [rt] } rfl
  have hcall : apiCall env net config w = out := by
    apply apiCall_eq
    have := hout 0
    simp only [Nat.zero_add] at this hu
    show api env net (1 + 1) config w = some out
    rw [hu]
    exact this
  have hstr : toJSString (.str a) = a := rfl
  simp only [hstr, requestInterceptor_after_refresh] at h1 h2 h3 h4
  rw [hcall]
  refine ⟨h2, ?_, h4, ?_, ?_⟩
  · rw [h2]; simp [Storage.setItem]
  · rw [h3]; simp
  · rw [h1]; simp

/-- C4 at a store holding a refresh token, a server that answers 401 then 200, and a
refresh endpoint that hands out the access token `new`. -/
theorem refresh_then_retry_witness :
    (apiCall Env.configured refreshingNet sampleRequest ⟨sampleStore, [], [], []⟩).2.storage
        (lit "access_token") = some (lit "new") ∧
    (apiCall Env.configured refreshingNet sampleRequest ⟨sampleStore, [], [], []⟩).2.dispatched
        = [{ sampleRequest with authorization := some (lit "Bearer old") },
           { sampleRequest with retry := true, authorization := some (lit "Bearer new") }] :=
  have h := refresh_then_retry Env.configured refreshingNet sampleRequest
    ⟨sampleStore, [], [], []⟩ ⟨401, .null⟩
    ⟨200, .obj [(lit "accessToken", .str (lit "new"))]⟩ (lit "r1") (lit "new")
    rfl rfl rfl rfl (by decide) rfl (by decide) rfl
  ⟨h.2.1, h.2.2.2.1⟩

/-- C5, as stated, fails when no refresh token is stored: the access token `tok` is
still in the store after the rejected call (only a failed refresh call purges it). -/
theorem access_token_kept_without_refresh_token :
    accessOnlyStore (rawKey Env.configured.refreshTokenKey) = none ∧
    (∃ e, (apiCall Env.configured rejectingNet sampleRequest ⟨accessOnlyStore, [], [], []⟩).1
      = .error e ∧ e.status = some 401) ∧
    (apiCall Env.configured rejectingNet sampleRequest ⟨accessOnlyStore, [], [], []⟩).2.storage
      (rawKey Env.configured.authTokenKey) = some (lit "tok") :=
  ⟨rfl, ⟨_, rfl, rfl⟩, rfl⟩

/-- C5, amended: for a request answered 401, (1) if its `_retry` flag is not set, a
non-empty refresh token is stored and the refresh call fails, the store ends with
neither access nor refresh token, and (2) if no refresh token is stored (absent or
empty), the store is left as it was; in both cases the caller gets the error of the
original 401 response. -/
theorem unauthorized_without_refresh (env : Env) (net : Net) (config : Request) (w : World)
    (r : Response)
    (hserve : net.serve w.dispatched.length (requestInterceptor env w.storage config) = .response r)
    (h401 : r.status = 401) :
    (config.retry = false → ∀ rt, w.storage (rawKey env.refreshTokenKey) = some rt → rt ≠ [] →
      refreshAccessToken net w.refreshCalls.length rt = .error () →
      (apiCall env net config w).1
        = .error (flaggedError (requestInterceptor env w.storage config) r) ∧
      (apiCall env net config w).2.storage (rawKey env.authTokenKey) = none ∧
      (apiCall env net config w).2.storage (rawKey env.refreshTokenKey) = none) ∧
    ((w.storage (rawKey env.refreshTokenKey) = none ∨
        w.storage (rawKey env.refreshTokenKey) = some []) →
      (apiCall env net config w).1
        = .error (flaggedError (requestInterceptor env w.storage config) r) ∧
      (apiCall env net config w).2.storage = w.storage) := by
  constructor
  · intro hretry rt hrt hne htried
    have hu := api_of_unauthorized env net 1 config w r hretry hserve h401
    have hempty : rt.isEmpty = false := by cases rt <;> simp_all
    simp only [hrt, hempty, htried] at hu
    rw [apiCall_eq env net config w _ hu, rejectWithToast_fst, rejectWithToast_storage]
    refine ⟨rfl, ?_, ?_⟩
    · simp only [Storage.removeItem]
      split <;> simp
    · simp [Storage.removeItem]
  · intro hno
    obtain ⟨h1, h2, _, _⟩ := api_unauthorized_no_token env net config w r hserve h401 hno
    exact ⟨h1, h2⟩

/-- C5, amended, at a store with both tokens and an unreachable refresh endpoint, and
at a store without refresh token. -/
theorem unauthorized_without_refresh_witness :
    (apiCall Env.configured rejectingNet sampleRequest ⟨sampleStore, [], [], []⟩).2.storage
        (lit "access_token") = none ∧
    (apiCall Env.configured rejectingNet sampleRequest ⟨accessOnlyStore, [], [], []⟩).2.storage
        = accessOnlyStore :=
  ⟨((unauthorized_without_refresh Env.configured rejectingNet sampleRequest
      ⟨sampleStore, [], [], []⟩ ⟨401, .null⟩ rfl rfl).1 rfl (lit "r1") rfl (by decide) rfl).2.1,
   ((unauthorized_without_refresh Env.configured rejectingNet sampleRequest
      ⟨accessOnlyStore, [], [], []⟩ ⟨401, .null⟩ rfl rfl).2 (Or.inl rfl)).2⟩

/-- C6: every call of the `api` instance ends (two units of fuel suffice, more change
nothing) after at most one call of the refresh endpoint and at most two dispatches; a
request whose `_retry` flag is set is dispatched once, and whatever the answer, a 401
included, it is settled without a refresh call and without touching the store. -/
theorem refresh_protocol_runs_once (env : Env) (net : Net) (config : Request) (w : World) :
    (∀ fuel, api env net (fuel + 2) config w = some (apiCall env net config w)) ∧
    (apiCall env net config w).2.refreshCalls.length ≤ w.refreshCalls.length + 1 ∧
    (apiCall env net config w).2.dispatched.length ≤ w.dispatched.length + 2 ∧
    (config.retry = true →
      (∀ fuel, api env net (fuel + 1) config w = some (apiCall env net config w)) ∧
      (apiCall env net config w).1 = settle (requestInterceptor env w.storage config)
        (net.serve w.dispatched.length (requestInterceptor env w.storage config)) ∧
      (apiCall env net config w).2.refreshCalls = w.refreshCalls ∧
      (apiCall env net config w).2.dispatched
        = w.dispatched ++ [requestInterceptor env w.storage config] ∧
      (apiCall env net config w).2.storage = w.storage) := by
  obtain ⟨out, hout, h1, _, h3, _⟩ := api_spec env net config w
  have hcall : apiCall env net config w = out := apiCall_eq env net config w out (hout 0)
  rw [hcall]
  refine ⟨hout, h1, h3, ?_⟩
  intro hretry
  obtain ⟨out2, hout2, g1, g2, g3, g4, _⟩ := api_retry_spec env net config w hretry
  have heq : out2 = out := by
    have ha := hout2 1
    have hb := hout 0
    rw [show (1 : Nat) + 1 = 0 + 2 from rfl] at ha
    rw [ha] at hb
    exact Option.some.inj hb
  subst heq
  exact ⟨hout2, g1, g4, g3, g2⟩

/-- C6 at a retried request that the server answers 401 again: one dispatch, no
refresh call, and the 401 error goes to the caller. -/
theorem refresh_protocol_runs_once_witness :
    (apiCall Env.configured rejectingNet { sampleRequest with retry := true }
        ⟨sampleStore, [], [], []⟩).2.refreshCalls = [] ∧
    (apiCall Env.configured rejectingNet { sampleRequest with retry := true }
        ⟨sampleStore, [], [], []⟩).2.dispatched
      = [{ sampleRequest with retry := true, authorization := some (bearer (lit "old")) }] :=
  have h := (refresh_protocol_runs_once Env.configured rejectingNet
    { sampleRequest with retry := true } ⟨sampleStore, [], [], []⟩).2.2.2 rfl
  ⟨h.2.2.1, h.2.2.2.1⟩

/-- C7: when a request is answered 401 and no refresh token is stored (absent or
empty), the refresh endpoint is not called, the request is not dispatched again, and
the caller gets the error of the original 401 response. -/
theorem no_refresh_token_no_refresh_call (env : Env) (net : Net) (config : Request) (w : World)
    (r : Response)
    (hserve : net.serve w.dispatched.length (requestInterceptor env w.storage config) = .response r)
    (h401 : r.status = 401)
    (hno : w.storage (rawKey env.refreshTokenKey) = none ∨
      w.storage (rawKey env.refreshTokenKey) = some []) :
    (apiCall env net config w).1
      = .error (flaggedError (requestInterceptor env w.storage config) r) ∧
    (apiCall env net config w).2.refreshCalls = w.refreshCalls ∧
    (apiCall env net config w).2.dispatched
      = w.dispatched ++ [requestInterceptor env w.storage config] := by
  obtain ⟨h1, _, h3, h4⟩ := api_unauthorized_no_token env net config w r hserve h401 hno
  exact ⟨h1, h3, h4⟩

/-- C7 at a store that holds an access token and no refresh token. -/
theorem no_refresh_token_no_refresh_call_witness :
    (apiCall Env.configured refreshingNet sampleRequest ⟨accessOnlyStore, [], [], []⟩).2.refreshCalls
        = [] ∧
    (apiCall Env.configured refreshingNet sampleRequest ⟨accessOnlyStore, [], [], []⟩).2.dispatched
        = [{ sampleRequest with authorization := some (bearer (lit "tok")) }] :=
  (no_refresh_token_no_refresh_call Env.configured refreshingNet sampleRequest
    ⟨accessOnlyStore, [], [], []⟩ ⟨401, .null⟩ rfl rfl (Or.inl rfl)).2

/-- C9 fails on the code: a request that is not the login request but whose URL
contains the text `/auth/login` is rejected without a toast, and the same rejection of
the request to `/reports` emits one. -/
theorem toast_suppressed_for_other_url :
    lit "/reports?from=/auth/login" ≠ lit "/auth/login" ∧
    (∃ e, (apiCall Env.configured rejectingNet (postRequest (lit "/reports?from=/auth/login") .null)
      ⟨accessOnlyStore, [], [], []⟩).1 = .error e) ∧
    (apiCall Env.configured rejectingNet (postRequest (lit "/reports?from=/auth/login") .null)
      ⟨accessOnlyStore, [], [], []⟩).2.toasts = [] ∧
    (apiCall Env.configured rejectingNet (postRequest (lit "/reports") .null)
      ⟨accessOnlyStore, [], [], []⟩).2.toasts.length = 1 :=
  ⟨by decide, ⟨_, rfl⟩, rfl, rfl⟩

/-- What the interceptor does: a call that is rejected adds exactly one toast when the
URL of the request does not contain the text `/auth/login`, and none when it does (the
login request among them); a call that succeeds adds none. -/
theorem toast_unless_login (env : Env) (net : Net) (config : Request) (w : World) :
    (∀ e, (apiCall env net config w).1 = .error e →
      (isLoginRequest config = true →
        (apiCall env net config w).2.toasts.length = w.toasts.length) ∧
      (isLoginRequest config = false →
        (apiCall env net config w).2.toasts.length = w.toasts.length + 1)) ∧
    (∀ response, (apiCall env net config w).1 = .ok response →
      (apiCall env net config w).2.toasts.length = w.toasts.length) := by
  obtain ⟨out, hout, _, _, _, ht⟩ := api_spec env net config w
  have hcall : apiCall env net config w = out := apiCall_eq env net config w out (hout 0)
  rw [hcall]
  constructor
  · intro e he
    rw [ht, he]
    constructor
    · intro hl; simp [toastCount, hl]
    · intro hl; simp [toastCount, hl]
  · intro response hr
    rw [ht, hr]
    rfl

/-- The toast rule at a rejected login request (no toast) and a rejected assignment
request (one toast). -/
theorem toast_unless_login_witness :
    (apiCall Env.configured rejectingNet (postRequest (lit "/auth/login") .null)
        ⟨accessOnlyStore, [], [], []⟩).2.toasts.length = 0 ∧
    (apiCall Env.configured rejectingNet sampleRequest
        ⟨accessOnlyStore, [], [], []⟩).2.toasts.length = 0 + 1 :=
  ⟨((toast_unless_login Env.configured rejectingNet (postRequest (lit "/auth/login") .null)
      ⟨accessOnlyStore, [], [], []⟩).1 _ rfl).1 rfl,
   ((toast_unless_login Env.configured rejectingNet sampleRequest
      ⟨accessOnlyStore, [], [], []⟩).1 _ rfl).2 rfl⟩

/-! ## Session context: claims -/

theorem decodeJWT_returns (token : JSVal) : ∃ v, decodeJWT token = .ok v := by
  unfold decodeJWT
  cases decodeJWTBody token with
  | ok v => exact ⟨v, rfl⟩
  | error e => exact ⟨.null, rfl⟩

/-- C8 fails on the code: with no key name configured, `login` stores the token under
`access_token`, but the request interceptor reads the key `undefined`, finds nothing
and leaves the next request without `Authorization` header. -/
theorem zero_config_request_carries_no_token :
    (login Env.zero (loginNet (.str (lit "h.e30.s")) (.str (lit "7"))) sampleCredentials
        Session.initial World.fresh).1 = .success ∧
    (login Env.zero (loginNet (.str (lit "h.e30.s")) (.str (lit "7"))) sampleCredentials
        Session.initial World.fresh).2.2.storage (lit "access_token") = some (lit "h.e30.s") ∧
    rawKey Env.zero.authTokenKey = lit "undefined" ∧
    (requestInterceptor Env.zero
        (login Env.zero (loginNet (.str (lit "h.e30.s")) (.str (lit "7"))) sampleCredentials
          Session.initial World.fresh).2.2.storage sampleRequest).authorization = none :=
  ⟨rfl, rfl, rfl, rfl⟩

/-- C10 fails on the code: the token `h.eyJzdWIiOiJ-fiJ9.s` is a JWT whose payload is
the base64url text of `{"sub":"~~"}`.  `login` resolves with `{ success: true }` and
stores the token verbatim, but `decodeJWT` returns `null` for it, so `user` is `null`
and the session is not authenticated. -/
theorem login_success_without_session :
    IsBase64Of true (lit "eyJzdWIiOiJ-fiJ9") (utf8 (lit "\x7b\"sub\":\"~~\"\x7d")) ∧
    (login Env.zero (loginNet (.str (lit "h.eyJzdWIiOiJ-fiJ9.s")) (.str (lit "7")))
      sampleCredentials Session.initial World.fresh).1 = .success ∧
    (login Env.zero (loginNet (.str (lit "h.eyJzdWIiOiJ-fiJ9.s")) (.str (lit "7")))
      sampleCredentials Session.initial World.fresh).2.2.storage (accessTokenKey Env.zero) =
        some (lit "h.eyJzdWIiOiJ-fiJ9.s") ∧
    (login Env.zero (loginNet (.str (lit "h.eyJzdWIiOiJ-fiJ9.s")) (.str (lit "7")))
      sampleCredentials Session.initial World.fresh).2.1.user = .null ∧
    (login Env.zero (loginNet (.str (lit "h.eyJzdWIiOiJ-fiJ9.s")) (.str (lit "7")))
      sampleCredentials Session.initial World.fresh).2.1.isAuthenticated = false :=
  ⟨Or.inl rfl, rfl, rfl, rfl, rfl⟩


/-- When the access token key is configured as `teacherId`, the write of the teacher id
replaces the token in the store. -/
theorem login_token_replaced_by_teacherId :
    (login ⟨some (lit "teacherId"), none⟩ (loginNet (.str (lit "h.e30.s")) (.str (lit "7")))
        sampleCredentials Session.initial World.fresh).1 = .success ∧
    (login ⟨some (lit "teacherId"), none⟩ (loginNet (.str (lit "h.e30.s")) (.str (lit "7")))
        sampleCredentials Session.initial World.fresh).2.2.storage
          (accessTokenKey ⟨some (lit "teacherId"), none⟩) = some (lit "7") :=
  ⟨rfl, rfl⟩

/-- What `login` does on success: when the authentication endpoint answers with a token
string `t`, and the access token key is not `teacherId`, `login` resolves with
`{ success: true }`, the store holds `t` verbatim under the access token key, `user` is
`decodeJWT(t)`, and the session is authenticated exactly when `decodeJWT(t)` is truthy. -/
theorem login_success (env : Env) (net : Net) (credentials body : JSVal) (s : Session)
    (w w1 : World) (response : Response) (t : JSString)
    (hbody : loginPayload credentials = .ok body)
    (hcall : apiCall env net (postRequest (lit "/auth/login") body) w = (.ok response, w1))
    (htoken : getProp response.data (lit "token") = .str t)
    (hkey : accessTokenKey env ≠ lit "teacherId") :
    (login env net credentials s w).1 = .success ∧
    (login env net credentials s w).2.2.storage (accessTokenKey env) = some t ∧
    decodeJWT (.str t) = .ok (login env net credentials s w).2.1.user ∧
    ((login env net credentials s w).2.1.isAuthenticated = true ↔
      ∃ v, decodeJWT (.str t) = .ok v ∧ truthy v = true) := by
  obtain ⟨v, hv⟩ := decodeJWT_returns (.str t)
  have hd1 : destructure response.data (lit "token") = .ok (.str t) := by
    cases hdata : response.data <;> simp [hdata, getProp] at htoken
    simp [destructure, getProp, htoken]
  have hd2 : destructure response.data (lit "teacherId")
      = .ok (getProp response.data (lit "teacherId")) := by
    cases hdata : response.data <;> simp [hdata, getProp] at htoken
    simp [destructure]
  have hlogin : login env net credentials s w =
      (.success, { user := v, loading := false, error := .null },
        { w1 with storage := (Storage.setItem
            (Storage.setItem w1.storage (accessTokenKey env) t) (lit "teacherId")
            (toJSString (getProp response.data (lit "teacherId")))) }) := by
    simp only [login, loginTry, hbody, hcall, hd1, hd2, hv]
    rfl
  rw [hlogin]
  refine ⟨rfl, ?_, hv, ?_⟩
  · simp [Storage.setItem, hkey]
  · simp only [Session.isAuthenticated, hv]
    constructor
    · intro h; exact ⟨v, rfl, h⟩
    · rintro ⟨v2, h2, h3⟩
      cases h2
      exact h3

/-- A successful login at the token `h.e30.s`, which decodes to an empty object. -/
theorem login_success_witness :
    (login Env.zero (loginNet (.str (lit "h.e30.s")) (.str (lit "7"))) sampleCredentials
        Session.initial World.fresh).2.2.storage (accessTokenKey Env.zero) = some (lit "h.e30.s") ∧
    decodeJWT (.str (lit "h.e30.s"))
      = .ok (login Env.zero (loginNet (.str (lit "h.e30.s")) (.str (lit "7"))) sampleCredentials
        Session.initial World.fresh).2.1.user :=
  have h := login_success Env.zero (loginNet (.str (lit "h.e30.s")) (.str (lit "7")))
    sampleCredentials _ Session.initial World.fresh _ _ (lit "h.e30.s") rfl rfl rfl (by decide)
  ⟨h.2.1, h.2.2.1⟩

/-! ## Lemmas: session operations -/

theorem jsOr_chain_eq_firstPresent (a b c d : JSVal) :
    jsOr (jsOr (jsOr a b) c) d = firstPresent [a, b, c] d := by
  cases ha : truthy a <;> cases hb : truthy b <;> cases hc : truthy c <;>
    simp [jsOr, firstPresent, List.find?, ha, hb, hc]

theorem jsOr_eq_firstPresent (a d : JSVal) : jsOr a d = firstPresent [a] d := by
  cases ha : truthy a <;> simp [jsOr, firstPresent, List.find?, ha]

/-- For a string, truthy means non-empty; an absent field (`undefined`) is falsy. -/
theorem truthy_str (t : JSString) : truthy (.str t) = true ↔ t ≠ [] := by
  cases t <;> simp [truthy]

theorem truthy_jsOr (a b : JSVal) (hb : truthy b = true) : truthy (jsOr a b) = true := by
  unfold jsOr
  split
  · assumption
  · exact hb

/-- A rejected authentication request: what `login` returns and leaves behind. -/
theorem login_of_rejected (env : Env) (net : Net) (credentials body : JSVal) (s : Session)
    (w w1 : World) (e : AxiosError)
    (hbody : loginPayload credentials = .ok body)
    (hcall : apiCall env net (postRequest (lit "/auth/login") body) w = (.error e, w1)) :
    login env net credentials s w =
      (.failure (firstPresent
          [(Thrown.axios e).dataField (lit "error"), (Thrown.axios e).dataField (lit "message"),
            (Thrown.axios e).dataField (lit "detail")] (.str (lit "Login failed"))),
        { user := s.user, loading := false,
          error := firstPresent
            [(Thrown.axios e).dataField (lit "error"), (Thrown.axios e).dataField (lit "message"),
              (Thrown.axios e).dataField (lit "detail")] (.str (lit "Login failed")) },
        w1) := by
  simp only [login, loginTry, hbody, hcall, jsOr_chain_eq_firstPresent]

/-- Without a stored refresh token a call of the `api` instance leaves the store as it
was, whatever the answer. -/
theorem apiCall_storage_of_no_refresh_token (env : Env) (net : Net) (config : Request)
    (w : World)
    (hno : w.storage (rawKey env.refreshTokenKey) = none ∨
      w.storage (rawKey env.refreshTokenKey) = some []) :
    (apiCall env net config w).2.storage = w.storage := by
  by_cases hretry : config.retry = true
  · obtain ⟨out, hout, _, g2, _, _, _⟩ := api_retry_spec env net config w hretry
    rw [apiCall_eq env net config w out (hout 1), g2]
  · cases hans : net.serve w.dispatched.length (requestInterceptor env w.storage config) with
    | noResponse message =>
      have hs : settle (requestInterceptor env w.storage config)
          (net.serve w.dispatched.length (requestInterceptor env w.storage config))
          = .error ⟨requestInterceptor env w.storage config, none, message⟩ := by
        rw [hans]; rfl
      have hc : ¬ ((⟨requestInterceptor env w.storage config, none, message⟩ : AxiosError).status
          = some 401 ∧ (⟨requestInterceptor env w.storage config, none, message⟩ :
            AxiosError).config.retry = false) := by
        simp [AxiosError.status]
      rw [apiCall_eq env net config w _ (api_of_other env net 1 config w _ hs hc),
        rejectWithToast_storage]
      rfl
    | response r =>
      by_cases h2 : 200 ≤ r.status ∧ r.status < 300
      · have hs : settle (requestInterceptor env w.storage config)
            (net.serve w.dispatched.length (requestInterceptor env w.storage config)) = .ok r := by
          rw [hans]; simp [settle, h2]
        rw [apiCall_eq env net config w _ (api_of_ok env net 1 config w r hs)]
        rfl
      · by_cases h401 : r.status = 401
        · exact (api_unauthorized_no_token env net config w r hans h401 hno).2.1
        · have hs : settle (requestInterceptor env w.storage config)
              (net.serve w.dispatched.length (requestInterceptor env w.storage config))
              = .error ⟨requestInterceptor env w.storage config, some r, statusMessage r.status⟩ := by
            rw [hans]; simp [settle, h2]
          have hc : ¬ ((⟨requestInterceptor env w.storage config, some r,
              statusMessage r.status⟩ : AxiosError).status = some 401 ∧
              (⟨requestInterceptor env w.storage config, some r, statusMessage r.status⟩ :
                AxiosError).config.retry = false) := by
            simp [AxiosError.status, h401]
          rw [apiCall_eq env net config w _ (api_of_other env net 1 config w _ hs hc),
            rejectWithToast_storage]
          rfl

/-! ## Session context: failed login -/

/-- C11: when the authentication request is rejected with error `e`, `login` resolves to
`{ success: false, error: m }` and sets the session's `error` to the same `m`, where `m`
is the first truthy value among the `error`, `message` and `detail` fields of the
response body, in that order, and `Login failed` when there is none or no response. -/
theorem login_failure_message (env : Env) (net : Net) (credentials body : JSVal) (s : Session)
    (w w1 : World) (e : AxiosError)
    (hbody : loginPayload credentials = .ok body)
    (hcall : apiCall env net (postRequest (lit "/auth/login") body) w = (.error e, w1)) :
    (login env net credentials s w).1 =
      .failure (firstPresent
        [(Thrown.axios e).dataField (lit "error"), (Thrown.axios e).dataField (lit "message"),
          (Thrown.axios e).dataField (lit "detail")] (.str (lit "Login failed"))) ∧
    (login env net credentials s w).2.1.error =
      firstPresent
        [(Thrown.axios e).dataField (lit "error"), (Thrown.axios e).dataField (lit "message"),
          (Thrown.axios e).dataField (lit "detail")] (.str (lit "Login failed")) ∧
    (e.response = none →
      (login env net credentials s w).1 = .failure (.str (lit "Login failed"))) := by
  rw [login_of_rejected env net credentials body s w w1 e hbody hcall]
  refine ⟨rfl, rfl, ?_⟩
  intro hnone
  simp [Thrown.dataField, hnone, firstPresent, List.find?, truthy]

/-- C11 at the body `{ error: "Invalid credentials" }` answered with status 401. -/
theorem login_failure_message_witness :
    (login Env.zero
        (answeringNet 401 (.obj [(lit "error", .str (lit "Invalid credentials"))]))
        sampleCredentials Session.initial World.fresh).1
      = .failure (.str (lit "Invalid credentials")) ∧
    (login Env.zero
        (answeringNet 401 (.obj [(lit "error", .str (lit "Invalid credentials"))]))
        sampleCredentials Session.initial World.fresh).2.1.error
      = .str (lit "Invalid credentials") :=
  have h := login_failure_message Env.zero
    (answeringNet 401 (.obj [(lit "error", .str (lit "Invalid credentials"))]))
    sampleCredentials _ Session.initial World.fresh _ _ rfl rfl
  ⟨h.1, h.2.1⟩

/-- C12, as stated, fails when the login request is answered 401 while a refresh token
is stored: the HTTP client runs the refresh protocol, and when that fails both tokens
are removed from the store during the failed login. -/
theorem failed_login_purges_tokens :
    (∃ m, (login Env.configured rejectingNet sampleCredentials Session.initial
      ⟨sampleStore, [], [], []⟩).1 = .failure m) ∧
    sampleStore (lit "access_token") = some (lit "old") ∧
    (login Env.configured rejectingNet sampleCredentials Session.initial
      ⟨sampleStore, [], [], []⟩).2.2.storage (lit "access_token") = none ∧
    (login Env.configured rejectingNet sampleCredentials Session.initial
      ⟨sampleStore, [], [], []⟩).2.2.storage (lit "refresh_token") = none :=
  ⟨⟨_, rfl⟩, rfl, rfl, rfl⟩

/-- C12, amended: when the authentication request is rejected, `login` writes nothing
itself: `user` and with it `isAuthenticated` are unchanged, the world is exactly the one
the HTTP client left (neither the token nor `teacherId` is written), and when no refresh
token is stored the credential store is unchanged. -/
theorem failed_login_frame (env : Env) (net : Net) (credentials body : JSVal) (s : Session)
    (w w1 : World) (e : AxiosError)
    (hbody : loginPayload credentials = .ok body)
    (hcall : apiCall env net (postRequest (lit "/auth/login") body) w = (.error e, w1)) :
    (login env net credentials s w).2.1.user = s.user ∧
    (login env net credentials s w).2.1.isAuthenticated = s.isAuthenticated ∧
    (login env net credentials s w).2.1.loading = false ∧
    (login env net credentials s w).2.2 = w1 ∧
    ((w.storage (rawKey env.refreshTokenKey) = none ∨
        w.storage (rawKey env.refreshTokenKey) = some []) →
      (login env net credentials s w).2.2.storage = w.storage) := by
  rw [login_of_rejected env net credentials body s w w1 e hbody hcall]
  refine ⟨rfl, rfl, rfl, rfl, ?_⟩
  intro hno
  have h := apiCall_storage_of_no_refresh_token env net (postRequest (lit "/auth/login") body) w hno
  rw [hcall] at h
  exact h

/-- C12, amended, at a rejected login from a store that holds only an access token. -/
theorem failed_login_frame_witness :
    (login Env.configured rejectingNet sampleCredentials signedInSession
        ⟨accessOnlyStore, [], [], []⟩).2.1.user = placeholderUser ∧
    (login Env.configured rejectingNet sampleCredentials signedInSession
        ⟨accessOnlyStore, [], [], []⟩).2.2.storage = accessOnlyStore :=
  have h := failed_login_frame Env.configured rejectingNet sampleCredentials _ signedInSession
    ⟨accessOnlyStore, [], [], []⟩ _ _ rfl rfl
  ⟨h.1, h.2.2.2.2 (Or.inl rfl)⟩

/-! ## Session context: register, logout, updateProfile -/

theorem destructure_of_getProp_str (data : JSVal) (k j : JSString) (t : JSString)
    (h : getProp data k = .str t) : destructure data j = .ok (getProp data j) := by
  cases hdata : data <;> simp [hdata, getProp] at h
  simp [destructure]

/-- A successful registration response: what `register` returns and leaves behind. -/
theorem register_of_ok (env : Env) (net : Net) (userData : JSVal) (s : Session)
    (w w1 : World) (response : Response) (t : JSString) (decoded : JSVal)
    (hcall : apiCall env net (postRequest (lit "/auth/register") userData) w = (.ok response, w1))
    (htoken : getProp response.data (lit "token") = .str t)
    (hdec : decodeJWT (.str t) = .ok decoded) :
    register env net userData s w =
      (.success,
        { user := jsOr (getProp response.data (lit "user")) decoded, loading := false,
          error := .null },
        { w1 with storage := (Storage.setItem w1.storage (accessTokenKey env) t) }) := by
  have hd1 := destructure_of_getProp_str response.data (lit "token") (lit "token") t htoken
  have hd2 := destructure_of_getProp_str response.data (lit "token") (lit "user") t htoken
  simp only [register, registerTry, hcall, hd1, hd2, htoken, hdec]
  rfl

/-- A rejected registration request: what `register` returns and leaves behind. -/
theorem register_of_rejected (env : Env) (net : Net) (userData : JSVal) (s : Session)
    (w w1 : World) (e : AxiosError)
    (hcall : apiCall env net (postRequest (lit "/auth/register") userData) w = (.error e, w1)) :
    register env net userData s w =
      (.failure (firstPresent [(Thrown.axios e).dataField (lit "message")]
          (.str (lit "Registration failed"))),
        { user := s.user, loading := false,
          error := firstPresent [(Thrown.axios e).dataField (lit "message")]
            (.str (lit "Registration failed")) },
        w1) := by
  simp only [register, registerTry, hcall, jsOr_eq_firstPresent]

/-- C13: for a successful registration response with token string `t`, `register`
resolves to `{ success: true }` and stores `t` under the access token key; `user` is the
server-supplied user object when there is one, whatever the token decodes to, and
`decodeJWT(t)` when the response has no `user`. -/
theorem register_success (env : Env) (net : Net) (userData : JSVal) (s : Session)
    (w w1 : World) (response : Response) (t : JSString)
    (hcall : apiCall env net (postRequest (lit "/auth/register") userData) w = (.ok response, w1))
    (htoken : getProp response.data (lit "token") = .str t) :
    (register env net userData s w).1 = .success ∧
    (register env net userData s w).2.2.storage (accessTokenKey env) = some t ∧
    (∀ props, getProp response.data (lit "user") = .obj props →
      (register env net userData s w).2.1.user = .obj props) ∧
    (getProp response.data (lit "user") = .undefined →
      decodeJWT (.str t) = .ok (register env net userData s w).2.1.user) := by
  obtain ⟨decoded, hdec⟩ := decodeJWT_returns (.str t)
  rw [register_of_ok env net userData s w w1 response t decoded hcall htoken hdec]
  refine ⟨rfl, ?_, ?_, ?_⟩
  · simp [Storage.setItem]
  · intro props hu
    simp [hu, jsOr, truthy]
  · intro hu
    simp [hu, jsOr, truthy, hdec]

/-- C13 at a response with a user object and a token that decodes to something else,
and at a response without user. -/
theorem register_success_witness :
    (register Env.zero
        (answeringNet 200 (.obj [(lit "token", .str (lit "h.e30.s")),
          (lit "user", .obj [(lit "name", .str (lit "Ann"))])]))
        .null Session.initial World.fresh).2.1.user = .obj [(lit "name", .str (lit "Ann"))] ∧
    decodeJWT (.str (lit "h.e30.s")) = .ok (register Env.zero
        (answeringNet 200 (.obj [(lit "token", .str (lit "h.e30.s"))]))
        .null Session.initial World.fresh).2.1.user :=
  ⟨(register_success Env.zero
      (answeringNet 200 (.obj [(lit "token", .str (lit "h.e30.s")),
        (lit "user", .obj [(lit "name", .str (lit "Ann"))])]))
      .null Session.initial World.fresh _ _ (lit "h.e30.s") rfl rfl).2.2.1 _ rfl,
   (register_success Env.zero
      (answeringNet 200 (.obj [(lit "token", .str (lit "h.e30.s"))]))
      .null Session.initial World.fresh _ _ (lit "h.e30.s") rfl rfl).2.2.2 rfl⟩

/-- C14, as stated, fails: for the error body `{ error: "Email taken" }` the first
present value among `error`, `message`, `detail` is `Email taken`, which `login`
reports, while `register` reports `Registration failed`. -/
theorem register_ignores_error_field :
    (register Env.zero (answeringNet 400 (.obj [(lit "error", .str (lit "Email taken"))]))
        .null Session.initial World.fresh).1 = .failure (.str (lit "Registration failed")) ∧
    (login Env.zero (answeringNet 400 (.obj [(lit "error", .str (lit "Email taken"))]))
        sampleCredentials Session.initial World.fresh).1 = .failure (.str (lit "Email taken")) ∧
    firstPresent [.str (lit "Email taken"), .undefined, .undefined]
        (.str (lit "Registration failed")) = .str (lit "Email taken") :=
  ⟨rfl, rfl, rfl⟩

/-- C14, amended: the message `register` reports for a rejected request is the
`message` field of the response body when that is truthy and `Registration failed`
otherwise; the `error` and `detail` fields are not read.  It is the message `login`
would extract from the same error whenever `error` is falsy and `message` is truthy. -/
theorem register_failure_message (env : Env) (net : Net) (userData : JSVal) (s : Session)
    (w w1 : World) (e : AxiosError)
    (hcall : apiCall env net (postRequest (lit "/auth/register") userData) w = (.error e, w1)) :
    (register env net userData s w).1 =
      .failure (firstPresent [(Thrown.axios e).dataField (lit "message")]
        (.str (lit "Registration failed"))) ∧
    (register env net userData s w).2.1.error =
      firstPresent [(Thrown.axios e).dataField (lit "message")]
        (.str (lit "Registration failed")) ∧
    (truthy ((Thrown.axios e).dataField (lit "error")) = false →
      truthy ((Thrown.axios e).dataField (lit "message")) = true →
      (register env net userData s w).1 =
        .failure (firstPresent
          [(Thrown.axios e).dataField (lit "error"), (Thrown.axios e).dataField (lit "message"),
            (Thrown.axios e).dataField (lit "detail")] (.str (lit "Login failed")))) := by
  rw [register_of_rejected env net userData s w w1 e hcall]
  refine ⟨rfl, rfl, ?_⟩
  intro he hm
  simp [firstPresent, List.find?, he, hm]

/-- C14, amended, at the error body `{ message: "Email taken" }`. -/
theorem register_failure_message_witness :
    (register Env.zero (answeringNet 400 (.obj [(lit "message", .str (lit "Email taken"))]))
        .null Session.initial World.fresh).1 = .failure (.str (lit "Email taken")) :=
  (register_failure_message Env.zero
    (answeringNet 400 (.obj [(lit "message", .str (lit "Email taken"))]))
    .null Session.initial World.fresh _ _ rfl).1

/-- C15: from every session state and every store, `logout` returns a state whose store
has no value under the access token key and none under the refresh token key, with
`user` and `error` both `null` and the session not authenticated; the rest of the world
and `loading` are as before. -/
theorem logout_clears (env : Env) (s : Session) (w : World) :
    (logout env s w).2.storage (accessTokenKey env) = none ∧
    (logout env s w).2.storage (refreshTokenKey env) = none ∧
    (logout env s w).1.user = .null ∧
    (logout env s w).1.error = .null ∧
    (logout env s w).1.isAuthenticated = false ∧
    (logout env s w).1.loading = s.loading ∧
    (logout env s w).2.dispatched = w.dispatched ∧
    (logout env s w).2.refreshCalls = w.refreshCalls := by
  refine ⟨?_, ?_, rfl, rfl, rfl, rfl, rfl, rfl⟩
  · simp only [logout, Storage.removeItem]
    split <;> simp
  · simp [logout, Storage.removeItem]

/-- C16, as stated, fails in both directions: a profile update answered with an empty
body (`null`) leaves an authenticated session unauthenticated, and one answered with a
user object makes an anonymous session authenticated. -/
theorem updateProfile_changes_authentication :
    (signedInSession.isAuthenticated = true ∧
      (updateProfile Env.zero (answeringNet 200 .null) .null signedInSession
        World.fresh).1 = .success ∧
      (updateProfile Env.zero (answeringNet 200 .null) .null signedInSession
        World.fresh).2.1.isAuthenticated = false) ∧
    (Session.initial.isAuthenticated = false ∧
      (updateProfile Env.zero (answeringNet 200 placeholderUser) .null Session.initial
        World.fresh).2.1.isAuthenticated = true) :=
  ⟨⟨rfl, rfl, rfl⟩, ⟨rfl, rfl⟩⟩

/-- C16, amended: a rejected profile update leaves `user`, hence `isAuthenticated`,
unchanged; a successful one sets `user` to the response body, so the session is
authenticated afterwards exactly when that body is truthy. -/
theorem updateProfile_authentication (env : Env) (net : Net) (profileData : JSVal)
    (s : Session) (w : World) :
    (∀ e w1, apiCall env net (putRequest (lit "/auth/profile") profileData) w = (.error e, w1) →
      (updateProfile env net profileData s w).2.1.user = s.user ∧
      (updateProfile env net profileData s w).2.1.isAuthenticated = s.isAuthenticated) ∧
    (∀ response w1,
      apiCall env net (putRequest (lit "/auth/profile") profileData) w = (.ok response, w1) →
      (updateProfile env net profileData s w).2.1.user = response.data ∧
      (updateProfile env net profileData s w).2.1.isAuthenticated = truthy response.data) := by
  constructor
  · intro e w1 h
    simp [updateProfile, h, Session.isAuthenticated]
  · intro response w1 h
    simp [updateProfile, h, Session.isAuthenticated]

/-- C16, amended, at a rejected update of an authenticated session and at an update
answered with a user object. -/
theorem updateProfile_authentication_witness :
    (updateProfile Env.zero (answeringNet 500 .null) .null signedInSession
        World.fresh).2.1.isAuthenticated = signedInSession.isAuthenticated ∧
    (updateProfile Env.zero (answeringNet 200 placeholderUser) .null signedInSession
        World.fresh).2.1.user = placeholderUser :=
  ⟨((updateProfile_authentication Env.zero (answeringNet 500 .null) .null signedInSession
      World.fresh).1 _ _ rfl).2,
   ((updateProfile_authentication Env.zero (answeringNet 200 placeholderUser) .null
      signedInSession World.fresh).2 ⟨200, placeholderUser⟩ _ rfl).1⟩

/-- C17: `checkAuth` ends with `loading = false` from every state and leaves the world
untouched (no request, no refresh call); started from the initial state it makes the
session authenticated as the placeholder identity `{ username: 'authenticated_user' }`
when a non-empty access token is stored, and leaves `user = null` when none is. -/
theorem checkAuth_spec (env : Env) (s : Session) (w : World) :
    (checkAuth env s w).1.loading = false ∧
    (checkAuth env s w).2 = w ∧
    ((∃ t, w.storage (accessTokenKey env) = some t ∧ t ≠ []) →
      (checkAuth env Session.initial w).1.user = .obj [(lit "username", .str (lit "authenticated_user"))] ∧
      (checkAuth env Session.initial w).1.isAuthenticated = true) ∧
    ((¬ ∃ t, w.storage (accessTokenKey env) = some t ∧ t ≠ []) →
      (checkAuth env Session.initial w).1.user = .null ∧
      (checkAuth env Session.initial w).1.isAuthenticated = false) := by
  refine ⟨rfl, rfl, ?_, ?_⟩
  · rintro ⟨t, ht, hne⟩
    have hempty : t.isEmpty = false := by cases t <;> simp_all
    simp only [checkAuth, ht, hempty]
    exact ⟨rfl, rfl⟩
  · intro hno
    cases ht : w.storage (accessTokenKey env) with
    | none =>
      simp only [checkAuth, ht]
      exact ⟨rfl, rfl⟩
    | some t =>
      have hempty : t.isEmpty = true := by
        cases t with
        | nil => rfl
        | cons c cs => exact absurd ⟨c :: cs, ht, by simp⟩ hno
      simp only [checkAuth, ht, hempty]
      exact ⟨rfl, rfl⟩

/-- C17 at a store with the access token `tok` and at an empty store. -/
theorem checkAuth_spec_witness :
    (checkAuth Env.zero Session.initial ⟨accessOnlyStore, [], [], []⟩).1.user = .obj [(lit "username", .str (lit "authenticated_user"))] ∧
    (checkAuth Env.zero Session.initial World.fresh).1.user = .null :=
  ⟨((checkAuth_spec Env.zero Session.initial ⟨accessOnlyStore, [], [], []⟩).2.2.1
      ⟨lit "tok", rfl, by decide⟩).1,
   ((checkAuth_spec Env.zero Session.initial World.fresh).2.2.2
      (by rintro ⟨t, ht, _⟩; cases ht)).1⟩

/-! ## Session context: invariant and totality -/

/-- The `try` block of `login` completes only with `{ success: true }`, and then an
access token is in the store. -/
theorem loginTry_ok (env : Env) (net : Net) (credentials : JSVal) (s s1 : Session)
    (w w1 : World) (result : AuthResult)
    (h : loginTry env net credentials s w = (.ok result, s1, w1)) :
    result = .success ∧ (w1.storage (accessTokenKey env)).isSome = true := by
  simp only [loginTry] at h
  split at h
  · simp at h
  · split at h
    · simp at h
    · split at h
      · split at h
        · simp at h
        · simp only [Prod.mk.injEq, Except.ok.injEq] at h
          obtain ⟨rfl, _, rfl⟩ := h
          refine ⟨rfl, ?_⟩
          simp only [Storage.setItem]
          split <;> simp
      · simp at h

/-- The `try` block of `register` completes only with `{ success: true }`, and then an
access token is in the store. -/
theorem registerTry_ok (env : Env) (net : Net) (userData : JSVal) (s s1 : Session)
    (w w1 : World) (result : AuthResult)
    (h : registerTry env net userData s w = (.ok result, s1, w1)) :
    result = .success ∧ (w1.storage (accessTokenKey env)).isSome = true := by
  simp only [registerTry] at h
  split at h
  · simp at h
  · split at h
    · split at h
      · simp at h
      · simp only [Prod.mk.injEq, Except.ok.injEq] at h
        obtain ⟨rfl, _, rfl⟩ := h
        refine ⟨rfl, ?_⟩
        simp [Storage.setItem]
    · simp at h

theorem login_success_stores (env : Env) (net : Net) (credentials : JSVal) (s : Session)
    (w : World) (h : (login env net credentials s w).1 = .success) :
    ((login env net credentials s w).2.2.storage (accessTokenKey env)).isSome = true := by
  unfold login at h ⊢
  rcases hT : loginTry env net credentials s w with ⟨r, s1, w1⟩
  cases r with
  | ok result =>
    simp only [hT]
    exact (loginTry_ok env net credentials s s1 w w1 result hT).2
  | error e => simp [hT] at h

theorem register_success_stores (env : Env) (net : Net) (userData : JSVal) (s : Session)
    (w : World) (h : (register env net userData s w).1 = .success) :
    ((register env net userData s w).2.2.storage (accessTokenKey env)).isSome = true := by
  unfold register at h ⊢
  rcases hT : registerTry env net userData s w with ⟨r, s1, w1⟩
  cases r with
  | ok result =>
    simp only [hT]
    exact (registerTry_ok env net userData s s1 w w1 result hT).2
  | error e => simp [hT] at h

/-- C18, as stated, fails.  After a successful login, a request answered 401 whose
refresh call fails removes the tokens from the store while `user` stays set: no access
token is stored and the session is authenticated.  And a profile update answered with
a user object authenticates a session that never had a token. -/
theorem token_invariant_broken :
    ((run Env.configured expiringNet [.login sampleCredentials, .request sampleRequest]
        (Session.initial, ⟨refreshOnlyStore, [], [], []⟩)).2.storage
          (accessTokenKey Env.configured) = none ∧
      (run Env.configured expiringNet [.login sampleCredentials, .request sampleRequest]
        (Session.initial, ⟨refreshOnlyStore, [], [], []⟩)).1.isAuthenticated = true) ∧
    ((run Env.configured (answeringNet 200 placeholderUser) [.updateProfile .null]
        (Session.initial, World.fresh)).2.storage (accessTokenKey Env.configured) = none ∧
      (run Env.configured (answeringNet 200 placeholderUser) [.updateProfile .null]
        (Session.initial, World.fresh)).1.isAuthenticated = true) :=
  ⟨⟨rfl, rfl⟩, ⟨rfl, rfl⟩⟩

/-- A call of the `api` instance removes nothing from the store when the refresh call
it would make, with the stored refresh token, succeeds. -/
theorem apiCall_keeps_store (env : Env) (net : Net) (config : Request) (w : World)
    (hnet : ∀ rt, w.storage (rawKey env.refreshTokenKey) = some rt →
      ∃ a, refreshAccessToken net w.refreshCalls.length rt = .ok a)
    (key : JSString)
    (h : (apiCall env net config w).2.storage key = none) : w.storage key = none := by
  by_cases hretry : config.retry = true
  · obtain ⟨out, hout, _, g2, _, _, _⟩ := api_retry_spec env net config w hretry
    rw [apiCall_eq env net config w out (hout 1), g2] at h
    exact h
  · have hfalse : config.retry = false := by simpa using hretry
    cases hans : net.serve w.dispatched.length (requestInterceptor env w.storage config) with
    | noResponse message =>
      have hs : settle (requestInterceptor env w.storage config)
          (net.serve w.dispatched.length (requestInterceptor env w.storage config))
          = .error ⟨requestInterceptor env w.storage config, none, message⟩ := by
        rw [hans]; rfl
      have hc : ¬ ((⟨requestInterceptor env w.storage config, none, message⟩ : AxiosError).status
          = some 401 ∧ (⟨requestInterceptor env w.storage config, none, message⟩ :
            AxiosError).config.retry = false) := by
        simp [AxiosError.status]
      rw [apiCall_eq env net config w _ (api_of_other env net 1 config w _ hs hc),
        rejectWithToast_storage] at h
      exact h
    | response r =>
      by_cases h2 : 200 ≤ r.status ∧ r.status < 300
      · have hs : settle (requestInterceptor env w.storage config)
            (net.serve w.dispatched.length (requestInterceptor env w.storage config)) = .ok r := by
          rw [hans]; simp [settle, h2]
        rw [apiCall_eq env net config w _ (api_of_ok env net 1 config w r hs)] at h
        exact h
      · by_cases h401 : r.status = 401
        · have hu := api_of_unauthorized env net 1 config w r hfalse hans h401
          cases hrt : w.storage (rawKey env.refreshTokenKey) with
          | none =>
            rw [hrt] at hu
            rw [apiCall_eq env net config w _ hu, rejectWithToast_storage] at h
            exact h
          | some rt =>
            rw [hrt] at hu
            by_cases hempty : rt.isEmpty = true
            · simp only [hempty, if_true] at hu
              rw [apiCall_eq env net config w _ hu, rejectWithToast_storage] at h
              exact h
            · obtain ⟨a, ha⟩ := hnet rt hrt
              simp only [hempty, ha] at hu
              obtain ⟨out, hout, _, g2, _, _, _⟩ := api_retry_spec env net
                { requestInterceptor env w.storage config with
                  retry := true, authorization := some (bearer (toJSString a)) }
                { storage := Storage.setItem w.storage (rawKey env.authTokenKey) (toJSString a),
                  toasts := w.toasts,
                  dispatched := w.dispatched ++ [requestInterceptor env w.storage config],
                  refreshCalls := w.refreshCalls ++ [rt] } rfl
              have hcall : api env net 2 config w = some out := by
                show api env net (1 + 1) config w = some out
                rw [hu]
                exact hout 0
              rw [apiCall_eq env net config w out hcall, g2] at h
              simp only [Storage.setItem] at h
              split at h
              · cases h
              · exact h
        · have hs : settle (requestInterceptor env w.storage config)
              (net.serve w.dispatched.length (requestInterceptor env w.storage config))
              = .error ⟨requestInterceptor env w.storage config, some r, statusMessage r.status⟩ := by
            rw [hans]; simp [settle, h2]
          have hc : ¬ ((⟨requestInterceptor env w.storage config, some r,
              statusMessage r.status⟩ : AxiosError).status = some 401 ∧
              (⟨requestInterceptor env w.storage config, some r, statusMessage r.status⟩ :
                AxiosError).config.retry = false) := by
            simp [AxiosError.status, h401]
          rw [apiCall_eq env net config w _ (api_of_other env net 1 config w _ hs hc),
            rejectWithToast_storage] at h
          exact h

theorem setItem_none (st : Storage) (k v key : JSString)
    (h : Storage.setItem st k v key = none) : st key = none := by
  simp only [Storage.setItem] at h
  split at h
  · cases h
  · exact h

/-- A failed `login` leaves `user` as it was, a successful one leaves an access token in
the store; and nothing is removed when the refresh call it would make succeeds. -/
theorem login_frame (env : Env) (net : Net) (credentials : JSVal) (s : Session) (w : World)
    (hnet : ∀ rt, w.storage (rawKey env.refreshTokenKey) = some rt →
      ∃ a, refreshAccessToken net w.refreshCalls.length rt = .ok a) :
    (((login env net credentials s w).2.2.storage (accessTokenKey env)).isSome = true ∨
      (login env net credentials s w).2.1.user = s.user) ∧
    ∀ key, (login env net credentials s w).2.2.storage key = none → w.storage key = none := by
  cases hp : loginPayload credentials with
  | error e =>
    simp only [login, loginTry, hp]
    exact ⟨Or.inr trivial, fun _ h => h⟩
  | ok body =>
    have hk := apiCall_keeps_store env net (postRequest (lit "/auth/login") body) w hnet
    rcases hc : apiCall env net (postRequest (lit "/auth/login") body) w with ⟨r, w1⟩
    rw [hc] at hk
    cases r with
    | error e =>
      simp only [login, loginTry, hp, hc]
      exact ⟨Or.inr trivial, hk⟩
    | ok response =>
      cases hd1 : destructure response.data (lit "token") with
      | error e1 =>
        simp only [login, loginTry, hp, hc, hd1]
        exact ⟨Or.inr trivial, hk⟩
      | ok token =>
        cases hd2 : destructure response.data (lit "teacherId") with
        | error e2 =>
          simp only [login, loginTry, hp, hc, hd1, hd2]
          exact ⟨Or.inr trivial, hk⟩
        | ok teacherId =>
          cases hj : decodeJWT token with
          | error e3 =>
            simp only [login, loginTry, hp, hc, hd1, hd2, hj]
            exact ⟨Or.inr trivial, hk⟩
          | ok decoded =>
            simp only [login, loginTry, hp, hc, hd1, hd2, hj]
            refine ⟨Or.inl ?_, fun key h => hk key (setItem_none _ _ _ _ (setItem_none _ _ _ _ h))⟩
            simp only [Storage.setItem]
            split <;> simp

theorem register_frame (env : Env) (net : Net) (userData : JSVal) (s : Session) (w : World)
    (hnet : ∀ rt, w.storage (rawKey env.refreshTokenKey) = some rt →
      ∃ a, refreshAccessToken net w.refreshCalls.length rt = .ok a) :
    (((register env net userData s w).2.2.storage (accessTokenKey env)).isSome = true ∨
      (register env net userData s w).2.1.user = s.user) ∧
    ∀ key, (register env net userData s w).2.2.storage key = none → w.storage key = none := by
  have hk := apiCall_keeps_store env net (postRequest (lit "/auth/register") userData) w hnet
  rcases hc : apiCall env net (postRequest (lit "/auth/register") userData) w with ⟨r, w1⟩
  rw [hc] at hk
  cases r with
  | error e =>
    simp only [register, registerTry, hc]
    exact ⟨Or.inr trivial, hk⟩
  | ok response =>
    cases hd1 : destructure response.data (lit "token") with
    | error e1 =>
      simp only [register, registerTry, hc, hd1]
      exact ⟨Or.inr trivial, hk⟩
    | ok token =>
      cases hd2 : destructure response.data (lit "user") with
      | error e2 =>
        simp only [register, registerTry, hc, hd1, hd2]
        exact ⟨Or.inr trivial, hk⟩
      | ok newUser =>
        cases hj : decodeJWT token with
        | error e3 =>
          simp only [register, registerTry, hc, hd1, hd2, hj]
          exact ⟨Or.inr trivial, hk⟩
        | ok decoded =>
          simp only [register, registerTry, hc, hd1, hd2, hj]
          refine ⟨Or.inl ?_, fun key h => hk key (setItem_none _ _ _ _ h)⟩
          simp [Storage.setItem]

theorem updateProfile_frame (env : Env) (net : Net) (profileData : JSVal) (s : Session)
    (w : World)
    (hnet : ∀ rt, w.storage (rawKey env.refreshTokenKey) = some rt →
      ∃ a, refreshAccessToken net w.refreshCalls.length rt = .ok a) :
    ((updateProfile env net profileData s w).1 = .success ∨
      (updateProfile env net profileData s w).2.1.user = s.user) ∧
    ∀ key, (updateProfile env net profileData s w).2.2.storage key = none → w.storage key = none := by
  have hk := apiCall_keeps_store env net (putRequest (lit "/auth/profile") profileData) w hnet
  rcases hc : apiCall env net (putRequest (lit "/auth/profile") profileData) w with ⟨r, w1⟩
  rw [hc] at hk
  cases r with
  | error e =>
    simp only [updateProfile, hc]
    exact ⟨Or.inr trivial, hk⟩
  | ok response =>
    simp only [updateProfile, hc]
    exact ⟨Or.inl trivial, hk⟩

theorem tokenInvariant_step (env : Env) (net : Net) (op : Op) (st : Session × World)
    (hst : TokenInvariant env st)
    (hnet : ∀ rt, st.2.storage (rawKey env.refreshTokenKey) = some rt →
      ∃ a, refreshAccessToken net st.2.refreshCalls.length rt = .ok a)
    (hop : ∀ d, op = .updateProfile d → (updateProfile env net d st.1 st.2).1 ≠ .success) :
    TokenInvariant env (step env net op st) := by
  intro hnone
  cases op with
  | checkAuth =>
    simp only [step, checkAuth] at hnone ⊢
    simp only [hnone]
    exact hst hnone
  | login credentials =>
    obtain ⟨h1, h2⟩ := login_frame env net credentials st.1 st.2 hnet
    simp only [step] at hnone ⊢
    rcases h1 with h1 | h1
    · rw [hnone] at h1; cases h1
    · simp only [Session.isAuthenticated, h1]
      exact hst (h2 _ hnone)
  | register userData =>
    obtain ⟨h1, h2⟩ := register_frame env net userData st.1 st.2 hnet
    simp only [step] at hnone ⊢
    rcases h1 with h1 | h1
    · rw [hnone] at h1; cases h1
    · simp only [Session.isAuthenticated, h1]
      exact hst (h2 _ hnone)
  | logout => rfl
  | updateProfile d =>
    obtain ⟨h1, h2⟩ := updateProfile_frame env net d st.1 st.2 hnet
    simp only [step] at hnone ⊢
    rcases h1 with h1 | h1
    · exact absurd h1 (hop d rfl)
    · simp only [Session.isAuthenticated, h1]
      exact hst (h2 _ hnone)
  | request config =>
    simp only [step] at hnone ⊢
    exact hst (apiCall_keeps_store env net config st.2 hnet _ hnone)

theorem tokenInvariant_run (env : Env) (net : Net)
    (hnet : ∀ k rt, ∃ a, refreshAccessToken net k rt = .ok a) (ops : List Op) :
    ∀ st : Session × World, (∀ op ∈ ops, ∀ d, op ≠ .updateProfile d) →
      TokenInvariant env st → TokenInvariant env (run env net ops st) := by
  induction ops with
  | nil => intro st _ h; exact h
  | cons op rest ih =>
    intro st hops hst
    have hstep := tokenInvariant_step env net op st hst (fun rt _ => hnet _ rt)
      (fun d hd => absurd hd (hops op (by simp) d))
    have := ih (step env net op st) (fun o ho => hops o (by simp [ho])) hstep
    simpa [run] using this

/-- C18, amended: the implication "no access token stored, hence not authenticated"
holds at application start whatever the store holds, and it is preserved by every
operation other than a successful `updateProfile` (by `checkAuth`, `login`, `register`
and `logout`, by a failed `updateProfile` and by every request sent through the HTTP
client) whose refresh call, if it makes one, succeeds.  So it holds in every state
reached from application start by `checkAuth`, `login`, `register`, `logout` and
requests, as long as the refresh endpoint answers with success. -/
theorem token_invariant_established (env : Env) (net : Net) :
    (∀ w : World, TokenInvariant env (Session.initial, w)) ∧
    (∀ (op : Op) (st : Session × World), TokenInvariant env st →
      (∀ rt, st.2.storage (rawKey env.refreshTokenKey) = some rt →
        ∃ a, refreshAccessToken net st.2.refreshCalls.length rt = .ok a) →
      (∀ d, op = .updateProfile d → (updateProfile env net d st.1 st.2).1 ≠ .success) →
      TokenInvariant env (step env net op st)) ∧
    ((∀ k rt, ∃ a, refreshAccessToken net k rt = .ok a) →
      ∀ (ops : List Op) (w : World), (∀ op ∈ ops, ∀ d, op ≠ .updateProfile d) →
        TokenInvariant env (run env net ops (Session.initial, w))) :=
  ⟨fun _ _ => rfl,
    fun op st hst hnet hop => tokenInvariant_step env net op st hst hnet hop,
    fun hnet ops w hops =>
      tokenInvariant_run env net hnet ops (Session.initial, w) hops (fun _ => rfl)⟩

/-- C18, amended, at a run that signs in, sends a request answered 401 whose refresh
call succeeds, signs out and checks the store again. -/
theorem token_invariant_established_witness :
    TokenInvariant Env.configured
      (run Env.configured refreshingNet
        [.login sampleCredentials, .request sampleRequest, .logout, .checkAuth]
        (Session.initial, ⟨sampleStore, [], [], []⟩)) :=
  (token_invariant_established Env.configured refreshingNet).2.2 (fun _ _ => ⟨_, rfl⟩)
    [.login sampleCredentials, .request sampleRequest, .logout, .checkAuth]
    ⟨sampleStore, [], [], []⟩
    (by
      intro op hop d hd
      subst hd
      simp at hop)

theorem firstPresent_cases (candidates : List JSVal) (fallback : JSVal) :
    firstPresent candidates fallback = fallback ∨
      (firstPresent candidates fallback ∈ candidates ∧
        truthy (firstPresent candidates fallback) = true) := by
  unfold firstPresent
  cases h : candidates.find? truthy with
  | none => exact Or.inl rfl
  | some v => exact Or.inr ⟨List.mem_of_find?_eq_some h, List.find?_some h⟩

theorem dataField_js (e : JSError) (k : JSString) : (Thrown.js e).dataField k = .undefined := rfl

theorem dataField_axios_none (e : AxiosError) (k : JSString) (h : e.response = none) :
    (Thrown.axios e).dataField k = .undefined := by
  simp [Thrown.dataField, h]

theorem dataField_axios_some (e : AxiosError) (r : Response) (k : JSString)
    (h : e.response = some r) : (Thrown.axios e).dataField k = getProp r.data k := by
  simp [Thrown.dataField, h]

/-- The message of a `catch` block, for any thrown value: the fallback, or a truthy
field of the body of the error response. -/
theorem catch_message (t : Thrown) (keys : List JSString) (fallback : JSVal) :
    firstPresent (keys.map t.dataField) fallback = fallback ∨
      ∃ e r k, t = .axios e ∧ e.response = some r ∧ k ∈ keys ∧
        firstPresent (keys.map t.dataField) fallback = getProp r.data k ∧
        truthy (getProp r.data k) = true := by
  rcases firstPresent_cases (keys.map t.dataField) fallback with h | ⟨hmem, htruthy⟩
  · exact Or.inl h
  · obtain ⟨k, hk, hkv⟩ := List.mem_map.1 hmem
    cases t with
    | js e =>
      rw [← hkv, dataField_js] at htruthy
      cases htruthy
    | axios e =>
      cases hr : e.response with
      | none =>
        rw [← hkv, dataField_axios_none e k hr] at htruthy
        cases htruthy
      | some r =>
        refine Or.inr ⟨e, r, k, rfl, hr, hk, ?_, ?_⟩
        · rw [← hkv, dataField_axios_some e r k hr]
        · rw [← dataField_axios_some e r k hr, hkv]; exact htruthy

/-- C19, as stated, fails: the message need not be a string.  A login answered 401 with
the body `{"error": {"code": 1}}` resolves to `{ success: false, error }` whose `error`
is that object. -/
theorem session_operation_error_not_a_message :
    (login Env.zero (answeringNet 401 (.obj [(lit "error", .obj [(lit "code", .num (lit "1"))])]))
      sampleCredentials Session.initial World.fresh).1 =
        .failure (.obj [(lit "code", .num (lit "1"))]) ∧
    ∀ t : JSString, JSVal.obj [(lit "code", .num (lit "1"))] ≠ .str t :=
  ⟨rfl, fun _ h => nomatch h⟩

theorem loginTry_thrown (env : Env) (net : Net) (credentials : JSVal) (s s1 : Session)
    (w w1 : World) (t : Thrown)
    (h : loginTry env net credentials s w = (.error t, s1, w1)) :
    (∃ e, t = .js e) ∨
      ∃ body e, loginPayload credentials = .ok body ∧
        apiCall env net (postRequest (lit "/auth/login") body) w = (.error e, w1) ∧
        t = .axios e := by
  cases hp : loginPayload credentials with
  | error e =>
    simp only [loginTry, hp, Prod.mk.injEq, Except.error.injEq] at h
    exact Or.inl ⟨e, h.1.symm⟩
  | ok body =>
    rcases hc : apiCall env net (postRequest (lit "/auth/login") body) w with ⟨r, w2⟩
    cases r with
    | error e =>
      simp only [loginTry, hp, hc, Prod.mk.injEq, Except.error.injEq] at h
      obtain ⟨h1, _, h3⟩ := h
      exact Or.inr ⟨body, e, rfl, h3 ▸ hc, h1.symm⟩
    | ok response =>
      cases hd1 : destructure response.data (lit "token") with
      | error e1 =>
        simp only [loginTry, hp, hc, hd1, Prod.mk.injEq, Except.error.injEq] at h
        exact Or.inl ⟨_, h.1.symm⟩
      | ok token =>
        cases hd2 : destructure response.data (lit "teacherId") with
        | error e2 =>
          simp only [loginTry, hp, hc, hd1, hd2, Prod.mk.injEq, Except.error.injEq] at h
          exact Or.inl ⟨_, h.1.symm⟩
        | ok teacherId =>
          cases hj : decodeJWT token with
          | error e3 =>
            simp only [loginTry, hp, hc, hd1, hd2, hj, Prod.mk.injEq, Except.error.injEq] at h
            exact Or.inl ⟨_, h.1.symm⟩
          | ok decoded =>
            simp only [loginTry, hp, hc, hd1, hd2, hj, Prod.mk.injEq] at h
            exact nomatch h.1

theorem registerTry_thrown (env : Env) (net : Net) (userData : JSVal) (s s1 : Session)
    (w w1 : World) (t : Thrown)
    (h : registerTry env net userData s w = (.error t, s1, w1)) :
    (∃ e, t = .js e) ∨
      ∃ e, apiCall env net (postRequest (lit "/auth/register") userData) w = (.error e, w1) ∧
        t = .axios e := by
  rcases hc : apiCall env net (postRequest (lit "/auth/register") userData) w with ⟨r, w2⟩
  cases r with
  | error e =>
    simp only [registerTry, hc, Prod.mk.injEq, Except.error.injEq] at h
    obtain ⟨h1, _, h3⟩ := h
    exact Or.inr ⟨e, by rw [h3], h1.symm⟩
  | ok response =>
    cases hd1 : destructure response.data (lit "token") with
    | error e1 =>
      simp only [registerTry, hc, hd1, Prod.mk.injEq, Except.error.injEq] at h
      exact Or.inl ⟨_, h.1.symm⟩
    | ok token =>
      cases hd2 : destructure response.data (lit "user") with
      | error e2 =>
        simp only [registerTry, hc, hd1, hd2, Prod.mk.injEq, Except.error.injEq] at h
        exact Or.inl ⟨_, h.1.symm⟩
      | ok newUser =>
        cases hj : decodeJWT token with
        | error e3 =>
          simp only [registerTry, hc, hd1, hd2, hj, Prod.mk.injEq, Except.error.injEq] at h
          exact Or.inl ⟨_, h.1.symm⟩
        | ok decoded =>
          simp only [registerTry, hc, hd1, hd2, hj, Prod.mk.injEq] at h
          exact nomatch h.1

/-- C19, amended: `login`, `register` and `updateProfile` return for every argument,
every state and every behaviour of the network, either `{ success: true }` or
`{ success: false, error: m }`, and leave `loading = false`.  The value `m` is truthy,
so it is non-empty whenever it is a string: it is the fallback message of the operation,
or a truthy field of the body of the error response to the operation's request (`error`,
`message` or `detail` for `login`, `message` for the other two), of whatever type the
server sent. -/
theorem session_operations_resolve (env : Env) (net : Net) (arg : JSVal) (s : Session)
    (w : World) :
    (((login env net arg s w).1 = .success ∨
        ∃ m, (login env net arg s w).1 = .failure m ∧ truthy m = true ∧
          (∀ t, m = .str t → t ≠ []) ∧
          (m = .str (lit "Login failed") ∨
            ∃ body e r, loginPayload arg = .ok body ∧
              (apiCall env net (postRequest (lit "/auth/login") body) w).1 = .error e ∧
              e.response = some r ∧
              ∃ k ∈ [lit "error", lit "message", lit "detail"], m = getProp r.data k)) ∧
      (login env net arg s w).2.1.loading = false) ∧
    (((register env net arg s w).1 = .success ∨
        ∃ m, (register env net arg s w).1 = .failure m ∧ truthy m = true ∧
          (∀ t, m = .str t → t ≠ []) ∧
          (m = .str (lit "Registration failed") ∨
            ∃ e r, (apiCall env net (postRequest (lit "/auth/register") arg) w).1 = .error e ∧
              e.response = some r ∧ m = getProp r.data (lit "message"))) ∧
      (register env net arg s w).2.1.loading = false) ∧
    (((updateProfile env net arg s w).1 = .success ∨
        ∃ m, (updateProfile env net arg s w).1 = .failure m ∧ truthy m = true ∧
          (∀ t, m = .str t → t ≠ []) ∧
          (m = .str (lit "Profile update failed") ∨
            ∃ e r, (apiCall env net (putRequest (lit "/auth/profile") arg) w).1 = .error e ∧
              e.response = some r ∧ m = getProp r.data (lit "message"))) ∧
      (updateProfile env net arg s w).2.1.loading = false) := by
  have hstr : ∀ m : JSVal, truthy m = true → ∀ t, m = .str t → t ≠ [] := by
    intro m hm t ht
    subst ht
    exact (truthy_str t).1 hm
  refine ⟨?_, ?_, ?_⟩
  · unfold login
    rcases hT : loginTry env net arg s w with ⟨r, s1, w1⟩
    cases r with
    | ok result =>
      have := (loginTry_ok env net arg s s1 w w1 result hT).1
      subst this
      exact ⟨Or.inl rfl, rfl⟩
    | error t =>
      refine ⟨Or.inr ⟨_, rfl, truthy_jsOr _ _ rfl, hstr _ (truthy_jsOr _ _ rfl), ?_⟩, rfl⟩
      dsimp only
      rw [jsOr_chain_eq_firstPresent]
      rcases catch_message t [lit "error", lit "message", lit "detail"]
        (.str (lit "Login failed")) with h | ⟨e, r, k, ht, hr, hk, h, _⟩
      · exact Or.inl h
      · rcases loginTry_thrown env net arg s s1 w w1 t hT with ⟨je, hje⟩ | ⟨body, e2, hb, hc, he⟩
        · rw [hje] at ht; cases ht
        · rw [he] at ht
          cases ht
          exact Or.inr ⟨body, e, r, hb, by rw [hc], hr, k, hk, h⟩
  · unfold register
    rcases hT : registerTry env net arg s w with ⟨r, s1, w1⟩
    cases r with
    | ok result =>
      have := (registerTry_ok env net arg s s1 w w1 result hT).1
      subst this
      exact ⟨Or.inl rfl, rfl⟩
    | error t =>
      refine ⟨Or.inr ⟨_, rfl, truthy_jsOr _ _ rfl, hstr _ (truthy_jsOr _ _ rfl), ?_⟩, rfl⟩
      dsimp only
      rw [jsOr_eq_firstPresent]
      rcases catch_message t [lit "message"] (.str (lit "Registration failed")) with
        h | ⟨e, r, k, ht, hr, hk, h, _⟩
      · exact Or.inl h
      · simp only [List.mem_singleton] at hk
        subst hk
        rcases registerTry_thrown env net arg s s1 w w1 t hT with ⟨je, hje⟩ | ⟨e2, hc, he⟩
        · rw [hje] at ht; cases ht
        · rw [he] at ht
          cases ht
          exact Or.inr ⟨e, r, by rw [hc], hr, h⟩
  · unfold updateProfile
    rcases hc : apiCall env net (putRequest (lit "/auth/profile") arg) w with ⟨r, w1⟩
    cases r with
    | ok response => exact ⟨Or.inl rfl, rfl⟩
    | error e =>
      refine ⟨Or.inr ⟨_, rfl, truthy_jsOr _ _ rfl, hstr _ (truthy_jsOr _ _ rfl), ?_⟩, rfl⟩
      dsimp only
      rw [jsOr_eq_firstPresent]
      rcases catch_message (.axios e) [lit "message"] (.str (lit "Profile update failed")) with
        h | ⟨e2, r, k, ht, hr, hk, h, _⟩
      · exact Or.inl h
      · simp only [List.mem_singleton] at hk
        subst hk
        cases ht
        exact Or.inr ⟨e, r, rfl, hr, h⟩

/-- C19, amended, at a login answered 401 with the body `null`. -/
theorem session_operations_resolve_witness :
    ∀ t : JSString,
      (login Env.zero rejectingNet sampleCredentials Session.initial World.fresh).1 =
        .failure (.str t) → t ≠ [] :=
  fun t ht =>
    (session_operations_resolve Env.zero rejectingNet sampleCredentials Session.initial
      World.fresh).1.1.elim (fun h => nomatch ht.symm.trans h)
      (fun ⟨_, hm, _, hs, _⟩ => hs t (AuthResult.failure.inj (hm.symm.trans ht)))

/-- C20: the route guard shows the placeholder while loading and otherwise decides by
`requireAuth` and `isAuthenticated` as the four cases say; so no route of the route
table declared with `requireAuth={true}` shows its content to a session that is not
authenticated. -/
theorem route_guard_spec :
    (∀ a r, protectedRoute true a r = .placeholder) ∧
    protectedRoute false true true = .content ∧
    protectedRoute false false true = .redirect (lit "/login") ∧
    protectedRoute false true false = .redirect (lit "/dashboard") ∧
    protectedRoute false false false = .content ∧
    (∀ r ∈ routeTable, r.requireAuth = some true →
      ∀ s : Session, s.isAuthenticated = false → renderRoute s r ≠ .content) := by
  refine ⟨fun a r => rfl, rfl, rfl, rfl, rfl, ?_⟩
  intro r _ hr s hs
  simp only [renderRoute, hr, protectedRoute, hs]
  cases s.loading <;> simp

/-- C20 at the route `/dashboard` and the anonymous session after the startup check. -/
theorem route_guard_spec_witness :
    renderRoute ⟨.null, false, .null⟩ ⟨lit "/dashboard", lit "Dashboard", some true⟩ ≠ .content :=
  route_guard_spec.2.2.2.2.2 ⟨lit "/dashboard", lit "Dashboard", some true⟩ (by decide) rfl
    ⟨.null, false, .null⟩ rfl

/-! ## Validation: lemmas and claims -/

theorem any_of_lookaheadFinds (cls : Nat → Bool) (p : JSString)
    (h : lookaheadFinds cls p = true) : p.any cls = true := by
  unfold lookaheadFinds at h
  rw [List.any_eq_true] at h ⊢
  obtain ⟨x, hx, hc⟩ := h
  exact ⟨x, (List.takeWhile_sublist _).subset hx, hc⟩

theorem lookaheadFinds_of_no_terminator (cls : Nat → Bool) (p : JSString)
    (hp : ∀ c ∈ p, isLineTerminator c = false) : lookaheadFinds cls p = p.any cls := by
  unfold lookaheadFinds
  have : p.takeWhile (fun c => !isLineTerminator c) = p := by
    rw [List.takeWhile_eq_self_iff]
    intro c hc
    simp [hp c hc]
  rw [this]

/-- What `validatePassword` accepts: at least 8 code units, and a lowercase letter, an
uppercase letter and a digit before the first line terminator. -/
theorem validatePassword_isValid_iff (p : JSString) :
    (validatePassword p).isValid = true ↔ 8 ≤ p.length ∧ passwordRegex p = true := by
  unfold validatePassword validateWith stringIssues passwordSchema
  by_cases h8 : p.length < 8 <;> cases hr : passwordRegex p <;>
    simp [List.filterMap, StringCheck.issue, h8, hr]
  omega

/-- A password shorter than 8 code units is rejected with the length message. -/
theorem validatePassword_short (p : JSString) (h : p.length < 8) :
    validatePassword p = ⟨false, some (lit "Password must be at least 8 characters")⟩ := by
  unfold validatePassword validateWith stringIssues passwordSchema
  cases hr : passwordRegex p <;> simp [List.filterMap, StringCheck.issue, h, hr]

/-- On a password without line terminator, `validatePassword` accepts exactly the
strings of at least 8 code units with a lowercase letter, an uppercase letter and a
digit. -/
theorem validatePassword_single_line (p : JSString)
    (hp : ∀ c ∈ p, isLineTerminator c = false) :
    (validatePassword p).isValid = true ↔
      8 ≤ p.length ∧ p.any isLower = true ∧ p.any isUpper = true ∧ p.any isDigit = true := by
  rw [validatePassword_isValid_iff]
  unfold passwordRegex
  simp only [lookaheadFinds_of_no_terminator _ p hp, Bool.and_eq_true]
  tauto

/-- C24 fails on the code: the passwords `ABCDEFG1`, line feed, `a` and `ABCDEFG1`,
U+2028, `a` have more than 8 code units and contain a lowercase letter, an uppercase
letter and a digit, and `validatePassword` rejects them, with the message that the
password must contain those. -/
theorem validatePassword_rejects_letter_after_newline :
    (8 ≤ (lit "ABCDEFG1\na").length ∧ (lit "ABCDEFG1\na").any isLower = true ∧
      (lit "ABCDEFG1\na").any isUpper = true ∧ (lit "ABCDEFG1\na").any isDigit = true ∧
      validatePassword (lit "ABCDEFG1\na") = ⟨false, some (lit
        "Password must contain at least one uppercase letter, one lowercase letter, and one number")⟩) ∧
    (8 ≤ (lit "ABCDEFG1" ++ 8232 :: lit "a").length ∧
      (lit "ABCDEFG1" ++ 8232 :: lit "a").any isLower = true ∧
      (validatePassword (lit "ABCDEFG1" ++ 8232 :: lit "a")).isValid = false) := by
  decide

/-- C25 fails on the code: `validatePhone` accepts `(555) 1234`, which has 7 digits,
and a string of ten hyphens, which has none. -/
theorem validatePhone_accepts_fewer_digits :
    validatePhone (lit "(555) 1234") = ⟨true, none⟩ ∧ digitCount (lit "(555) 1234") = 7 ∧
    validatePhone (lit "----------") = ⟨true, none⟩ ∧ digitCount (lit "----------") = 0 := by
  decide

/-- What `validatePhone` accepts: the strings matching the phone pattern that have at
least 10 code units. -/
theorem validatePhone_isValid_iff (p : JSString) :
    (validatePhone p).isValid = true ↔ phoneRegex p = true ∧ 10 ≤ p.length := by
  unfold validatePhone validateWith stringIssues phoneSchema
  by_cases h10 : p.length < 10 <;> cases hr : phoneRegex p <;>
    simp [List.filterMap, StringCheck.issue, h10, hr]
  omega

/-- Number of checks a password satisfies. -/
theorem strength_score (p : JSString) :
    (checkPasswordStrength p).score =
      (if 8 ≤ p.length then 1 else 0) + (if p.any isLower then 1 else 0) +
      (if p.any isUpper then 1 else 0) + (if p.any isDigit then 1 else 0) +
      (if p.any isSpecial then 1 else 0) := by
  unfold checkPasswordStrength strengthChecks
  by_cases h8 : 8 ≤ p.length <;> cases p.any isLower <;> cases p.any isUpper <;>
    cases p.any isDigit <;> cases p.any isSpecial <;> simp [h8]

theorem strength_of_score (p : JSString) :
    ((checkPasswordStrength p).strength = lit "weak" ↔ (checkPasswordStrength p).score < 3) ∧
    ((checkPasswordStrength p).strength = lit "medium" ↔
      (checkPasswordStrength p).score = 3 ∨ (checkPasswordStrength p).score = 4) ∧
    ((checkPasswordStrength p).strength = lit "strong" ↔ (checkPasswordStrength p).score = 5) ∧
    (checkPasswordStrength p).score ≤ 5 := by
  unfold checkPasswordStrength strengthChecks
  by_cases h8 : 8 ≤ p.length <;> cases p.any isLower <;> cases p.any isUpper <;>
    cases p.any isDigit <;> cases p.any isSpecial <;> simp [h8] <;> decide

/-- C26: the score of `checkPasswordStrength` is the number of the five checks the
password satisfies, at most 5; the rating is `weak` for a score below 3, `medium` for 3
and 4, `strong` for 5; and a password that `validatePassword` accepts has a score of at
least 4 and is not rated `weak`. -/
theorem checkPasswordStrength_spec (p : JSString) :
    (checkPasswordStrength p).score =
      (if 8 ≤ p.length then 1 else 0) + (if p.any isLower then 1 else 0) +
      (if p.any isUpper then 1 else 0) + (if p.any isDigit then 1 else 0) +
      (if p.any isSpecial then 1 else 0) ∧
    (checkPasswordStrength p).score ≤ 5 ∧
    ((checkPasswordStrength p).strength = lit "weak" ↔ (checkPasswordStrength p).score < 3) ∧
    ((checkPasswordStrength p).strength = lit "medium" ↔
      (checkPasswordStrength p).score = 3 ∨ (checkPasswordStrength p).score = 4) ∧
    ((checkPasswordStrength p).strength = lit "strong" ↔ (checkPasswordStrength p).score = 5) ∧
    ((validatePassword p).isValid = true →
      4 ≤ (checkPasswordStrength p).score ∧ (checkPasswordStrength p).strength ≠ lit "weak") := by
  obtain ⟨hw, hm, hs, h5⟩ := strength_of_score p
  refine ⟨strength_score p, h5, hw, hm, hs, ?_⟩
  intro hv
  obtain ⟨h8, hr⟩ := (validatePassword_isValid_iff p).mp hv
  unfold passwordRegex at hr
  simp only [Bool.and_eq_true] at hr
  obtain ⟨⟨hl, hu⟩, hd⟩ := hr
  have hl := any_of_lookaheadFinds _ _ hl
  have hu := any_of_lookaheadFinds _ _ hu
  have hd := any_of_lookaheadFinds _ _ hd
  have hscore : 4 ≤ (checkPasswordStrength p).score := by
    rw [strength_score]
    simp only [h8, hl, hu, hd, if_true]
    omega
  refine ⟨hscore, ?_⟩
  intro hweak
  have := hw.mp hweak
  omega

/-- C26 at the password `Abcdefg1`. -/
theorem checkPasswordStrength_spec_witness :
    4 ≤ (checkPasswordStrength (lit "Abcdefg1")).score ∧
    (checkPasswordStrength (lit "Abcdefg1")).strength ≠ lit "weak" :=
  (checkPasswordStrength_spec (lit "Abcdefg1")).2.2.2.2.2 (by decide)

/-! ## Flash number generator page: lemmas and claims -/

theorem totalQuestions_eq_sum {α : Type} (items : List (FlashItem α)) :
    totalQuestions items = (items.map fun i => i.questions).sum := by
  unfold totalQuestions
  have h : ∀ (l : List (FlashItem α)) (acc : Int),
      l.foldl (fun sum r => sum + r.questions) acc = acc + (l.map fun i => i.questions).sum := by
    intro l
    induction l with
    | nil => intro acc; simp
    | cons x xs ih =>
      intro acc
      simp only [List.foldl_cons, List.map_cons, List.sum_cons, ih]
      omega
  rw [h]
  simp

theorem nextId_gt {α : Type} (items : List (FlashItem α))
    (h : (itemIds items).Pairwise (fun a b => a < b)) :
    ∀ a ∈ itemIds items, a < nextId items := by
  intro a ha
  rcases List.eq_nil_or_concat items with rfl | ⟨l, last, rfl⟩
  · simp [itemIds] at ha
  · have hlast : nextId (l.concat last) = last.id + 1 := by
      simp [nextId, List.getLast?_concat]
    rw [hlast]
    simp only [List.concat_eq_append, itemIds, List.map_append, List.map_cons, List.map_nil] at h ha
    rw [List.pairwise_append] at h
    obtain ⟨_, _, hlt⟩ := h
    rcases List.mem_append.mp ha with hl | hl
    · have := hlt a hl last.id (by simp)
      omega
    · simp at hl
      omega

theorem nextId_pos {α : Type} (items : List (FlashItem α)) : 0 < nextId items := by
  unfold nextId
  split <;> omega

theorem flashInv_initial {α : Type} (c l s : α) : FlashInv (FlashPage.initial c l s) := by
  refine ⟨?_, ?_, ?_, ?_⟩
  · simp [FlashPage.initial]
  · simp [FlashPage.initial]
  · simp [FlashPage.initial, itemIds]
  · simp [FlashPage.initial]

theorem flashInv_step {α : Type} (p : FlashPage α) (op : FlashOp α) (h : FlashInv p) :
    FlashInv (flashStep p op) := by
  obtain ⟨h1, h2, h3, h4⟩ := h
  cases op with
  | inc =>
    refine ⟨?_, ?_, h3, h4⟩
    · simp only [flashStep, stepperInc]; omega
    · simp only [flashStep, stepperInc]; omega
  | dec =>
    refine ⟨?_, ?_, h3, h4⟩
    · simp only [flashStep, stepperDec]; omega
    · simp only [flashStep, stepperDec]; omega
  | addItem =>
    refine ⟨h1, h2, ?_, ?_⟩
    · simp only [flashStep, addItem, itemIds, List.map_append, List.map_cons, List.map_nil]
      rw [List.pairwise_append]
      refine ⟨h3, by simp, ?_⟩
      intro a ha b hb
      simp only [List.mem_singleton] at hb
      subst hb
      exact nextId_gt p.items h3 a ha
    · intro i hi
      simp only [flashStep, addItem, List.mem_append, List.mem_singleton] at hi
      rcases hi with hi | rfl
      · exact h4 i hi
      · exact ⟨nextId_pos p.items, h1, h2⟩
  | removeItem id =>
    refine ⟨h1, h2, ?_, ?_⟩
    · simp only [flashStep, removeItem, itemIds]
      exact List.Pairwise.sublist (List.Sublist.map _ (List.filter_sublist _)) h3
    · intro i hi
      simp only [flashStep, removeItem] at hi
      exact h4 i (List.mem_of_mem_filter hi)
  | selectConcept value => exact ⟨h1, h2, h3, h4⟩
  | selectLength value => exact ⟨h1, h2, h3, h4⟩
  | setSpeed value => exact ⟨h1, h2, h3, h4⟩

theorem flashInv_run {α : Type} (p : FlashPage α) (ops : List (FlashOp α)) (h : FlashInv p) :
    FlashInv (flashRun p ops) := by
  induction ops generalizing p with
  | nil => exact h
  | cons op ops ih => exact ih (flashStep p op) (flashInv_step p op h)

theorem filter_ne_length {α : Type} (items : List (FlashItem α)) (id : Nat)
    (h : (itemIds items).Pairwise (fun a b => a < b)) :
    items.length ≤ (items.filter fun i => i.id != id).length + 1 := by
  induction items with
  | nil => simp
  | cons x xs ih =>
    simp only [itemIds, List.map_cons, List.pairwise_cons] at h
    obtain ⟨hx, hxs⟩ := h
    by_cases hid : x.id = id
    · have hall : xs.filter (fun i => i.id != id) = xs := by
        rw [List.filter_eq_self]
        intro a ha
        have := hx a.id (List.mem_map_of_mem _ ha)
        simp only [bne_iff_ne, ne_eq]
        omega
      simp [List.filter_cons, hid, hall]
    · have := ih hxs
      simp only [List.filter_cons, bne_iff_ne, ne_eq, hid, not_false_eq_true, decide_True,
        if_true, List.length_cons]
      simp only [bne_iff_ne, ne_eq] at this
      omega

theorem filter_ne_sum {α : Type} (items : List (FlashItem α)) (i : FlashItem α)
    (h : (itemIds items).Pairwise (fun a b => a < b)) (hi : i ∈ items) :
    ((items.filter fun j => j.id != i.id).map fun j => j.questions).sum =
      (items.map fun j => j.questions).sum - i.questions := by
  induction items with
  | nil => simp at hi
  | cons x xs ih =>
    simp only [itemIds, List.map_cons, List.pairwise_cons] at h
    obtain ⟨hx, hxs⟩ := h
    rcases List.mem_cons.mp hi with rfl | hmem
    · have hall : xs.filter (fun j => j.id != i.id) = xs := by
        rw [List.filter_eq_self]
        intro a ha
        have := hx a.id (List.mem_map_of_mem _ ha)
        simp only [bne_iff_ne, ne_eq]
        omega
      simp [List.filter_cons, hall]
    · have hne : x.id ≠ i.id := by
        have := hx i.id (List.mem_map_of_mem _ hmem)
        omega
      have := ih hxs hmem
      simp only [List.filter_cons, bne_iff_ne, ne_eq, hne, not_false_eq_true, decide_True,
        if_true, List.map_cons, List.sum_cons]
      simp only [bne_iff_ne, ne_eq] at this
      rw [this]
      omega

theorem sum_bounds {α : Type} (items : List (FlashItem α))
    (h : ∀ i ∈ items, 1 ≤ i.questions ∧ i.questions ≤ 200) :
    (items.length : Int) ≤ (items.map fun i => i.questions).sum ∧
    (items.map fun i => i.questions).sum ≤ 200 * (items.length : Int) := by
  induction items with
  | nil => simp
  | cons x xs ih =>
    have hx := h x (by simp)
    have := ih (fun i hi => h i (by simp [hi]))
    simp only [List.map_cons, List.sum_cons, List.length_cons, Nat.cast_add, Nat.cast_one]
    omega

/-- C27: in every state reached from the empty list, the ids of the rows are positive
and strictly increasing, hence pairwise distinct; `removeItem(id)` removes at most one
row, keeps the others in their order, and changes nothing when no row has that id. -/
theorem flash_ids_increasing {α : Type} (c l s : α) (ops : List (FlashOp α)) (id : Nat) :
    (itemIds (flashRun (FlashPage.initial c l s) ops).items).Pairwise (fun a b => a < b) ∧
    (∀ i ∈ (flashRun (FlashPage.initial c l s) ops).items, 0 < i.id) ∧
    (itemIds (flashRun (FlashPage.initial c l s) ops).items).Nodup ∧
    (flashRun (FlashPage.initial c l s) ops).items.length
      ≤ (removeItem id (flashRun (FlashPage.initial c l s) ops)).items.length + 1 ∧
    (removeItem id (flashRun (FlashPage.initial c l s) ops)).items.Sublist
      (flashRun (FlashPage.initial c l s) ops).items ∧
    (∀ i ∈ (flashRun (FlashPage.initial c l s) ops).items, i.id ≠ id →
      i ∈ (removeItem id (flashRun (FlashPage.initial c l s) ops)).items) ∧
    (id ∉ itemIds (flashRun (FlashPage.initial c l s) ops).items →
      (removeItem id (flashRun (FlashPage.initial c l s) ops)).items
        = (flashRun (FlashPage.initial c l s) ops).items) := by
  obtain ⟨_, _, h3, h4⟩ := flashInv_run _ ops (flashInv_initial c l s)
  refine ⟨h3, fun i hi => (h4 i hi).1, ?_, filter_ne_length _ id h3, ?_, ?_, ?_⟩
  · exact h3.imp (fun hab => Nat.ne_of_lt hab)
  · exact List.filter_sublist _
  · intro i hi hne
    simp only [removeItem, List.mem_filter, bne_iff_ne, ne_eq]
    exact ⟨hi, hne⟩
  · intro hnot
    simp only [removeItem]
    rw [List.filter_eq_self]
    intro a ha
    simp only [bne_iff_ne, ne_eq]
    intro heq
    exact hnot (by rw [← heq]; exact List.mem_map_of_mem _ ha)

/-- C27 after adding three rows and removing the second. -/
theorem flash_ids_increasing_witness :
    itemIds (removeItem 2 (flashRun (FlashPage.initial 0 0 0)
      [.addItem, .addItem, .addItem, .removeItem 2, .addItem])).items = [1, 3, 4] :=
  ((flash_ids_increasing 0 0 0 [.addItem, .addItem, .addItem, .removeItem 2, .addItem] 2).2.2.2.2.2.2
    (by decide)) ▸ (by decide)

/-- C28: the question count starts at 10 and after any sequence of actions is an
integer between 1 and 200.  On the page, `inc` sets it to the smaller of 200 and the
count plus 1 and `dec` to the larger of 1 and the count minus 1, and no other action
changes it: so in every reachable state `inc` at 200 and `dec` at 1 change nothing, and
anywhere else `inc` adds exactly 1 and `dec` subtracts exactly 1. -/
theorem question_stepper_range {α : Type} (c l s : α) (ops : List (FlashOp α)) :
    (FlashPage.initial c l s).numQuestions = 10 ∧
    1 ≤ (flashRun (FlashPage.initial c l s) ops).numQuestions ∧
    (flashRun (FlashPage.initial c l s) ops).numQuestions ≤ 200 ∧
    stepperInc 200 1 200 = 200 ∧ stepperDec 1 1 1 = 1 ∧
    (∀ v : Int, v < 200 → stepperInc 200 1 v = v + 1) ∧
    (∀ v : Int, 1 < v → stepperDec 1 1 v = v - 1) ∧
    (∀ p : FlashPage α, (flashStep p .inc).numQuestions = min 200 (p.numQuestions + 1)) ∧
    (∀ p : FlashPage α, (flashStep p .dec).numQuestions = max 1 (p.numQuestions - 1)) ∧
    (∀ (p : FlashPage α) (op : FlashOp α), op ≠ .inc → op ≠ .dec →
      (flashStep p op).numQuestions = p.numQuestions) ∧
    ((flashRun (FlashPage.initial c l s) ops).numQuestions = 200 →
      (flashRun (FlashPage.initial c l s) (ops ++ [.inc])).numQuestions = 200) ∧
    ((flashRun (FlashPage.initial c l s) ops).numQuestions < 200 →
      (flashRun (FlashPage.initial c l s) (ops ++ [.inc])).numQuestions =
        (flashRun (FlashPage.initial c l s) ops).numQuestions + 1) ∧
    ((flashRun (FlashPage.initial c l s) ops).numQuestions = 1 →
      (flashRun (FlashPage.initial c l s) (ops ++ [.dec])).numQuestions = 1) ∧
    (1 < (flashRun (FlashPage.initial c l s) ops).numQuestions →
      (flashRun (FlashPage.initial c l s) (ops ++ [.dec])).numQuestions =
        (flashRun (FlashPage.initial c l s) ops).numQuestions - 1) := by
  obtain ⟨h1, h2, _, _⟩ := flashInv_run _ ops (flashInv_initial c l s)
  have hinc : (flashRun (FlashPage.initial c l s) (ops ++ [.inc])).numQuestions =
      min 200 ((flashRun (FlashPage.initial c l s) ops).numQuestions + 1) := by
    simp [flashRun, flashStep, stepperInc]
  have hdec : (flashRun (FlashPage.initial c l s) (ops ++ [.dec])).numQuestions =
      max 1 ((flashRun (FlashPage.initial c l s) ops).numQuestions - 1) := by
    simp [flashRun, flashStep, stepperDec]
  refine ⟨rfl, h1, h2, by decide, by decide, ?_, ?_, fun p => rfl, fun p => rfl, ?_,
    ?_, ?_, ?_, ?_⟩
  · intro v hv
    simp only [stepperInc]; omega
  · intro v hv
    simp only [stepperDec]; omega
  · intro p op hi hd
    cases op with
    | inc => exact absurd rfl hi
    | dec => exact absurd rfl hd
    | addItem => rfl
    | removeItem id => rfl
    | selectConcept v => rfl
    | selectLength v => rfl
    | setSpeed v => rfl
  · intro h; rw [hinc, h]; rfl
  · intro h; rw [hinc]; omega
  · intro h; rw [hdec, h]; rfl
  · intro h; rw [hdec]; omega

/-- C28 after `inc`, `dec`, `dec`, which leave the count at 9: a further `inc` gives
10, a further `dec` gives 8. -/
theorem question_stepper_range_witness :
    (flashRun (FlashPage.initial 0 0 0) ([.inc, .dec, .dec] ++ [.inc])).numQuestions =
      (flashRun (FlashPage.initial 0 0 0) [.inc, .dec, .dec]).numQuestions + 1 ∧
    (flashRun (FlashPage.initial 0 0 0) ([.inc, .dec, .dec] ++ [.dec])).numQuestions =
      (flashRun (FlashPage.initial 0 0 0) [.inc, .dec, .dec]).numQuestions - 1 ∧
    (flashRun (FlashPage.initial 0 0 0) [.inc, .dec, .dec]).numQuestions = 9 :=
  ⟨(question_stepper_range 0 0 0 ([.inc, .dec, .dec] : List (FlashOp Nat))).2.2.2.2.2.2.2.2.2.2.2.1
      (by decide),
   (question_stepper_range 0 0 0 ([.inc, .dec, .dec] : List (FlashOp Nat))).2.2.2.2.2.2.2.2.2.2.2.2.2
      (by decide),
   by decide⟩

/-- C29: `totalQuestions` is the sum of the `questions` of the rows: 0 for the empty
list, larger by the current question count after `addItem`, smaller by the removed
row's questions after `removeItem` of a listed id; in every reachable state it lies
between the number of rows and 200 times that number. -/
theorem totalQuestions_spec {α : Type} (c l s : α) (ops : List (FlashOp α)) :
    totalQuestions (flashRun (FlashPage.initial c l s) ops).items
      = ((flashRun (FlashPage.initial c l s) ops).items.map fun i => i.questions).sum ∧
    totalQuestions ([] : List (FlashItem α)) = 0 ∧
    totalQuestions (addItem (flashRun (FlashPage.initial c l s) ops)).items
      = totalQuestions (flashRun (FlashPage.initial c l s) ops).items
        + (flashRun (FlashPage.initial c l s) ops).numQuestions ∧
    (∀ i ∈ (flashRun (FlashPage.initial c l s) ops).items,
      totalQuestions (removeItem i.id (flashRun (FlashPage.initial c l s) ops)).items
        = totalQuestions (flashRun (FlashPage.initial c l s) ops).items - i.questions) ∧
    ((flashRun (FlashPage.initial c l s) ops).items.length : Int)
      ≤ totalQuestions (flashRun (FlashPage.initial c l s) ops).items ∧
    totalQuestions (flashRun (FlashPage.initial c l s) ops).items
      ≤ 200 * ((flashRun (FlashPage.initial c l s) ops).items.length : Int) := by
  obtain ⟨_, _, h3, h4⟩ := flashInv_run _ ops (flashInv_initial c l s)
  have hb := sum_bounds (flashRun (FlashPage.initial c l s) ops).items
    (fun i hi => (h4 i hi).2)
  refine ⟨totalQuestions_eq_sum _, rfl, ?_, ?_, ?_, ?_⟩
  · simp only [totalQuestions_eq_sum, addItem, List.map_append, List.sum_append, List.map_cons,
      List.map_nil, List.sum_cons, List.sum_nil]
    omega
  · intro i hi
    simp only [totalQuestions_eq_sum, removeItem]
    exact filter_ne_sum _ i h3 hi
  · rw [totalQuestions_eq_sum]; exact hb.1
  · rw [totalQuestions_eq_sum]; exact hb.2

/-- C29 after two rows of 10 questions and one of 11. -/
theorem totalQuestions_spec_witness :
    totalQuestions (removeItem 3 (flashRun (FlashPage.initial 0 0 0)
        [.addItem, .addItem, .inc, .addItem])).items
      = totalQuestions (flashRun (FlashPage.initial 0 0 0)
        [.addItem, .addItem, .inc, .addItem]).items - 11 :=
  (totalQuestions_spec 0 0 0 [.addItem, .addItem, .inc, .addItem]).2.2.2.1
    ⟨3, 0, 11, 0, 0⟩ (by simp [flashRun, flashStep, addItem, nextId, FlashPage.initial, stepperInc])

/-! ## Sign-up form: lemmas and claims -/

theorem setField_ne_nil (name message : JSString) (acc : List (JSString × JSString)) :
    setField name message acc ≠ [] := by
  cases acc with
  | nil => simp [setField]
  | cons p rest =>
    obtain ⟨k, v⟩ := p
    by_cases h : k = name <;> simp [setField, h]

theorem foldl_setField_ne_nil (issues : List (JSString × JSString)) :
    ∀ acc : List (JSString × JSString), acc ≠ [] →
      issues.foldl (fun acc issue => setField issue.1 issue.2 acc) acc ≠ [] := by
  induction issues with
  | nil => intro acc h; simpa using h
  | cons i rest ih =>
    intro acc _
    simpa using ih _ (setField_ne_nil i.1 i.2 acc)

theorem fieldErrors_ne_nil (issues : List (JSString × JSString)) (h : issues ≠ []) :
    fieldErrors issues ≠ [] := by
  cases issues with
  | nil => exact absurd rfl h
  | cons i rest =>
    simpa [fieldErrors] using foldl_setField_ne_nil rest _ (setField_ne_nil i.1 i.2 [])

theorem registerIssues_nil_password (emailOk : JSString → Bool) (d : SignUpData)
    (h : registerIssues emailOk d = []) : d.password = d.confirmPassword := by
  by_contra hne
  simp [registerIssues, hne] at h

theorem handleSignUp_of_issues (emailOk : JSString → Bool) (env : Env) (net : Net)
    (d : SignUpData) (view : SignUpView) (s : Session) (w : World)
    (h : registerIssues emailOk d ≠ []) :
    handleSignUp emailOk env net d view s w =
      ({ view with errors := fieldErrors (registerIssues emailOk d) }, s, w) := by
  cases hi : registerIssues emailOk d with
  | nil => exact absurd hi h
  | cons i rest => simp [handleSignUp, handleSignUpTry, handleSignUpCatch, hi]

theorem handleSignUp_of_no_issues (emailOk : JSString → Bool) (env : Env) (net : Net)
    (d : SignUpData) (view : SignUpView) (s : Session) (w : World)
    (h : registerIssues emailOk d = []) :
    handleSignUp emailOk env net d view s w =
      match register env net d.toValue s w with
      | (.success, s, w) =>
        ({ errors := [],
           successToasts := view.successToasts ++ [lit "Registration successful! Please login."],
           navigations := view.navigations ++ [lit "/login"] }, s, w)
      | (.failure error, s, w) =>
        ({ view with errors := [] }, s, { w with toasts := w.toasts ++ [error] }) := by
  simp only [handleSignUp, handleSignUpTry, h]
  rcases hr : register env net d.toValue s w with ⟨r, s1, w1⟩
  cases r <;> rfl

/-- C23: `handleSignUp` returns a state on every input (it is a total function, nothing
is thrown to the caller).  When `registerSchema` raises issues, `register` is not called:
session and world, hence the log of dispatched requests, are unchanged, and `errors`
becomes the non-empty object of per-field messages.  When it raises none, the password
equals its confirmation and the result is that of `register` on the form data, shown as
a toast and a navigation or as an error toast.  Any thrown value other than a `ZodError`
is turned by the `catch` block into the toast `Registration failed`. -/
theorem handleSignUp_validates_first (emailOk : JSString → Bool) (env : Env) (net : Net)
    (d : SignUpData) (view : SignUpView) (s : Session) (w : World) :
    (registerIssues emailOk d ≠ [] →
      handleSignUp emailOk env net d view s w =
          ({ view with errors := fieldErrors (registerIssues emailOk d) }, s, w) ∧
        fieldErrors (registerIssues emailOk d) ≠ []) ∧
    (registerIssues emailOk d = [] →
      d.password = d.confirmPassword ∧
        handleSignUp emailOk env net d view s w =
          match register env net d.toValue s w with
          | (.success, s, w) =>
            ({ errors := [],
               successToasts := view.successToasts ++ [lit "Registration successful! Please login."],
               navigations := view.navigations ++ [lit "/login"] }, s, w)
          | (.failure error, s, w) =>
            ({ view with errors := [] }, s, { w with toasts := w.toasts ++ [error] })) ∧
    ((handleSignUp emailOk env net d view s w).2.2.dispatched ≠ w.dispatched →
      registerIssues emailOk d = [] ∧ d.password = d.confirmPassword) ∧
    handleSignUpCatch .other view w =
      (view, { w with toasts := w.toasts ++ [.str (lit "Registration failed")] }) := by
  refine ⟨fun h => ⟨handleSignUp_of_issues emailOk env net d view s w h, fieldErrors_ne_nil _ h⟩,
    fun h => ⟨registerIssues_nil_password emailOk d h,
      handleSignUp_of_no_issues emailOk env net d view s w h⟩, ?_, rfl⟩
  intro hd
  by_cases h : registerIssues emailOk d = []
  · exact ⟨h, registerIssues_nil_password emailOk d h⟩
  · rw [handleSignUp_of_issues emailOk env net d view s w h] at hd
    exact absurd rfl hd

theorem handleSignUp_validates_first_witness :
    registerIssues (fun _ => true) mismatchedSignUp ≠ [] ∧
      handleSignUp (fun _ => true) Env.zero rejectingNet mismatchedSignUp ⟨[], [], []⟩
          Session.initial World.fresh =
        (⟨fieldErrors (registerIssues (fun _ => true) mismatchedSignUp), [], []⟩,
          Session.initial, World.fresh) :=
  ⟨by decide,
    ((handleSignUp_validates_first (fun _ => true) Env.zero rejectingNet mismatchedSignUp
      ⟨[], [], []⟩ Session.initial World.fresh).1 (by decide)).1⟩

/-! ## Flash assignment page: lemmas -/

theorem handleSubmit_page (pf : AssignPlatform) (p : AssignPage) (w : AssignWorld) :
    (handleSubmit pf p w).1 = { p with isSubmitting := false } := by
  have key : ∀ q : AssignPage,
      ({ (handleSubmitTry pf q w).2.1 with isSubmitting := false } : AssignPage) =
        { q with isSubmitting := false } := by
    intro q
    unfold handleSubmitTry
    cases storedOr w.localStorage w.sessionStorage (lit "access_token") with
    | none => rfl
    | some token =>
      dsimp only
      split
      · rfl
      · cases decodeForDebug token with
        | error e => rfl
        | ok v =>
          dsimp only
          split
          · rfl
          · cases storedOr w.localStorage w.sessionStorage (lit "teacherId") with
            | none => rfl
            | some teacherId =>
              dsimp only
              split
              · rfl
              · unfold assignPlan
                split
                · split
                  · rfl
                  · unfold afterResults
                    dsimp only
                    split <;> rfl
                · rfl
  have h := key { p with isSubmitting := true }
  unfold handleSubmit
  rcases hr : handleSubmitTry pf { p with isSubmitting := true } w with ⟨r, q, w1⟩
  rw [hr] at h
  cases r <;> exact h

theorem handleSubmit_of_stop (pf : AssignPlatform) (p : AssignPage) (w : AssignWorld)
    (message : JSString)
    (h : handleSubmitTry pf { p with isSubmitting := true } w =
      stopWith message { p with isSubmitting := true } w) :
    handleSubmit pf p w =
      ({ p with isSubmitting := false }, { w with toastErrors := w.toastErrors ++ [message] }) := by
  simp [handleSubmit, h, stopWith]

theorem promiseAll_map_ok (vs : List JSVal) :
    promiseAll (vs.map fun v => (Except.ok v : Except JSError JSVal)) = .ok vs := by
  induction vs with
  | nil => rfl
  | cons v rest ih => simp [promiseAll, ih]

theorem resultsOf_length (pf : AssignPlatform) (calls : List AssignCall) :
    ∀ k, (resultsOf pf k calls).length = calls.length := by
  induction calls with
  | nil => intro k; rfl
  | cons c cs ih => intro k; simp [resultsOf, ih]

theorem fulfilledCount_eq (pf : AssignPlatform) (calls : List AssignCall) :
    ∀ k, ((resultsOf pf k calls).filter notNull).length = fulfilledCount pf k calls := by
  induction calls with
  | nil => intro k; rfl
  | cons c cs ih =>
    intro k
    cases hp : pf.post k c with
    | none => simp [resultsOf, fulfilledCount, hp, notNull, ih]
    | some data =>
      cases hn : notNull data <;>
        simp [resultsOf, fulfilledCount, hp, hn, List.filter_cons, ih, Nat.add_comm]

theorem fulfilledCount_le (pf : AssignPlatform) (calls : List AssignCall) (k : Nat) :
    fulfilledCount pf k calls ≤ calls.length := by
  rw [← fulfilledCount_eq, ← resultsOf_length pf calls k]
  exact List.length_filter_le _ _

theorem assignmentPayload_ok (pf : AssignPlatform) (p : AssignPage) (teacherId : JSString)
    (item : JSVal) (h : item ≠ .null ∧ item ≠ .undefined) :
    ∃ payload, assignmentPayload pf p teacherId item = .ok payload := by
  cases item with
  | undefined => exact absurd rfl h.2
  | null => exact absurd rfl h.1
  | bool b => exact ⟨_, rfl⟩
  | num l => exact ⟨_, rfl⟩
  | str s => exact ⟨_, rfl⟩
  | arr xs => exact ⟨_, rfl⟩
  | obj props => exact ⟨_, rfl⟩

theorem assignmentPayload_submitting (pf : AssignPlatform) (p : AssignPage) (b : Bool)
    (teacherId : JSString) (item : JSVal) :
    assignmentPayload pf { p with isSubmitting := b } teacherId item =
      assignmentPayload pf p teacherId item := by
  cases item <;> rfl

theorem assignmentCalls_spec (pf : AssignPlatform) (p : AssignPage) (token teacherId : JSString)
    (items : List JSVal) :
    ∀ w : AssignWorld, (∀ item ∈ items, item ≠ .null ∧ item ≠ .undefined) →
      ∃ added : List AssignCall,
        (assignmentCalls pf p token teacherId items w).2 = { w with posts := w.posts ++ added } ∧
        (assignmentCalls pf p token teacherId items w).1 =
          (resultsOf pf w.posts.length added).map (fun v => Except.ok v) ∧
        added.map (fun c => (Except.ok c.payload : Except JSError JSVal)) =
          items.map (assignmentPayload pf p teacherId) ∧
        ∀ c ∈ added, c.url = lit "/assignments/" ∧ c.authorization = bearer token := by
  induction items with
  | nil =>
    intro w _
    exact ⟨[], by simp [assignmentCalls], by simp [assignmentCalls, resultsOf], rfl, by simp⟩
  | cons item rest ih =>
    intro w h
    obtain ⟨payload, hp⟩ := assignmentPayload_ok pf p teacherId item (h item (by simp))
    have hi : assignItem pf p token teacherId item w =
        (.ok ((pf.post w.posts.length ⟨lit "/assignments/", payload, bearer token⟩).getD .null),
          { w with posts := w.posts ++ [⟨lit "/assignments/", payload, bearer token⟩] }) := by
      unfold assignItem
      rw [hp]
      dsimp only
      cases pf.post w.posts.length ⟨lit "/assignments/", payload, bearer token⟩ <;> rfl
    obtain ⟨added, h1, h2, h3, h4⟩ :=
      ih { w with posts := w.posts ++ [⟨lit "/assignments/", payload, bearer token⟩] }
        (fun x hx => h x (by simp [hx]))
    refine ⟨⟨lit "/assignments/", payload, bearer token⟩ :: added, ?_, ?_, ?_, ?_⟩
    · simp only [assignmentCalls, hi, h1]
      simp
    · simp only [assignmentCalls, hi, h2, resultsOf]
      simp
    · simp [h3, hp]
    · intro c hc
      rcases List.mem_cons.1 hc with rfl | hc
      · exact ⟨rfl, rfl⟩
      · exact h4 c hc

theorem handleSubmitTry_of_preconditions (pf : AssignPlatform) (p : AssignPage) (w : AssignWorld)
    (token teacherId : JSString) (v : JSVal)
    (htoken : storedOr w.localStorage w.sessionStorage (lit "access_token") = some token)
    (hne : token ≠ []) (hsegments : (splitOn 46 token).length = 3)
    (hdecode : decodeForDebug token = .ok v)
    (hplan : truthy p.flashData = true)
    (hlength : truthy (lengthOf (getProp p.flashData (lit "items"))) = true)
    (hteacher : storedOr w.localStorage w.sessionStorage (lit "teacherId") = some teacherId)
    (hteacherId : teacherId ≠ []) :
    handleSubmitTry pf p w = assignPlan pf p w token teacherId := by
  unfold handleSubmitTry
  rw [htoken]
  dsimp only
  rw [if_neg (by simp [hne, hsegments]), hdecode]
  dsimp only
  rw [if_neg (by simp [hplan, hlength]), hteacher]
  dsimp only
  rw [if_neg (by simpa using hteacherId)]

theorem assignPlan_spec (pf : AssignPlatform) (p : AssignPage) (w : AssignWorld)
    (token teacherId : JSString) (items : List JSVal)
    (hitems : getProp p.flashData (lit "items") = .arr items)
    (hall : ∀ item ∈ items, item ≠ .null ∧ item ≠ .undefined) :
    ∃ added : List AssignCall,
      added.map (fun c => (Except.ok c.payload : Except JSError JSVal)) =
        items.map (assignmentPayload pf p teacherId) ∧
      (∀ c ∈ added, c.url = lit "/assignments/" ∧ c.authorization = bearer token) ∧
      assignPlan pf p w token teacherId =
        afterResults pf p { w with posts := w.posts ++ added } (resultsOf pf w.posts.length added) := by
  obtain ⟨added, h1, h2, h3, h4⟩ := assignmentCalls_spec pf p token teacherId items w hall
  refine ⟨added, h3, h4, ?_⟩
  unfold assignPlan
  rw [hitems]
  dsimp only
  rw [h2, promiseAll_map_ok, h1]

/-! ## Flash assignment page: claims -/

/-- C21 fails on the code: `handleSubmit` never examines the first or the third segment
of the token.  The header `?` and the signature `?` of the stored token `?.e30.?` are
not base64 text, yet the token passes the check: no error is reported and the one item
of the plan is sent. -/
theorem handleSubmit_accepts_invalid_header_and_signature :
    atob (lit "?") = .error .invalidCharacterError ∧
    (handleSubmit (platformOf fun _ _ => some (.obj [])) (pageOf (planOf [sampleItem (lit "1")]))
      (AssignWorld.ofStore (tokenStore (lit "?.e30.?")))).2.toastErrors = [] ∧
    (handleSubmit (platformOf fun _ _ => some (.obj [])) (pageOf (planOf [sampleItem (lit "1")]))
      (AssignWorld.ofStore (tokenStore (lit "?.e30.?")))).2.posts.length = 1 :=
  ⟨rfl, rfl, rfl⟩

/-- What the token check does reject: when the token read from the stores is absent or
empty, or does not split into exactly three segments at the dots, or its second segment
does not decode (`atob`, then `JSON.parse`, then the read of a property) without an
exception, `handleSubmit` reports one of the two auth-token errors and does nothing
else: no request is issued and `isSubmitting` ends `false`. -/
theorem handleSubmit_token_check (pf : AssignPlatform) (p : AssignPage) (w : AssignWorld)
    (h : ∀ token, storedOr w.localStorage w.sessionStorage (lit "access_token") = some token →
      token = [] ∨ (splitOn 46 token).length ≠ 3 ∨ ∃ e, decodeForDebug token = .error e) :
    (handleSubmit pf p w).1 = { p with isSubmitting := false } ∧
    (handleSubmit pf p w).2.posts = w.posts ∧
    ((handleSubmit pf p w).2 =
        { w with
          toastErrors := w.toastErrors ++ [lit "Invalid or missing auth token. Please login again."] } ∨
      (handleSubmit pf p w).2 =
        { w with
          toastErrors := w.toastErrors ++ [lit "Auth token is corrupted. Please login again."] }) := by
  have key : ∃ message,
      (message = lit "Invalid or missing auth token. Please login again." ∨
        message = lit "Auth token is corrupted. Please login again.") ∧
      handleSubmitTry pf { p with isSubmitting := true } w =
        stopWith message { p with isSubmitting := true } w := by
    unfold handleSubmitTry
    cases hs : storedOr w.localStorage w.sessionStorage (lit "access_token") with
    | none => exact ⟨_, Or.inl rfl, rfl⟩
    | some token =>
      dsimp only
      by_cases hc : token.isEmpty ∨ (splitOn 46 token).length ≠ 3
      · rw [if_pos hc]
        exact ⟨_, Or.inl rfl, rfl⟩
      · rw [if_neg hc]
        rcases h token hs with h1 | h2 | ⟨e, h3⟩
        · exact absurd (Or.inl (by simp [h1])) hc
        · exact absurd (Or.inr h2) hc
        · rw [h3]
          exact ⟨_, Or.inr rfl, rfl⟩
  obtain ⟨message, hm, ht⟩ := key
  have hr := handleSubmit_of_stop pf p w message ht
  refine ⟨handleSubmit_page pf p w, by rw [hr], ?_⟩
  rcases hm with hm | hm
  · left; rw [hr, hm]
  · right; rw [hr, hm]

/-- The token check at the stored token `h.bnVsbA.s`, whose second segment is the base64
text of `null`. -/
theorem handleSubmit_token_check_witness :
    (handleSubmit (platformOf fun _ _ => some (.obj [])) (pageOf (planOf [sampleItem (lit "1")]))
      (AssignWorld.ofStore (tokenStore (lit "h.bnVsbA.s")))).2.posts = [] :=
  (handleSubmit_token_check (platformOf fun _ _ => some (.obj []))
    (pageOf (planOf [sampleItem (lit "1")])) (AssignWorld.ofStore (tokenStore (lit "h.bnVsbA.s")))
    (fun _ ht => Option.some.inj ht ▸ Or.inr (Or.inr ⟨.typeError, rfl⟩))).2.1

/-- C22 fails in the code: with the access-token key configured as `jwt`, `login` stores
the token under `jwt`, the request interceptor reads it there and `logout` removes it
there, but `handleSubmit` reads the fixed key `access_token`, finds nothing, reports
a missing token and issues no request. -/
theorem handleSubmit_ignores_configured_key :
    (login ⟨some (lit "jwt"), none⟩ (loginNet (.str (lit "h.e30.s")) (.str (lit "7")))
      sampleCredentials Session.initial World.fresh).1 = .success ∧
    (login ⟨some (lit "jwt"), none⟩ (loginNet (.str (lit "h.e30.s")) (.str (lit "7")))
      sampleCredentials Session.initial World.fresh).2.2.storage (lit "jwt") = some (lit "h.e30.s") ∧
    (requestInterceptor ⟨some (lit "jwt"), none⟩
      (login ⟨some (lit "jwt"), none⟩ (loginNet (.str (lit "h.e30.s")) (.str (lit "7")))
        sampleCredentials Session.initial World.fresh).2.2.storage sampleRequest).authorization =
      some (bearer (lit "h.e30.s")) ∧
    (logout ⟨some (lit "jwt"), none⟩ Session.initial
      (login ⟨some (lit "jwt"), none⟩ (loginNet (.str (lit "h.e30.s")) (.str (lit "7")))
        sampleCredentials Session.initial World.fresh).2.2).2.storage (lit "jwt") = none ∧
    (handleSubmit (platformOf fun _ _ => some (.obj [])) (pageOf (planOf [sampleItem (lit "1")]))
      (AssignWorld.ofStore
        (login ⟨some (lit "jwt"), none⟩ (loginNet (.str (lit "h.e30.s")) (.str (lit "7")))
          sampleCredentials Session.initial World.fresh).2.2.storage)).2.toastErrors =
      [lit "Invalid or missing auth token. Please login again."] ∧
    (handleSubmit (platformOf fun _ _ => some (.obj [])) (pageOf (planOf [sampleItem (lit "1")]))
      (AssignWorld.ofStore
        (login ⟨some (lit "jwt"), none⟩ (loginNet (.str (lit "h.e30.s")) (.str (lit "7")))
          sampleCredentials Session.initial World.fresh).2.2.storage)).2.posts = [] :=
  ⟨rfl, rfl, rfl, rfl, rfl, rfl⟩

/-- C30, as stated, fails twice.  A request that succeeds with the body `null` is counted
as failed: with one item and such an answer the request is issued and fulfilled, yet
`handleSubmit` reports that no assignment was created, records nothing and does not
navigate.  And a plan with a `null` item passes the preconditions, but no request is
issued for that item and no count is reported: the handler ends in `Failed to assign.` -/
theorem handleSubmit_count_differs :
    ((handleSubmit (platformOf fun _ _ => some .null) (pageOf (planOf [sampleItem (lit "1")]))
        (AssignWorld.ofStore (tokenStore (lit "h.e30.s")))).2.posts.length = 1 ∧
      (handleSubmit (platformOf fun _ _ => some .null) (pageOf (planOf [sampleItem (lit "1")]))
        (AssignWorld.ofStore (tokenStore (lit "h.e30.s")))).2.toastErrors =
          [lit "No assignments were created."] ∧
      (handleSubmit (platformOf fun _ _ => some .null) (pageOf (planOf [sampleItem (lit "1")]))
        (AssignWorld.ofStore (tokenStore (lit "h.e30.s")))).2.sessionStorage (lit "flashAssignment") =
          none ∧
      (handleSubmit (platformOf fun _ _ => some .null) (pageOf (planOf [sampleItem (lit "1")]))
        (AssignWorld.ofStore (tokenStore (lit "h.e30.s")))).2.navigations = []) ∧
    (truthy (lengthOf (getProp (planOf [sampleItem (lit "1"), .null, sampleItem (lit "3")])
        (lit "items"))) = true ∧
      (handleSubmit (platformOf fun _ _ => some (.obj []))
        (pageOf (planOf [sampleItem (lit "1"), .null, sampleItem (lit "3")]))
        (AssignWorld.ofStore (tokenStore (lit "h.e30.s")))).2.posts.length = 2 ∧
      (handleSubmit (platformOf fun _ _ => some (.obj []))
        (pageOf (planOf [sampleItem (lit "1"), .null, sampleItem (lit "3")]))
        (AssignWorld.ofStore (tokenStore (lit "h.e30.s")))).2.toastErrors = [lit "Failed to assign."] ∧
      (handleSubmit (platformOf fun _ _ => some (.obj []))
        (pageOf (planOf [sampleItem (lit "1"), .null, sampleItem (lit "3")]))
        (AssignWorld.ofStore (tokenStore (lit "h.e30.s")))).2.toastSuccesses = []) :=
  ⟨⟨rfl, rfl, rfl, rfl⟩, ⟨rfl, rfl, rfl, rfl⟩⟩

/-- C30, amended: `handleSubmit` ends with `isSubmitting = false` on every path.  When
it passes its preconditions (a stored token of three segments whose second decodes, a
plan whose `items` has a truthy length, a stored teacher id) and `items` is an array
without `null` or `undefined` entries, it issues exactly one request per item, in item
order, each carrying that item's payload and the token.  The success count is the number
of these requests that fulfil with a body other than `null`, at most the number of
items.  When the count is zero it reports that no assignment was created and does
nothing else; otherwise it announces the count, writes the record under
`flashAssignment` and navigates to `/notification-sent`. -/
theorem handleSubmit_assigns_each_item (pf : AssignPlatform) (p : AssignPage) (w : AssignWorld) :
    (handleSubmit pf p w).1 = { p with isSubmitting := false } ∧
    ∀ (token teacherId : JSString) (v : JSVal) (items : List JSVal),
      storedOr w.localStorage w.sessionStorage (lit "access_token") = some token →
      token ≠ [] → (splitOn 46 token).length = 3 → decodeForDebug token = .ok v →
      truthy (lengthOf (getProp p.flashData (lit "items"))) = true →
      storedOr w.localStorage w.sessionStorage (lit "teacherId") = some teacherId →
      teacherId ≠ [] →
      getProp p.flashData (lit "items") = .arr items →
      (∀ item ∈ items, item ≠ .null ∧ item ≠ .undefined) →
      ∃ added : List AssignCall,
        (handleSubmit pf p w).2.posts = w.posts ++ added ∧
        added.map (fun c => (Except.ok c.payload : Except JSError JSVal)) =
          items.map (assignmentPayload pf p teacherId) ∧
        (∀ c ∈ added, c.url = lit "/assignments/" ∧ c.authorization = bearer token) ∧
        fulfilledCount pf w.posts.length added ≤ items.length ∧
        (fulfilledCount pf w.posts.length added = 0 →
          (handleSubmit pf p w).2 =
            { w with
              posts := w.posts ++ added,
              toastErrors := w.toastErrors ++ [lit "No assignments were created."] }) ∧
        (0 < fulfilledCount pf w.posts.length added →
          (handleSubmit pf p w).2 =
            { w with
              posts := w.posts ++ added,
              toastSuccesses := w.toastSuccesses ++
                [natText (fulfilledCount pf w.posts.length added) ++ lit " assignment(s) created!"],
              sessionStorage :=
                (Storage.setItem w.sessionStorage (lit "flashAssignment")
                  (pf.stringify (assignmentRecord pf p (resultsOf pf w.posts.length added)))),
              navigations := w.navigations ++ [lit "/notification-sent"] }) := by
  refine ⟨handleSubmit_page pf p w, ?_⟩
  intro token teacherId v items htoken hne hsegments hdecode hlength hteacher hteacherId hitems hall
  have hplan : truthy p.flashData = true := by
    cases hf : p.flashData with
    | obj props => rfl
    | _ => simp [hf, getProp] at hitems
  have htry := handleSubmitTry_of_preconditions pf { p with isSubmitting := true } w token
    teacherId v htoken hne hsegments hdecode hplan hlength hteacher hteacherId
  obtain ⟨added, h1, h2, h3⟩ :=
    assignPlan_spec pf { p with isSubmitting := true } w token teacherId items hitems hall
  have hlen : added.length = items.length := by
    have := congrArg List.length h1
    simpa using this
  have hpay : items.map (assignmentPayload pf { p with isSubmitting := true } teacherId) =
      items.map (assignmentPayload pf p teacherId) :=
    List.map_congr_left fun item _ => assignmentPayload_submitting pf p true teacherId item
  have hcount := fulfilledCount_eq pf added w.posts.length
  refine ⟨added, ?_, h1.trans hpay, h2, ?_, ?_, ?_⟩
  · by_cases h0 : fulfilledCount pf w.posts.length added = 0
    · simp [handleSubmit, htry, h3, afterResults, hcount, h0, stopWith]
    · simp [handleSubmit, htry, h3, afterResults, hcount, h0]
  · exact hlen ▸ fulfilledCount_le pf added w.posts.length
  · intro h0
    simp [handleSubmit, htry, h3, afterResults, hcount, h0, stopWith]
  · intro h0
    have h0 : fulfilledCount pf w.posts.length added ≠ 0 := by omega
    simp [handleSubmit, htry, h3, afterResults, hcount, h0]
    rfl

/-- C30, amended, at a plan of two items whose first request fulfils and whose second
rejects: two requests are issued and the count is one. -/
theorem handleSubmit_assigns_each_item_witness :
    ∃ added : List AssignCall,
      (handleSubmit (platformOf fun k _ => if k = 0 then some (.obj []) else none)
        (pageOf (planOf [sampleItem (lit "1"), sampleItem (lit "2")]))
        (AssignWorld.ofStore (tokenStore (lit "h.e30.s")))).2.posts = added ∧
      added.length = 2 ∧
      fulfilledCount (platformOf fun k _ => if k = 0 then some (.obj []) else none) 0 added ≤ 2 :=
  have h := (handleSubmit_assigns_each_item
    (platformOf fun k _ => if k = 0 then some (.obj []) else none)
    (pageOf (planOf [sampleItem (lit "1"), sampleItem (lit "2")]))
    (AssignWorld.ofStore (tokenStore (lit "h.e30.s")))).2 (lit "h.e30.s") (lit "7") .undefined
    [sampleItem (lit "1"), sampleItem (lit "2")] rfl (by decide) (by decide) rfl rfl rfl (by decide)
    rfl (by
      intro item hitem
      simp only [List.mem_cons, List.mem_singleton, List.not_mem_nil, or_false] at hitem
      rcases hitem with rfl | rfl <;> exact ⟨(fun h => nomatch h), (fun h => nomatch h)⟩)
  h.elim fun added ha => ⟨added, ha.1, by simpa using congrArg List.length ha.2.1, ha.2.2.2.1⟩

end TME
